import Mathlib

/-! # StaticCurrentsPlugin: the real-time signal chain of `processBlock`

A shallow embedding of the per-sample arithmetic of
`StaticCurrentsPluginAudioProcessor::processBlock` and of `prepareToPlay`
(Source/PluginProcessor.cpp), of the oversampled tube processor
(Source/TubeSaturation.h) and of the response curve of the EQ display
(Source/EQComponent.h).

Conventions of the embedding:

* a `float` that is finite is a rational number and the arithmetic on it is exact;
  where the source tests `std::isnan` / `std::isinf`, the tested value is an
  `Option ℚ` whose `none` stands for a non-finite float;
* the C and JUCE library functions without a rational closed form (`std::tanh`,
  `std::exp`, `std::sin`, `juce::Decibels::decibelsToGain`, ...) are parameters of
  the definitions that call them; theorems state the properties of these
  functions they rely on as hypotheses;
* an audio buffer is a list of channels, a channel a list of samples.
-/

namespace StaticCurrents

/-! ## Library helpers -/

/-- `juce::jlimit (lo, hi, v)`: `v < lo ? lo : (hi < v ? hi : v)`. -/
def jlimit (lo hi v : ℚ) : ℚ :=
  if v < lo then lo else if hi < v then hi else v

/-- `juce::jmax (a, b)`: `a < b ? b : a`. -/
def jmax (a b : ℚ) : ℚ := if a < b then b else a

/-- `juce::jmin (a, b)`: `b < a ? b : a`. -/
def jmin (a b : ℚ) : ℚ := if b < a then b else a

/-- `juce::AudioBuffer::applyGain (g)`: every sample of every channel is
multiplied by `g`. -/
def applyGain (g : ℚ) (buffer : List (List ℚ)) : List (List ℚ) :=
  buffer.map (fun channel => channel.map (fun x => x * g))

/-- Product of two floats either of which may be non-finite (`none`): a
non-finite operand gives a non-finite product. -/
def fmul (a b : Option ℚ) : Option ℚ :=
  match a, b with
  | some x, some y => some (x * y)
  | _, _ => none

/-! ## Bypass branch (PluginProcessor.cpp 1112-1119) -/

/-- The `else` branch of `if (!bypass.load())`: gain and global output only. -/
def processBlockBypassed (decibelsToGain : ℚ → ℚ) (gain globalOutput : ℚ)
    (buffer : List (List ℚ)) : List (List ℚ) :=
  let currentGain := gain
  let globalOutDb := globalOutput
  let globalGain := decibelsToGain globalOutDb
  applyGain (currentGain * globalGain) buffer

/-! ## Global output trim and safety limiter (PluginProcessor.cpp 1083-1110) -/

/-- The body of the inner loop after `float sample = data[i] * globalGain`:
NaN/Inf protection, denormal protection, soft clipper. The argument is the
post-trim sample. -/
def safetyLimiter (tanh : ℚ → ℚ) (trimmed : Option ℚ) : ℚ :=
  -- NaN/Inf protection
  let sample : ℚ := match trimmed with
    | some s => s
    | none => 0
  -- Denormal protection
  let sample := if |sample| < 1 / 10 ^ 15 then 0 else sample
  -- Soft clipper/limiter
  if sample > 1 then 1 + tanh ((sample - 1) * (1 / 2)) * (1 / 10)
  else if sample < -1 then -1 + tanh ((sample + 1) * (1 / 2)) * (1 / 10)
  else sample

/-- Step 5 of `processBlock`: every sample of every channel is multiplied by
`globalGain` and passed through the safety limiter. -/
def outputTrimAndLimit (tanh : ℚ → ℚ) (globalGain : Option ℚ)
    (buffer : List (List (Option ℚ))) : List (List ℚ) :=
  buffer.map (fun data => data.map (fun d => safetyLimiter tanh (fmul d globalGain)))

/-- What the limiter needs of `std::tanh`: positive and at most 1 on positive
arguments, negative and at least -1 on negative ones. -/
def TanhSignBounded (tanh : ℚ → ℚ) : Prop :=
  (∀ y : ℚ, 0 < y → 0 < tanh y ∧ tanh y ≤ 1) ∧
  (∀ y : ℚ, y < 0 → -1 ≤ tanh y ∧ tanh y < 0)

/-- What a ceiling needs of `std::tanh`: values in `[-1, 1]`. -/
def TanhBounded (tanh : ℚ → ℚ) : Prop :=
  ∀ y : ℚ, -1 ≤ tanh y ∧ tanh y ≤ 1

/-- A rational stand-in for `std::tanh` with the same sign, parity and range,
used to evaluate the definitions on concrete inputs. -/
def tanhModel (y : ℚ) : ℚ := y / (1 + |y|)

/-! ## FET-style compressor (PluginProcessor.cpp 761-835)

The loop runs over sample indices and, inside, over channels: the compressor
sees the buffer as a sequence of frames, a frame holding the samples of all
channels at one index. -/

/-- The field `compKneeWidth = 6.0f` of PluginProcessor.h. -/
def compKneeWidth : ℚ := 6

/-- `attackCoeff = 1 - exp (-1 / (attackTime * sampleRate * 0.5))`. -/
def attackCoeff (exp : ℚ → ℚ) (attackTime sampleRate : ℚ) : ℚ :=
  1 - exp (-1 / (attackTime * sampleRate * (1 / 2)))

/-- `releaseCoeff = 1 - exp (-1 / (releaseTime * sampleRate))`. -/
def releaseCoeff (exp : ℚ → ℚ) (releaseTime sampleRate : ℚ) : ℚ :=
  1 - exp (-1 / (releaseTime * sampleRate))

/-- Peak detection: `peak = 0; for ch: peak = jmax (peak, abs (sample))`. -/
def framePeak (frame : List ℚ) : ℚ :=
  frame.foldl (fun peak x => jmax peak |x|) 0

/-- The detected level `gainToDecibels (peak + 0.0001f)` of a frame. -/
def framePeakDb (gainToDecibels : ℚ → ℚ) (frame : List ℚ) : ℚ :=
  gainToDecibels (framePeak frame + 1 / 10000)

/-- Soft-knee gain reduction of one sample index (lines 780-805). -/
def gainReduction (threshold ratio peakDb : ℚ) : ℚ :=
  if peakDb > threshold - compKneeWidth / 2 then
    if peakDb < threshold + compKneeWidth / 2 then
      -- In the knee region
      let kneeInput := peakDb - threshold + compKneeWidth / 2
      let kneeSquared := kneeInput * kneeInput
      kneeSquared / (2 * compKneeWidth) * (1 - 1 / ratio)
    else
      -- Above knee
      let excess := peakDb - threshold
      let gainReduction := excess * (1 - 1 / ratio)
      if gainReduction > 10 then
        let satAmount := (gainReduction - 10) * (5 / 100)
        gainReduction + satAmount * satAmount
      else gainReduction
  else 0

/-- Envelope follower with denormal protection (lines 807-813). -/
def envelopeStep (attackCoeff releaseCoeff compEnvelope gainReduction : ℚ) : ℚ :=
  let coeff := if gainReduction > compEnvelope then attackCoeff else releaseCoeff
  let compEnvelope := compEnvelope + (gainReduction - compEnvelope) * coeff
  if |compEnvelope| < 1 / 10 ^ 15 then 0 else compEnvelope

/-- Makeup gain and coloration applied to one channel sample (lines 820-833).
The NaN/Inf fallback of the source guards non-finite floats only and never
fires on the finite values of this embedding. -/
def compressSample (tanh : ℚ → ℚ) (compEnvelope compGain x : ℚ) : ℚ :=
  let sample := x * compGain
  if compEnvelope > 3 then
    let colorAmount := jmin (compEnvelope * (2 / 100)) (15 / 100)
    sample + colorAmount * tanh (sample * 3) * (2 / 10)
  else sample

/-- One iteration of the sample loop: new envelope and the rewritten frame. -/
def compressorStep (tanh decibelsToGain gainToDecibels : ℚ → ℚ)
    (attackCoeff releaseCoeff threshold ratio makeup : ℚ)
    (compEnvelope : ℚ) (frame : List ℚ) : ℚ × List ℚ :=
  let peakDb := framePeakDb gainToDecibels frame
  let gr := gainReduction threshold ratio peakDb
  let compEnvelope := envelopeStep attackCoeff releaseCoeff compEnvelope gr
  let compGain := decibelsToGain (-compEnvelope + makeup)
  (compEnvelope, frame.map (compressSample tanh compEnvelope compGain))

/-- The sample loop over a block with fixed coefficients. -/
def compressorLoop (tanh decibelsToGain gainToDecibels : ℚ → ℚ)
    (attackCoeff releaseCoeff threshold ratio makeup : ℚ) :
    ℚ → List (List ℚ) → ℚ × List (List ℚ)
  | compEnvelope, [] => (compEnvelope, [])
  | compEnvelope, frame :: rest =>
    let r := compressorStep tanh decibelsToGain gainToDecibels
      attackCoeff releaseCoeff threshold ratio makeup compEnvelope frame
    let t := compressorLoop tanh decibelsToGain gainToDecibels
      attackCoeff releaseCoeff threshold ratio makeup r.1 rest
    (t.1, r.2 :: t.2)

/-- Step 3 of `processBlock`: coefficients from the time constants, then the
sample loop. Returns the envelope left in `compEnvelope` and the block. -/
def compressBlock (tanh exp decibelsToGain gainToDecibels : ℚ → ℚ) (sampleRate : ℚ)
    (threshold ratio attackTime releaseTime makeup : ℚ)
    (compEnvelope : ℚ) (frames : List (List ℚ)) : ℚ × List (List ℚ) :=
  compressorLoop tanh decibelsToGain gainToDecibels
    (attackCoeff exp attackTime sampleRate) (releaseCoeff exp releaseTime sampleRate)
    threshold ratio makeup compEnvelope frames

/-- The largest instantaneous gain reduction computed over a block (0 for the
empty block). -/
def maxGainReduction (gainToDecibels : ℚ → ℚ) (threshold ratio : ℚ) :
    List (List ℚ) → ℚ
  | [] => 0
  | frame :: rest =>
    max (gainReduction threshold ratio (framePeakDb gainToDecibels frame))
      (maxGainReduction gainToDecibels threshold ratio rest)

/-- What the coefficients need of `std::exp`: values in `[0, 1]` on negative
arguments. -/
def ExpUnitOnNeg (exp : ℚ → ℚ) : Prop :=
  ∀ y : ℚ, y < 0 → 0 ≤ exp y ∧ exp y ≤ 1

/-- A rational stand-in for `std::exp` on non-positive arguments. -/
def expModel (y : ℚ) : ℚ := 1 / (1 + |y|)

/-- A rational stand-in for `juce::Decibels::gainToDecibels`, increasing and 0
at gain 1. -/
def gainToDecibelsModel (g : ℚ) : ℚ := 20 * (g - 1)

/-- A rational stand-in for `juce::Decibels::decibelsToGain`, the inverse of
`gainToDecibelsModel`. -/
def decibelsToGainModel (d : ℚ) : ℚ := 1 + d / 20

/-! ## Six-model saturation blender (PluginProcessor.cpp 868-1081) -/

/-- `juce::jlimit` on `int`. -/
def jlimitInt (lo hi v : ℤ) : ℤ :=
  if v < lo then lo else if hi < v then hi else v

/-- `static_cast<int> (std::round (v))`: the nearest integer, halves rounded
away from zero. -/
def roundToInt (v : ℚ) : ℤ :=
  if 0 ≤ v then ⌊v + 1 / 2⌋ else -⌊-v + 1 / 2⌋

/-- The 24 parameters of the six saturation bundles, as loaded from the
atomics at lines 877-905. -/
structure SatParams where
  tubeDriveVal : ℚ
  tubeWarmthVal : ℚ
  tubeBiasVal : ℚ
  tubeOutVal : ℚ
  transistorDriveVal : ℚ
  transistorBiteVal : ℚ
  transistorClipVal : ℚ
  transistorOutVal : ℚ
  tapeDriveVal : ℚ
  tapeWowVal : ℚ
  tapeHissVal : ℚ
  tapeOutVal : ℚ
  diodeDriveVal : ℚ
  diodeAsymVal : ℚ
  diodeClipVal : ℚ
  diodeOutVal : ℚ
  fuzzDriveVal : ℚ
  fuzzGateVal : ℚ
  fuzzToneVal : ℚ
  fuzzOutVal : ℚ
  bitDepthVal : ℚ
  bitRateVal : ℚ
  bitMixVal : ℚ
  bitOutVal : ℚ
  deriving DecidableEq

/-- The six model weights. -/
structure Weights where
  tubeWeight : ℚ
  transistorWeight : ℚ
  tapeWeight : ℚ
  diodeWeight : ℚ
  fuzzWeight : ℚ
  bitWeight : ℚ
  deriving DecidableEq

/-- The heuristic weights before clamping (lines 922-947). -/
def rawWeights (P : SatParams) : Weights :=
  let depthWeight := (16 - P.bitDepthVal) / 14
  let rateWeight := (P.bitRateVal - 1) / 15
  { tubeWeight := (P.tubeDriveVal / 10) * (65 / 100)
      + P.tubeWarmthVal * (18 / 100)
      + |P.tubeBiasVal| * (7 / 100)
      + |P.tubeOutVal - 1| * (10 / 100)
    transistorWeight := (P.transistorDriveVal / 10) * (55 / 100)
      + P.transistorBiteVal * (22 / 100)
      + P.transistorClipVal * (13 / 100)
      + |P.transistorOutVal - 1| * (10 / 100)
    tapeWeight := (P.tapeDriveVal / 10) * (55 / 100)
      + P.tapeWowVal * (18 / 100)
      + P.tapeHissVal * (17 / 100)
      + |P.tapeOutVal - 1| * (10 / 100)
    diodeWeight := (P.diodeDriveVal / 10) * (55 / 100)
      + P.diodeAsymVal * (18 / 100)
      + P.diodeClipVal * (17 / 100)
      + |P.diodeOutVal - 1| * (10 / 100)
    fuzzWeight := (P.fuzzDriveVal / 10) * (55 / 100)
      + P.fuzzGateVal * (15 / 100)
      + (1 - P.fuzzToneVal) * (20 / 100)
      + |P.fuzzOutVal - 1| * (10 / 100)
    bitWeight := P.bitMixVal * (55 / 100)
      + depthWeight * (2 / 10)
      + rateWeight * (15 / 100)
      + |P.bitOutVal - 1| * (10 / 100) }

/-- The six `jlimit (0.0f, 1.0f, ...)` of lines 949-954. -/
def clampWeights (w : Weights) : Weights :=
  { tubeWeight := jlimit 0 1 w.tubeWeight
    transistorWeight := jlimit 0 1 w.transistorWeight
    tapeWeight := jlimit 0 1 w.tapeWeight
    diodeWeight := jlimit 0 1 w.diodeWeight
    fuzzWeight := jlimit 0 1 w.fuzzWeight
    bitWeight := jlimit 0 1 w.bitWeight }

/-- The constant `focusBoost = 1.1f`. -/
def focusBoost : ℚ := 11 / 10

/-- The six `if (satType == k) weight *= focusBoost` of lines 956-962. -/
def applyFocusBoost (satType : ℤ) (w : Weights) : Weights :=
  { tubeWeight := if satType = 1 then w.tubeWeight * focusBoost else w.tubeWeight
    transistorWeight :=
      if satType = 2 then w.transistorWeight * focusBoost else w.transistorWeight
    tapeWeight := if satType = 3 then w.tapeWeight * focusBoost else w.tapeWeight
    diodeWeight := if satType = 4 then w.diodeWeight * focusBoost else w.diodeWeight
    fuzzWeight := if satType = 5 then w.fuzzWeight * focusBoost else w.fuzzWeight
    bitWeight := if satType = 6 then w.bitWeight * focusBoost else w.bitWeight }

/-- The weights that enter the blend: computed, clamped, then boosted. -/
def blendWeights (P : SatParams) (satType : ℤ) : Weights :=
  applyFocusBoost satType (clampWeights (rawWeights P))

/-- The value of `weightSum` at line 1062. -/
def Weights.weightSum (w : Weights) : ℚ :=
  w.tubeWeight + w.transistorWeight + w.tapeWeight + w.diodeWeight + w.fuzzWeight
    + w.bitWeight

/-- The constant `preAtten = 0.7f`. -/
def preAtten : ℚ := 7 / 10

/-- Tube model (lines 968-975). -/
def tubeModel (tanh : ℚ → ℚ) (P : SatParams) (dryScaled : ℚ) : ℚ :=
  let tubeDrive := 1 + P.tubeDriveVal * (6 / 10)
  let tubeBias := P.tubeBiasVal * (1 / 2)
  let tubeWarm := 6 / 10 + P.tubeWarmthVal * 2
  let tubeDriven := (dryScaled + tubeBias) * tubeDrive
  let tubeEven := |tubeDriven| * tubeDriven * (1 / 4 * P.tubeWarmthVal)
  let tubeSat := tanh ((tubeDriven + tubeEven) * tubeWarm)
  let tubeComp := 1 / (1 + |tubeSat| * (6 / 10))
  tubeSat * tubeComp * P.tubeOutVal / preAtten

/-- Transistor model (lines 977-990). -/
def transistorModel (tanh : ℚ → ℚ) (P : SatParams) (dryScaled : ℚ) : ℚ :=
  let transDrive := 1 + P.transistorDriveVal * (6 / 10)
  let transBite := jlimit 0 1 P.transistorBiteVal
  let transClip := 9 / 10 - P.transistorClipVal * (7 / 10)
  let transDriven := dryScaled * transDrive
  let transClipped := jlimit (-transClip) transClip transDriven
  let transSoft := tanh (transClipped * (1 + transBite * 4))
  let transHard := transClipped / transClip
  let transSat := jlimit (-1) 1 (transSoft * (1 - transBite) + transHard * transBite)
  let crossover := transSat * (5 / 100) * (1 - |transSat|)
  let transSat := transSat + crossover * transBite
  transSat * P.transistorOutVal / preAtten

/-- Advance of the shared wow phase (lines 992-994). -/
def advanceWowPhase (twoPi wowInc tapeWowPhase : ℚ) : ℚ :=
  let tapeWowPhase := tapeWowPhase + wowInc
  if tapeWowPhase > twoPi then tapeWowPhase - twoPi else tapeWowPhase

/-- Tape model (lines 996-1002), from the already advanced wow phase. -/
def tapeModel (tanh sin : ℚ → ℚ) (P : SatParams) (tapeWowPhase dryScaled : ℚ) : ℚ :=
  let wowMod := 1 + sin tapeWowPhase * P.tapeWowVal * (5 / 100)
  let tapeDrive := 1 + P.tapeDriveVal * 1 * wowMod
  let tapeDriven := dryScaled * tapeDrive
  let tapeComp := tapeDriven / (1 + |tapeDriven| * (7 / 10))
  let tapeSat := tanh (tapeComp * (112 / 100))
  let tapeLoss := 1 - P.tapeHissVal * (6 / 10)
  tapeSat * tapeLoss * P.tapeOutVal / preAtten

/-- Diode model (lines 1004-1021). -/
def diodeModel (tanh : ℚ → ℚ) (P : SatParams) (dryScaled : ℚ) : ℚ :=
  let diodeDrive := 1 + P.diodeDriveVal * (7 / 10)
  let diodeAsym := jlimit 0 1 P.diodeAsymVal
  let diodeClip := 95 / 100 - P.diodeClipVal * (75 / 100)
  let diodeDriven := dryScaled * diodeDrive
  let diodeClipped := jlimit (-diodeClip) diodeClip diodeDriven
  let diodeRect := (1 - diodeAsym) * diodeClipped + diodeAsym * |diodeClipped|
  let fwdDrop : ℚ := (6 / 10) / 10
  let diodeRect :=
    if diodeRect > fwdDrop then diodeRect - fwdDrop
    else if diodeRect < -fwdDrop then diodeRect + fwdDrop
    else 0
  let diodeSat := tanh (diodeRect * (12 / 10 + P.diodeClipVal * 2))
  diodeSat * P.diodeOutVal / preAtten

/-- Fuzz model up to the tone filter (lines 1023-1036): the new `fuzzState`. -/
def fuzzToneStep (P : SatParams) (fuzzState dryScaled : ℚ) : ℚ :=
  let fuzzDrive := 1 + P.fuzzDriveVal * (7 / 10)
  let fuzzGate := P.fuzzGateVal * (12 / 100)
  let fuzzTone := jlimit 0 1 P.fuzzToneVal
  let fuzzDriven := dryScaled * fuzzDrive
  let fuzzed := jlimit (-1) 1 fuzzDriven
  let fuzzed :=
    if |fuzzed| < fuzzGate then fuzzed * (|fuzzed| / jmax (1 / 1000) fuzzGate) else fuzzed
  let octaveUp := |fuzzed| * fuzzed * (1 / 4)
  let fuzzed := fuzzed * (3 / 4) + octaveUp
  let fuzzAlpha := 8 / 100 + (1 - fuzzTone) * (6 / 10)
  fuzzState + fuzzAlpha * (fuzzed - fuzzState)

/-- Bitcrush sample-and-hold (lines 1043-1056): the new counter, the new hold
value and the sample passed to the quantizer. -/
def crushHoldStep (rate : ℤ) (crushCounter : ℤ) (crushHold dryScaled : ℚ) : ℤ × ℚ × ℚ :=
  if rate > 1 then
    if crushCounter ≤ 0 then (rate - 1, dryScaled, dryScaled)
    else (crushCounter - 1, crushHold, crushHold)
  else (crushCounter, crushHold, dryScaled)

/-- Bitcrush quantizer and mix (lines 1039-1041, 1058-1060). -/
def bitcrushOut (P : SatParams) (crushSample dryScaled : ℚ) : ℚ :=
  let bits := jlimitInt 2 16 (roundToInt P.bitDepthVal)
  let step : ℚ := 2 / ((2 ^ bits.toNat : ℕ) : ℚ)
  let quant := (⌊crushSample / step⌋ : ℚ) * step
  let bitWet := jlimit 0 1 P.bitMixVal
  (dryScaled * (1 - bitWet) + quant * bitWet) * P.bitOutVal / preAtten

/-- The state one sample of one channel reads and writes: the wow phase shared
by the channels and the channel's own fuzz and bitcrush state. -/
structure SampleState where
  tapeWowPhase : ℚ
  fuzzState : ℚ
  crushCounter : ℤ
  crushHold : ℚ
  deriving DecidableEq

/-- The weighted blend of lines 1062-1075 from the six model outputs. -/
def blend (w : Weights) (dry tubeOut transOut tapeOut diodeOut fuzzOut bitOut : ℚ) : ℚ :=
  let weightSum := w.weightSum
  if weightSum < 1 / 10000 then dry
  else (tubeOut * w.tubeWeight
        + transOut * w.transistorWeight
        + tapeOut * w.tapeWeight
        + diodeOut * w.diodeWeight
        + fuzzOut * w.fuzzWeight
        + bitOut * w.bitWeight) / weightSum

/-- The body of the inner loop (lines 919-1077): the new state and the sample
written to `data[i]`. -/
def blenderSample (tanh sin : ℚ → ℚ) (twoPi wowInc : ℚ) (P : SatParams) (satType : ℤ)
    (satMix : ℚ) (st : SampleState) (dry : ℚ) : SampleState × ℚ :=
  let w := blendWeights P satType
  let dryScaled := dry * preAtten
  let tubeOut := tubeModel tanh P dryScaled
  let transOut := transistorModel tanh P dryScaled
  let tapeWowPhase := advanceWowPhase twoPi wowInc st.tapeWowPhase
  let tapeOut := tapeModel tanh sin P tapeWowPhase dryScaled
  let diodeOut := diodeModel tanh P dryScaled
  let fuzzState := fuzzToneStep P st.fuzzState dryScaled
  let fuzzOut := fuzzState * P.fuzzOutVal / preAtten
  let rate := jlimitInt 1 16 (roundToInt P.bitRateVal)
  let crush := crushHoldStep rate st.crushCounter st.crushHold dryScaled
  let bitOut := bitcrushOut P crush.2.2 dryScaled
  let processed := blend w dry tubeOut transOut tapeOut diodeOut fuzzOut bitOut
  ({ tapeWowPhase := tapeWowPhase, fuzzState := fuzzState,
     crushCounter := crush.1, crushHold := crush.2.1 },
   dry * (1 - satMix) + processed * satMix)

/-- The inner loop over the samples of one channel. -/
def blenderChannel (tanh sin : ℚ → ℚ) (twoPi wowInc : ℚ) (P : SatParams) (satType : ℤ)
    (satMix : ℚ) : SampleState → List ℚ → SampleState × List ℚ
  | st, [] => (st, [])
  | st, dry :: rest =>
    let r := blenderSample tanh sin twoPi wowInc P satType satMix st dry
    let t := blenderChannel tanh sin twoPi wowInc P satType satMix r.1 rest
    (t.1, r.2 :: t.2)

/-- The saturation state kept between blocks (PluginProcessor.h 265-272). -/
structure SatState where
  tapeWowPhase : ℚ
  fuzzToneStateL : ℚ
  fuzzToneStateR : ℚ
  bitcrushCounterL : ℤ
  bitcrushCounterR : ℤ
  bitcrushHoldL : ℚ
  bitcrushHoldR : ℚ
  deriving DecidableEq

/-- The outer loop over the channels from channel index `ch` on: channel 0 uses
the `L` state, every other channel the `R` state; the wow phase is shared. -/
def blenderChannels (tanh sin : ℚ → ℚ) (twoPi wowInc : ℚ) (P : SatParams) (satType : ℤ)
    (satMix : ℚ) : ℕ → SatState → List (List ℚ) → SatState × List (List ℚ)
  | _, S, [] => (S, [])
  | ch, S, data :: rest =>
    let st : SampleState :=
      if ch = 0 then
        { tapeWowPhase := S.tapeWowPhase, fuzzState := S.fuzzToneStateL,
          crushCounter := S.bitcrushCounterL, crushHold := S.bitcrushHoldL }
      else
        { tapeWowPhase := S.tapeWowPhase, fuzzState := S.fuzzToneStateR,
          crushCounter := S.bitcrushCounterR, crushHold := S.bitcrushHoldR }
    let r := blenderChannel tanh sin twoPi wowInc P satType satMix st data
    let S1 : SatState :=
      if ch = 0 then
        { S with tapeWowPhase := r.1.tapeWowPhase, fuzzToneStateL := r.1.fuzzState,
                 bitcrushCounterL := r.1.crushCounter, bitcrushHoldL := r.1.crushHold }
      else
        { S with tapeWowPhase := r.1.tapeWowPhase, fuzzToneStateR := r.1.fuzzState,
                 bitcrushCounterR := r.1.crushCounter, bitcrushHoldR := r.1.crushHold }
    let t := blenderChannels tanh sin twoPi wowInc P satType satMix (ch + 1) S1 rest
    (t.1, r.2 :: t.2)

/-- The `else` branch of the saturation stage (lines 868-1081): the mix is the
`saturation` parameter clamped to `[0, 1]`, and the blender runs only when the
mix is positive. -/
def legacySaturation (tanh sin : ℚ → ℚ) (twoPi sampleRate : ℚ) (P : SatParams)
    (satType : ℤ) (saturation : ℚ) (S : SatState) (buffer : List (List ℚ)) :
    SatState × List (List ℚ) :=
  let satMix := jlimit 0 1 saturation
  if satMix > 0 then
    let wowRate := 2 / 10 + P.tapeWowVal * 2
    let wowInc := (twoPi * wowRate) / sampleRate
    blenderChannels tanh sin twoPi wowInc P satType satMix 0 S buffer
  else (S, buffer)

/-- A rational stand-in for `std::sin` with values in `[-1, 1]`. -/
def sinModel (y : ℚ) : ℚ := 2 * y / (1 + y * y)

/-- All 24 parameters at the value that gives its model weight 0: drives,
character controls and mixes 0, outputs 1, fuzz tone 1, bit depth 16, rate 1. -/
def silentParams : SatParams :=
  { tubeDriveVal := 0, tubeWarmthVal := 0, tubeBiasVal := 0, tubeOutVal := 1
    transistorDriveVal := 0, transistorBiteVal := 0, transistorClipVal := 0
    transistorOutVal := 1
    tapeDriveVal := 0, tapeWowVal := 0, tapeHissVal := 0, tapeOutVal := 1
    diodeDriveVal := 0, diodeAsymVal := 0, diodeClipVal := 0, diodeOutVal := 1
    fuzzDriveVal := 0, fuzzGateVal := 0, fuzzToneVal := 1, fuzzOutVal := 1
    bitDepthVal := 16, bitRateVal := 1, bitMixVal := 0, bitOutVal := 1 }

/-- All 24 parameters 0. -/
def zeroParams : SatParams :=
  { tubeDriveVal := 0, tubeWarmthVal := 0, tubeBiasVal := 0, tubeOutVal := 0
    transistorDriveVal := 0, transistorBiteVal := 0, transistorClipVal := 0
    transistorOutVal := 0
    tapeDriveVal := 0, tapeWowVal := 0, tapeHissVal := 0, tapeOutVal := 0
    diodeDriveVal := 0, diodeAsymVal := 0, diodeClipVal := 0, diodeOutVal := 0
    fuzzDriveVal := 0, fuzzGateVal := 0, fuzzToneVal := 0, fuzzOutVal := 0
    bitDepthVal := 0, bitRateVal := 0, bitMixVal := 0, bitOutVal := 0 }

/-- The transistor bundle at the top of its documented range (drive 10, bite 1,
clip 1, output 2), the other five bundles at their zero-weight values. -/
def hotTransistorParams : SatParams :=
  { silentParams with
    transistorDriveVal := 10, transistorBiteVal := 1, transistorClipVal := 1
    transistorOutVal := 2 }

/-- Every parameter 0 except the transistor drive, at the top of its range. -/
def drivenTransistorParams : SatParams :=
  { zeroParams with transistorDriveVal := 10 }

/-! ## Peak bands (PluginProcessor.cpp 670-700 and 727-730)

`juce::IIRCoefficients` and `juce::IIRFilter` are JUCE library classes whose
code is not part of the repository sources; they are modelled from sections 3
and 4.1 of the specification. -/

/-- Modelled from the spec: the `FilterCoefficients` record of section 3, the
normalized biquad coefficients `{b0, b1, b2, a1, a2}` that a
`juce::IIRCoefficients` object holds (the JUCE class itself is missing). -/
structure FilterCoefficients where
  b0 : ℚ
  b1 : ℚ
  b2 : ℚ
  a1 : ℚ
  a2 : ℚ
  deriving DecidableEq

/-- Modelled from the spec: the `FilterState` record of section 3, the two delay
registers of a `juce::IIRFilter` (the JUCE class itself is missing). -/
structure FilterState where
  z1 : ℚ
  z2 : ℚ
  deriving DecidableEq

/-- Modelled from the spec: `juce::IIRCoefficients::makePeakFilter`, missing from
the sources, as the RBJ peaking EQ formula of section 4.1 with `A` the square
root of the linear gain, normalized by `a0`. -/
def makePeakFilter (sin cos sqrt : ℚ → ℚ) (twoPi sampleRate frequency Q gainFactor : ℚ) :
    FilterCoefficients :=
  let A := sqrt gainFactor
  let omega := twoPi * frequency / sampleRate
  let alpha := sin omega / (2 * Q)
  let b0 := 1 + alpha * A
  let b1 := -2 * cos omega
  let b2 := 1 - alpha * A
  let a0 := 1 + alpha / A
  let a1 := -2 * cos omega
  let a2 := 1 - alpha / A
  { b0 := b0 / a0, b1 := b1 / a0, b2 := b2 / a0, a1 := a1 / a0, a2 := a2 / a0 }

/-- Modelled from the spec: `processSample` of section 4.1, the per-sample step
of `juce::IIRFilter::processSamples` (missing from the sources):
`y = b0*x + z1; z1 = b1*x - a1*y + z2; z2 = b2*x - a2*y`. -/
def processSample (c : FilterCoefficients) (st : FilterState) (x : ℚ) : FilterState × ℚ :=
  let y := c.b0 * x + st.z1
  ({ z1 := c.b1 * x - c.a1 * y + st.z2, z2 := c.b2 * x - c.a2 * y }, y)

/-- Modelled from the spec: `juce::IIRFilter::processSamples`, the per-sample
step run in place over a channel. -/
def processSamples (c : FilterCoefficients) : FilterState → List ℚ → FilterState × List ℚ
  | st, [] => (st, [])
  | st, x :: rest =>
    let r := processSample c st x
    let t := processSamples c r.1 rest
    (t.1, r.2 :: t.2)

/-- The coefficients of one peak band as `processBlock` derives them (lines
671-674): `makePeakFilter (currentSampleRate, freq, q, decibelsToGain (gain * 1.5f))`. -/
def peakCoeffs (sin cos sqrt decibelsToGain : ℚ → ℚ) (twoPi currentSampleRate : ℚ)
    (p_freq p_gain p_q : ℚ) : FilterCoefficients :=
  makePeakFilter sin cos sqrt twoPi currentSampleRate p_freq p_q
    (decibelsToGain (p_gain * (3 / 2)))

/-- One peak band applied to one channel (lines 675 and 727):
`setCoefficients (peakCoeffs)` then `processSamples`. -/
def peakBand (sin cos sqrt decibelsToGain : ℚ → ℚ) (twoPi currentSampleRate : ℚ)
    (p_freq p_gain p_q : ℚ) (st : FilterState) (data : List ℚ) : FilterState × List ℚ :=
  processSamples
    (peakCoeffs sin cos sqrt decibelsToGain twoPi currentSampleRate p_freq p_gain p_q) st data

/-- A rational stand-in for `std::cos`. -/
def cosModel (y : ℚ) : ℚ := (1 - y * y) / (1 + y * y)

/-- A rational stand-in for `std::sqrt`, exact at 1. -/
def sqrtModel (y : ℚ) : ℚ := (1 + y) / 2

/-! ## EQ response curve (EQComponent.h 280-400) -/

/-- The `FilterType` enumeration of `EQComponent`. -/
inductive FilterType where
  | HighPass
  | Peak
  | LowPass
  deriving DecidableEq

/-- The band arrays of `EQComponent` (`bandType[6]`, `bandFreq[6]`,
`bandGain[6]`, `bandQ[6]`, `bandEnabled[6]`). -/
structure EQBands where
  bandType : Fin 6 → FilterType
  bandFreq : Fin 6 → ℚ
  bandGain : Fin 6 → ℚ
  bandQ : Fin 6 → ℚ
  bandEnabled : Fin 6 → Bool

/-- `EQComponent::setHPF (freq, slope)`: band 0. -/
def setHPF (E : EQBands) (freq slope : ℚ) : EQBands :=
  { E with
    bandFreq := Function.update E.bandFreq 0 freq
    bandQ := Function.update E.bandQ 0 (slope / 12)
    bandType := Function.update E.bandType 0 FilterType.HighPass }

/-- `EQComponent::setLPF (freq, slope)`: band 5. -/
def setLPF (E : EQBands) (freq slope : ℚ) : EQBands :=
  { E with
    bandFreq := Function.update E.bandFreq 5 freq
    bandQ := Function.update E.bandQ 5 (slope / 12)
    bandType := Function.update E.bandType 5 FilterType.LowPass }

/-- The value of `contribution` that one iteration of the loop of
`calculateMagnitudeForFrequency` adds to `magnitude` (0 when the iteration is
skipped by `continue`). -/
def bandContribution (log2 exp : ℚ → ℚ) (E : EQBands) (i : Fin 6) (freq : ℚ) : ℚ :=
  if !E.bandEnabled i || E.bandFreq i ≤ 0 then 0
  else
    match E.bandType i with
    | FilterType.HighPass =>
      -- If slope is 0, filter is bypassed
      if E.bandQ i ≤ 0 then 0
      else
        let ratio := freq / E.bandFreq i
        if ratio < 95 / 100 then
          let slope := E.bandQ i * 12
          let octaves := log2 ratio
          let contribution := slope * 12 * octaves
          jmax contribution (-96)
        else 0
    | FilterType.Peak =>
      let distance := log2 (freq / E.bandFreq i)
      let bandwidth := 1 / (E.bandQ i + 1 / 10)
      let response := exp (-distance * distance / (2 * bandwidth * bandwidth))
      E.bandGain i * response
    | FilterType.LowPass =>
      if E.bandQ i ≤ 0 then 0
      else
        let ratio := freq / E.bandFreq i
        if ratio > 105 / 100 then
          let slope := E.bandQ i * 12
          let octaves := log2 ratio
          let contribution := -slope * 12 * octaves
          jmax contribution (-96)
        else 0

/-- `EQComponent::calculateMagnitudeForFrequency`: the six contributions summed
in band order and clamped to `[-96, 24]`. -/
def calculateMagnitudeForFrequency (log2 exp : ℚ → ℚ) (E : EQBands) (freq : ℚ) : ℚ :=
  let magnitude := (List.finRange 6).foldl
    (fun magnitude i => magnitude + bandContribution log2 exp E i freq) 0
  jlimit (-96) 24 magnitude

/-! ## Slope to stage count and the cascaded HPF/LPF banks
(PluginProcessor.cpp 655-668, 702-738) -/

/-- The conversion of lines 658 and 705:
`(v > 0.0f) ? jlimit (1, 8, static_cast<int> (std::round (v))) : 0`. -/
def slopeToStages (slope_value : ℚ) : ℤ :=
  if slope_value > 0 then jlimitInt 1 8 (roundToInt slope_value) else 0

/-- Modelled from the spec: a `juce::IIRFilter` object (the JUCE class is
missing from the sources), the `BiquadStage` of section 4.1: its current
coefficients and its delay registers. -/
structure IIRFilter where
  coefficients : FilterCoefficients
  state : FilterState
  deriving DecidableEq

/-- Modelled from the spec: `juce::IIRFilter::setCoefficients`, the
`setCoefficients` of section 4.1: the coefficients are replaced, the delay
registers are not touched. -/
def IIRFilter.setCoefficients (f : IIRFilter) (c : FilterCoefficients) : IIRFilter :=
  { f with coefficients := c }

/-- Modelled from the spec: `juce::IIRFilter::processSamples` on a filter object:
the channel is filtered in place and the delay registers advance. -/
def IIRFilter.processSamples (f : IIRFilter) (data : List ℚ) : IIRFilter × List ℚ :=
  let r := StaticCurrents.processSamples f.coefficients f.state data
  ({ f with state := r.1 }, r.2)

/-- The loop `for (stage = 0; stage < stages; ++stage) bank[stage].processSamples (...)`
of lines 723-724 and 735-736, over the stages from the current one on. -/
def cascadeStages : ℕ → List IIRFilter → List ℚ → List IIRFilter × List ℚ
  | 0, bank, data => (bank, data)
  | _ + 1, [], data => ([], data)
  | n + 1, f :: rest, data =>
    let r := f.processSamples data
    let t := cascadeStages n rest r.2
    (r.1 :: t.1, t.2)

/-- One HPF or LPF bank of one channel over one block: when the stage count is
positive every one of the 8 filters receives the fresh coefficients (lines
660-668) and the first `stages` of them run in series (lines 721-725);
otherwise nothing is done. -/
def filterBank (coeffs : FilterCoefficients) (stages : ℤ) (bank : List IIRFilter)
    (data : List ℚ) : List IIRFilter × List ℚ :=
  if stages > 0 then
    cascadeStages stages.toNat (bank.map (fun f => f.setCoefficients coeffs)) data
  else (bank, data)

/-! ## Tube saturation processor (TubeSaturation.h)

The processor is prepared for two channels: its state arrays have two entries
and the embedding covers the channels 0 and 1 of a buffer. The scratch
`oversampledBuffer` is written before it is read in every call of `process`
and is a local list here. -/

/-- The delay registers of one channel: entry `[ch]` of `preEmphZ1`, `preEmphZ2`,
`warmthZ1`, `warmthZ2`, `deEmphZ1`, `deEmphZ2`. -/
structure TubeChannelState where
  preEmphZ1 : ℚ
  preEmphZ2 : ℚ
  warmthZ1 : ℚ
  warmthZ2 : ℚ
  deEmphZ1 : ℚ
  deEmphZ2 : ℚ
  deriving DecidableEq

/-- The members of a `TubeSaturation` object: the three coefficient sets
(`preEmphB0` ... `warmthA2`), the per-channel delay registers, the parameters
and the two sample rates. -/
structure TubeSaturation where
  preEmph : FilterCoefficients
  deEmph : FilterCoefficients
  warmthFilter : FilterCoefficients
  channelState : Fin 2 → TubeChannelState
  drive : ℚ
  warmth : ℚ
  bias : ℚ
  outputGain : ℚ
  currentSampleRate : ℚ
  oversampledRate : ℚ

/-- `TubeSaturation::applyBiquad`: the output and the new `z1`, `z2`. -/
def applyBiquad (input b0 b1 b2 a1 a2 z1 z2 : ℚ) : ℚ × ℚ × ℚ :=
  let output := input * b0 + z1
  let z1 := input * b1 - a1 * output + z2
  let z2 := input * b2 - a2 * output
  (output, z1, z2)

/-- `TubeSaturation::makeHighShelf`. -/
def makeHighShelf (pow : ℚ → ℚ → ℚ) (cos sin sqrt : ℚ → ℚ) (twoPi : ℚ)
    (freq Q gainDb sampleRate : ℚ) : FilterCoefficients :=
  let A := pow 10 (gainDb / 40)
  let w0 := twoPi * freq / sampleRate
  let cosW0 := cos w0
  let sinW0 := sin w0
  let alpha := sinW0 / (2 * Q)
  let sqrtA := sqrt A
  let b0Unnorm := A * ((A + 1) + (A - 1) * cosW0 + 2 * sqrtA * alpha)
  let b1Unnorm := -2 * A * ((A - 1) + (A + 1) * cosW0)
  let b2Unnorm := A * ((A + 1) + (A - 1) * cosW0 - 2 * sqrtA * alpha)
  let a0 := (A + 1) - (A - 1) * cosW0 + 2 * sqrtA * alpha
  let a1Unnorm := 2 * ((A - 1) - (A + 1) * cosW0)
  let a2Unnorm := (A + 1) - (A - 1) * cosW0 - 2 * sqrtA * alpha
  { b0 := b0Unnorm / a0, b1 := b1Unnorm / a0, b2 := b2Unnorm / a0
    a1 := a1Unnorm / a0, a2 := a2Unnorm / a0 }

/-- `TubeSaturation::makeLowShelf`. -/
def makeLowShelf (pow : ℚ → ℚ → ℚ) (cos sin sqrt : ℚ → ℚ) (twoPi : ℚ)
    (freq Q gainDb sampleRate : ℚ) : FilterCoefficients :=
  let A := pow 10 (gainDb / 40)
  let w0 := twoPi * freq / sampleRate
  let cosW0 := cos w0
  let sinW0 := sin w0
  let alpha := sinW0 / (2 * Q)
  let sqrtA := sqrt A
  let b0Unnorm := A * ((A + 1) - (A - 1) * cosW0 + 2 * sqrtA * alpha)
  let b1Unnorm := 2 * A * ((A - 1) - (A + 1) * cosW0)
  let b2Unnorm := A * ((A + 1) - (A - 1) * cosW0 - 2 * sqrtA * alpha)
  let a0 := (A + 1) + (A - 1) * cosW0 + 2 * sqrtA * alpha
  let a1Unnorm := -2 * ((A - 1) + (A + 1) * cosW0)
  let a2Unnorm := (A + 1) + (A - 1) * cosW0 - 2 * sqrtA * alpha
  { b0 := b0Unnorm / a0, b1 := b1Unnorm / a0, b2 := b2Unnorm / a0
    a1 := a1Unnorm / a0, a2 := a2Unnorm / a0 }

/-- `TubeSaturation::updateWarmthFilter`: low shelf at 200 Hz, Q 0.707. -/
def TubeSaturation.updateWarmthFilter (pow : ℚ → ℚ → ℚ) (cos sin sqrt : ℚ → ℚ) (twoPi : ℚ)
    (T : TubeSaturation) : TubeSaturation :=
  { T with warmthFilter :=
      makeLowShelf pow cos sin sqrt twoPi 200 (707 / 1000) T.warmth T.oversampledRate }

/-- `TubeSaturation::updateFilterCoefficients`: pre-emphasis -3 dB and
de-emphasis +3 dB high shelves at 8 kHz, then the warmth filter. -/
def TubeSaturation.updateFilterCoefficients (pow : ℚ → ℚ → ℚ) (cos sin sqrt : ℚ → ℚ)
    (twoPi : ℚ) (T : TubeSaturation) : TubeSaturation :=
  let T1 : TubeSaturation :=
    { T with
      preEmph := makeHighShelf pow cos sin sqrt twoPi 8000 (707 / 1000) (-3) T.oversampledRate
      deEmph := makeHighShelf pow cos sin sqrt twoPi 8000 (707 / 1000) 3 T.oversampledRate }
  T1.updateWarmthFilter pow cos sin sqrt twoPi

/-- All six delay registers of a channel at 0. -/
def TubeChannelState.zero : TubeChannelState :=
  { preEmphZ1 := 0, preEmphZ2 := 0, warmthZ1 := 0, warmthZ2 := 0, deEmphZ1 := 0, deEmphZ2 := 0 }

/-- `TubeSaturation::reset`: the delay registers of both channels are zeroed. -/
def TubeSaturation.reset (T : TubeSaturation) : TubeSaturation :=
  { T with channelState := fun _ => TubeChannelState.zero }

/-- `TubeSaturation::prepare (sampleRate, samplesPerBlock, numChannels)`. -/
def TubeSaturation.prepare (pow : ℚ → ℚ → ℚ) (cos sin sqrt : ℚ → ℚ) (twoPi : ℚ)
    (T : TubeSaturation) (sampleRate : ℚ) : TubeSaturation :=
  let T1 : TubeSaturation :=
    { T with currentSampleRate := sampleRate, oversampledRate := sampleRate * 2 }
  (T1.updateFilterCoefficients pow cos sin sqrt twoPi).reset

/-- `TubeSaturation::setDrive`. -/
def TubeSaturation.setDrive (T : TubeSaturation) (newDrive : ℚ) : TubeSaturation :=
  { T with drive := jlimit (1 / 10) 10 newDrive }

/-- `TubeSaturation::setWarmth`. -/
def TubeSaturation.setWarmth (pow : ℚ → ℚ → ℚ) (cos sin sqrt : ℚ → ℚ) (twoPi : ℚ)
    (T : TubeSaturation) (warmthDb : ℚ) : TubeSaturation :=
  let T1 : TubeSaturation := { T with warmth := jlimit (-12) 6 warmthDb }
  T1.updateWarmthFilter pow cos sin sqrt twoPi

/-- `TubeSaturation::setBias`. -/
def TubeSaturation.setBias (T : TubeSaturation) (newBias : ℚ) : TubeSaturation :=
  { T with bias := jlimit (-1) 1 newBias }

/-- `TubeSaturation::setOutputGain`. -/
def TubeSaturation.setOutputGain (decibelsToGain : ℚ → ℚ) (T : TubeSaturation)
    (gainDb : ℚ) : TubeSaturation :=
  { T with outputGain := decibelsToGain (jlimit (-12) 12 gainDb) }

/-- `TubeSaturation::sanitize`; `none` is a float that is not finite. -/
def sanitize (x : Option ℚ) : ℚ :=
  match x with
  | none => 0
  | some x => if |x| < 1 / 10 ^ 15 then 0 else jlimit (-1) 1 x

/-- The body of the loop of `processOversampledChannel`: the new registers of
the channel and the sample written to `data[i]`. -/
def oversampledSample (tanh : ℚ → ℚ) (T : TubeSaturation) (st : TubeChannelState)
    (sample : ℚ) : TubeChannelState × ℚ :=
  -- Stage 1: Pre-emphasis
  let p := applyBiquad sample T.preEmph.b0 T.preEmph.b1 T.preEmph.b2
    T.preEmph.a1 T.preEmph.a2 st.preEmphZ1 st.preEmphZ2
  -- Stage 2: Warmth
  let w := applyBiquad p.1 T.warmthFilter.b0 T.warmthFilter.b1 T.warmthFilter.b2
    T.warmthFilter.a1 T.warmthFilter.a2 st.warmthZ1 st.warmthZ2
  -- Stage 3: Drive
  let sample := w.1 * T.drive
  -- Stage 4: Bias + Waveshaping
  let biasedSample := sample + (T.bias * sample * sample * (1 / 2))
  let saturated := tanh biasedSample
  let saturated :=
    if |T.bias| > 1 / 1000 then saturated - tanh (T.bias * (1 / 4)) else saturated
  -- Stage 5: De-emphasis
  let d := applyBiquad saturated T.deEmph.b0 T.deEmph.b1 T.deEmph.b2
    T.deEmph.a1 T.deEmph.a2 st.deEmphZ1 st.deEmphZ2
  -- Stage 6: Output gain
  let saturated := d.1 * T.outputGain
  ({ preEmphZ1 := p.2.1, preEmphZ2 := p.2.2, warmthZ1 := w.2.1, warmthZ2 := w.2.2
     deEmphZ1 := d.2.1, deEmphZ2 := d.2.2 },
   sanitize (some saturated))

/-- `TubeSaturation::processOversampledChannel` on the registers of one channel. -/
def processOversampledChannel (tanh : ℚ → ℚ) (T : TubeSaturation) :
    TubeChannelState → List ℚ → TubeChannelState × List ℚ
  | st, [] => (st, [])
  | st, sample :: rest =>
    let r := oversampledSample tanh T st sample
    let t := processOversampledChannel tanh T r.1 rest
    (t.1, r.2 :: t.2)

/-- Step 1 of `process`: entry `2i` is sample `i`, entry `2i + 1` the mean of
sample `i` and the next one, the last sample standing in for its successor. -/
def upsample : List ℚ → List ℚ
  | [] => []
  | [sample] => [sample, (sample + sample) * (1 / 2)]
  | sample :: nextSample :: rest =>
    sample :: (sample + nextSample) * (1 / 2) :: upsample (nextSample :: rest)

/-- Step 3 of `process`: `channelData[i] = oversampledData[i * 2]`. -/
def decimate : List ℚ → List ℚ
  | [] => []
  | [x] => [x]
  | x :: _ :: rest => x :: decimate rest

/-- One iteration of the channel loop of `process` for channel `ch`. -/
def processChannel (tanh : ℚ → ℚ) (T : TubeSaturation) (ch : Fin 2)
    (channelData : List ℚ) : TubeSaturation × List ℚ :=
  let oversampledData := upsample channelData
  let r := processOversampledChannel tanh T (T.channelState ch) oversampledData
  ({ T with channelState := Function.update T.channelState ch r.1 }, decimate r.2)

/-- The channel loop of `process` from channel index `ch` on. -/
def processChannelsFrom (tanh : ℚ → ℚ) :
    ℕ → TubeSaturation → List (List ℚ) → TubeSaturation × List (List ℚ)
  | _, T, [] => (T, [])
  | ch, T, channelData :: rest =>
    if h : ch < 2 then
      let r := processChannel tanh T ⟨ch, h⟩ channelData
      let t := processChannelsFrom tanh (ch + 1) r.1 rest
      (t.1, r.2 :: t.2)
    else (T, [])

/-- `TubeSaturation::process`: returns at once on an empty buffer, otherwise
runs the channel loop. -/
def TubeSaturation.process (tanh : ℚ → ℚ) (T : TubeSaturation) (buffer : List (List ℚ)) :
    TubeSaturation × List (List ℚ) :=
  let numChannels := buffer.length
  let numSamples := (buffer.headD []).length
  if numChannels = 0 ∨ numSamples = 0 then (T, buffer)
  else processChannelsFrom tanh 0 T buffer

/-- A processor with pass-through coefficient sets (`b0 = 1`, the rest 0), zero
registers, drive 10, no bias and an output gain of 4. -/
def hotTube : TubeSaturation :=
  { preEmph := ⟨1, 0, 0, 0, 0⟩, deEmph := ⟨1, 0, 0, 0, 0⟩, warmthFilter := ⟨1, 0, 0, 0, 0⟩
    channelState := fun _ => TubeChannelState.zero
    drive := 10, warmth := 0, bias := 0, outputGain := 4
    currentSampleRate := 44100, oversampledRate := 88200 }

/-- What the shelf designer needs of `std::pow` and `std::sqrt` at the two gains
of the emphasis pair (-3 dB and +3 dB): the square roots are positive and
square back to their arguments, and `10^(3/40) * 10^(-3/40) = 1`. -/
def EmphasisLibm (pow : ℚ → ℚ → ℚ) (sqrt : ℚ → ℚ) : Prop :=
  (0 < sqrt (pow 10 (-3 / 40)) ∧
    sqrt (pow 10 (-3 / 40)) * sqrt (pow 10 (-3 / 40)) = pow 10 (-3 / 40)) ∧
  (0 < sqrt (pow 10 (3 / 40)) ∧
    sqrt (pow 10 (3 / 40)) * sqrt (pow 10 (3 / 40)) = pow 10 (3 / 40)) ∧
  pow 10 (3 / 40) * pow 10 (-3 / 40) = 1

/-- A rational stand-in for `std::pow` whose values are squares of rationals and
which satisfies `pow x y * pow x (-y) = 1`. -/
def powModel (x y : ℚ) : ℚ :=
  ((8 + x * y) / (8 - x * y)) * ((8 + x * y) / (8 - x * y))

/-- A stand-in for `std::sqrt` that is exact on squares of rationals. -/
def sqrtExactModel (y : ℚ) : ℚ := Rat.sqrt y

/-- The processor of the round-trip scenario: prepared at `sampleRate`, then
`setDrive (0.1)`, `setWarmth (0)`, `setBias (0)`, `setOutputGain (0)` and
`reset ()`. -/
def nearUnityTube (pow : ℚ → ℚ → ℚ) (cos sin sqrt decibelsToGain : ℚ → ℚ) (twoPi : ℚ)
    (T : TubeSaturation) (sampleRate : ℚ) : TubeSaturation :=
  (((((T.prepare pow cos sin sqrt twoPi sampleRate).setDrive (1 / 10)).setWarmth
    pow cos sin sqrt twoPi 0).setBias 0).setOutputGain decibelsToGain 0).reset

/-- The mean of the squared differences between an output channel and its
input; the RMS difference is its square root, so an RMS difference below 0.01
is a mean squared difference below 0.0001. -/
def meanSquareDiff (output input : List ℚ) : ℚ :=
  (List.zipWith (fun y x => (y - x) * (y - x)) output input).sum / input.length

/-- What the round trip needs of `std::tanh`: it never increases magnitude. -/
def TanhContracting (tanh : ℚ → ℚ) : Prop :=
  ∀ y : ℚ, |tanh y| ≤ |y|

/-- What the scenario needs of the library besides `EmphasisLibm`: unit gain at
0 dB (`10^0 = 1`, `sqrt 1 = 1`, `decibelsToGain 0 = 1`). -/
def UnitGainLibm (pow : ℚ → ℚ → ℚ) (sqrt decibelsToGain : ℚ → ℚ) : Prop :=
  pow 10 0 = 1 ∧ sqrt 1 = 1 ∧ decibelsToGain 0 = 1

/-! ## prepareToPlay (PluginProcessor.cpp 103-156) -/

/-- Modelled from the spec: `juce::IIRFilter::reset`, the `reset ()` of section
4.1 (the JUCE class is missing from the sources): the delay registers are
zeroed, the coefficients stay. -/
def IIRFilter.reset (f : IIRFilter) : IIRFilter :=
  { f with state := ⟨0, 0⟩ }

/-- A `TubeSaturation` object as its member initializers leave it
(TubeSaturation.h 278-302), which is what `std::make_unique<TubeSaturation> ()`
creates. -/
def TubeSaturation.initial : TubeSaturation :=
  { preEmph := ⟨0, 0, 0, 0, 0⟩, deEmph := ⟨0, 0, 0, 0, 0⟩, warmthFilter := ⟨0, 0, 0, 0, 0⟩
    channelState := fun _ => TubeChannelState.zero
    drive := 1, warmth := 0, bias := 0, outputGain := 1
    currentSampleRate := 44100, oversampledRate := 88200 }

/-- The DSP members of the processor that `prepareToPlay` and `processBlock`
share (PluginProcessor.h 248-276), with the two slope parameters that
`prepareToPlay` reads. `tubeSaturation` is `none` while the pointer is null;
the smoothed slopes are held by their current value. -/
structure ProcessorState where
  hpfSlope : ℚ
  lpfSlope : ℚ
  currentSampleRate : ℚ
  hpfL : List IIRFilter
  hpfR : List IIRFilter
  lpfL : List IIRFilter
  lpfR : List IIRFilter
  peak1L : IIRFilter
  peak1R : IIRFilter
  peak2L : IIRFilter
  peak2R : IIRFilter
  peak3L : IIRFilter
  peak3R : IIRFilter
  peak4L : IIRFilter
  peak4R : IIRFilter
  compEnvelope : ℚ
  tubeSaturation : Option TubeSaturation
  sat : SatState
  smoothedHpfSlope : ℚ
  smoothedLpfSlope : ℚ

/-- `StaticCurrentsPluginAudioProcessor::prepareToPlay (sampleRate, samplesPerBlock)`
on the DSP members: the sample rate is stored, every EQ filter is reset, the
tube processor is created if absent, prepared and reset, the smoothed slopes
take the parameter values, and the seven saturation state fields of lines
149-155 are zeroed. No statement of the function assigns `compEnvelope`. -/
def prepareToPlay (pow : ℚ → ℚ → ℚ) (cos sin sqrt : ℚ → ℚ) (twoPi : ℚ)
    (S : ProcessorState) (sampleRate : ℚ) : ProcessorState :=
  let tube := S.tubeSaturation.getD TubeSaturation.initial
  let tube := (tube.prepare pow cos sin sqrt twoPi sampleRate).reset
  { S with
    currentSampleRate := sampleRate
    hpfL := S.hpfL.map IIRFilter.reset
    hpfR := S.hpfR.map IIRFilter.reset
    lpfL := S.lpfL.map IIRFilter.reset
    lpfR := S.lpfR.map IIRFilter.reset
    peak1L := S.peak1L.reset
    peak1R := S.peak1R.reset
    peak2L := S.peak2L.reset
    peak2R := S.peak2R.reset
    tubeSaturation := some tube
    peak3L := S.peak3L.reset
    peak3R := S.peak3R.reset
    peak4L := S.peak4L.reset
    peak4R := S.peak4R.reset
    smoothedHpfSlope := S.hpfSlope
    smoothedLpfSlope := S.lpfSlope
    sat :=
      { tapeWowPhase := 0, fuzzToneStateL := 0, fuzzToneStateR := 0
        bitcrushCounterL := 0, bitcrushCounterR := 0
        bitcrushHoldL := 0, bitcrushHoldR := 0 } }

/-- A filter whose delay registers hold what an earlier block left. -/
def usedFilter : IIRFilter := ⟨⟨1, 0, 0, 0, 0⟩, ⟨1 / 2, -1 / 4⟩⟩

/-- A processor in mid-stream: the compressor envelope stands at 5 dB after a
loud block, the saturation state and the filters are in use. -/
def midStreamState : ProcessorState :=
  { hpfSlope := 1, lpfSlope := 1, currentSampleRate := 44100
    hpfL := List.replicate 8 usedFilter, hpfR := List.replicate 8 usedFilter
    lpfL := List.replicate 8 usedFilter, lpfR := List.replicate 8 usedFilter
    peak1L := usedFilter, peak1R := usedFilter, peak2L := usedFilter, peak2R := usedFilter
    peak3L := usedFilter, peak3R := usedFilter, peak4L := usedFilter, peak4R := usedFilter
    compEnvelope := 5
    tubeSaturation := some hotTube
    sat :=
      { tapeWowPhase := 3, fuzzToneStateL := 1 / 2, fuzzToneStateR := -1 / 2
        bitcrushCounterL := 2, bitcrushCounterR := 1
        bitcrushHoldL := 1 / 4, bitcrushHoldR := 1 / 8 }
    smoothedHpfSlope := 2, smoothedLpfSlope := 2 }

/-- A pass-through coefficient set (`b0 = 1`, the rest 0). -/
def passThrough : FilterCoefficients := ⟨1, 0, 0, 0, 0⟩

/-- A bank of 8 filters at rest except for stage 1, whose register `z1`
holds what an earlier block with two stages left. -/
def staleBank : List IIRFilter :=
  [⟨passThrough, ⟨0, 0⟩⟩, ⟨passThrough, ⟨1, 0⟩⟩, ⟨passThrough, ⟨0, 0⟩⟩,
   ⟨passThrough, ⟨0, 0⟩⟩, ⟨passThrough, ⟨0, 0⟩⟩, ⟨passThrough, ⟨0, 0⟩⟩,
   ⟨passThrough, ⟨0, 0⟩⟩, ⟨passThrough, ⟨0, 0⟩⟩]

/-- The tape bundle driven hard with full wow, the other five bundles at their
zero-weight values. -/
def wowTapeParams : SatParams :=
  { silentParams with tapeDriveVal := 10, tapeWowVal := 1 }

/-- The divisor of `transHard = transClipped / transClip` (line 979):
`transClip = 0.9f - (transistorClipVal * 0.7f)`. -/
def transClip (P : SatParams) : ℚ :=
  9 / 10 - P.transistorClipVal * (7 / 10)

/-- The divisor of the gate of the fuzz model (line 1029):
`jmax (0.001f, fuzzGate)` with `fuzzGate = fuzzGateVal * 0.12f`. -/
def fuzzGateDivisor (P : SatParams) : ℚ :=
  jmax (1 / 1000) (P.fuzzGateVal * (12 / 100))

/-- The transistor clip parameter at 9/7, outside its documented range `[0, 1]`,
the other parameters at their zero-weight values. -/
def zeroClipLevelParams : SatParams :=
  { silentParams with transistorClipVal := 9 / 7 }

/-! ## Control parameters and profile presets (PluginProcessor.h 164-230,
PluginProcessor.cpp 164-446) -/

/-- The control parameters of the processor, one field per `std::atomic` member
of PluginProcessor.h 165-230. -/
structure Parameters where
  gain : ℚ
  pitch : ℚ
  saturation : ℚ
  saturationType : ℚ
  profileType : ℚ
  tubeDrive : ℚ
  tubeWarmth : ℚ
  tubeBias : ℚ
  tubeOutput : ℚ
  transistorDrive : ℚ
  transistorBite : ℚ
  transistorClip : ℚ
  transistorOutput : ℚ
  tapeDrive : ℚ
  tapeWow : ℚ
  tapeHiss : ℚ
  tapeOutput : ℚ
  diodeDrive : ℚ
  diodeAsym : ℚ
  diodeClip : ℚ
  diodeOutput : ℚ
  fuzzDrive : ℚ
  fuzzGate : ℚ
  fuzzTone : ℚ
  fuzzOutput : ℚ
  bitDepth : ℚ
  bitRate : ℚ
  bitMix : ℚ
  bitOutput : ℚ
  hpfFreq : ℚ
  hpfSlope : ℚ
  peak1Freq : ℚ
  peak1Gain : ℚ
  peak1Q : ℚ
  peak2Freq : ℚ
  peak2Gain : ℚ
  peak2Q : ℚ
  peak3Freq : ℚ
  peak3Gain : ℚ
  peak3Q : ℚ
  peak4Freq : ℚ
  peak4Gain : ℚ
  peak4Q : ℚ
  lpfFreq : ℚ
  lpfSlope : ℚ
  compThresh : ℚ
  compRatio : ℚ
  compAttack : ℚ
  compRelease : ℚ
  compMakeup : ℚ
  globalOutput : ℚ
  bypass : Bool
  deriving DecidableEq

/-- The lambda `resetAll` of `applyProfilePreset` (lines 167-217): its 48 stores. -/
def resetAll (P : Parameters) : Parameters :=
  { P with
    gain := 7 / 10
    pitch := 1
    compThresh := -20
    compRatio := 4
    compAttack := 1 / 100
    compRelease := 1 / 10
    compMakeup := 0
    saturation := 0
    saturationType := 1
    tubeDrive := 0
    tubeWarmth := 0
    tubeBias := 0
    tubeOutput := 1
    transistorDrive := 0
    transistorBite := 0
    transistorClip := 1 / 2
    transistorOutput := 1
    tapeDrive := 0
    tapeWow := 0
    tapeHiss := 0
    tapeOutput := 1
    diodeDrive := 0
    diodeAsym := 1 / 2
    diodeClip := 1 / 2
    diodeOutput := 1
    fuzzDrive := 0
    fuzzGate := 0
    fuzzTone := 1 / 2
    fuzzOutput := 1
    bitDepth := 16
    bitRate := 1
    bitMix := 0
    bitOutput := 1
    hpfFreq := 20
    hpfSlope := 1
    peak1Freq := 200
    peak1Gain := 0
    peak1Q := 1
    peak2Freq := 1000
    peak2Gain := 0
    peak2Q := 1
    peak3Freq := 3000
    peak3Gain := 0
    peak3Q := 1
    peak4Freq := 6000
    peak4Gain := 0
    peak4Q := 1
    lpfFreq := 20000
  }

/-- The stores of one `case` of the `switch (profileID)` (lines 220-443); case 0
and `default` store nothing. -/
def applyProfileCase (profileID : ℤ) (P : Parameters) : Parameters :=
  if profileID = 1 then
    { P with
      saturation := 1
      saturationType := 1
      tubeDrive := 7
      tubeWarmth := 4 / 5
      tubeBias := 3 / 10
      tubeOutput := 1
      hpfFreq := 50
      peak1Freq := 200
      peak1Gain := 4
      peak1Q := 4 / 5
      peak2Freq := 800
      peak2Gain := 2
      peak2Q := 9 / 10
      peak3Freq := 2500
      peak3Gain := -2
      peak3Q := 1
      peak4Freq := 6000
      peak4Gain := -6
      peak4Q := 7 / 10
      lpfFreq := 8000
    }
  else if profileID = 2 then
    { P with
      saturation := 1
      saturationType := 3
      tapeDrive := 5
      tapeWow := 3 / 20
      tapeHiss := 2 / 5
      tapeOutput := 1
      hpfFreq := 40
      peak1Freq := 150
      peak1Gain := 3
      peak1Q := 7 / 10
      peak2Freq := 1000
      peak2Gain := 1
      peak2Q := 1
      peak3Freq := 3000
      peak3Gain := 2
      peak3Q := 6 / 5
      peak4Freq := 7000
      peak4Gain := -3
      peak4Q := 4 / 5
      lpfFreq := 12000
    }
  else if profileID = 3 then
    { P with
      saturation := 1
      saturationType := 3
      tapeDrive := 6
      tapeWow := 7 / 10
      tapeHiss := 3 / 5
      tapeOutput := 19 / 20
      hpfFreq := 60
      peak1Freq := 180
      peak1Gain := 5 / 2
      peak1Q := 4 / 5
      peak2Freq := 900
      peak2Gain := -1
      peak2Q := 11 / 10
      peak3Freq := 2800
      peak3Gain := 3 / 2
      peak3Q := 9 / 10
      peak4Freq := 5000
      peak4Gain := -5
      peak4Q := 7 / 10
      lpfFreq := 7000
    }
  else if profileID = 4 then
    { P with
      saturation := 1
      saturationType := 3
      tapeDrive := 3
      tapeWow := 1 / 20
      tapeHiss := 1 / 20
      tapeOutput := 1
      hpfFreq := 20
      peak1Freq := 200
      peak1Gain := 0
      peak1Q := 1
      peak2Freq := 1000
      peak2Gain := 0
      peak2Q := 1
      peak3Freq := 3000
      peak3Gain := 0
      peak3Q := 1
      peak4Freq := 6000
      peak4Gain := 0
      peak4Q := 1
      lpfFreq := 20000
    }
  else if profileID = 5 then
    { P with
      saturation := 1
      saturationType := 1
      tubeDrive := 4
      tubeWarmth := 7 / 10
      tubeBias := 1 / 10
      tubeOutput := 21 / 20
      hpfFreq := 30
      peak1Freq := 200
      peak1Gain := 5 / 2
      peak1Q := 3 / 4
      peak2Freq := 600
      peak2Gain := 1
      peak2Q := 9 / 10
      peak3Freq := 3500
      peak3Gain := 3
      peak3Q := 11 / 10
      peak4Freq := 8000
      peak4Gain := -2
      peak4Q := 4 / 5
      lpfFreq := 18000
    }
  else if profileID = 6 then
    { P with
      saturation := 1
      saturationType := 2
      transistorDrive := 5
      transistorBite := 7 / 10
      transistorClip := 3 / 10
      transistorOutput := 1
      hpfFreq := 35
      peak1Freq := 150
      peak1Gain := 2
      peak1Q := 4 / 5
      peak2Freq := 750
      peak2Gain := 3
      peak2Q := 1
      peak3Freq := 3000
      peak3Gain := 4
      peak3Q := 6 / 5
      peak4Freq := 6000
      peak4Gain := 2
      peak4Q := 9 / 10
      lpfFreq := 20000
    }
  else if profileID = 7 then
    { P with
      saturation := 1
      saturationType := 5
      fuzzDrive := 9
      fuzzGate := 2 / 5
      fuzzTone := 1 / 5
      fuzzOutput := 4 / 5
      hpfFreq := 80
      peak1Freq := 200
      peak1Gain := -2
      peak1Q := 7 / 10
      peak2Freq := 800
      peak2Gain := -4
      peak2Q := 4 / 5
      peak3Freq := 2000
      peak3Gain := -3
      peak3Q := 9 / 10
      peak4Freq := 5000
      peak4Gain := -6
      peak4Q := 7 / 10
      lpfFreq := 4000
    }
  else if profileID = 8 then
    { P with
      saturation := 1
      saturationType := 4
      diodeDrive := 1
      diodeAsym := 1 / 2
      diodeClip := 1 / 5
      diodeOutput := 21 / 20
      hpfFreq := 20
      peak1Freq := 200
      peak1Gain := 1
      peak1Q := 9 / 10
      peak2Freq := 1000
      peak2Gain := 1 / 2
      peak2Q := 1
      peak3Freq := 4000
      peak3Gain := 2
      peak3Q := 1
      peak4Freq := 8000
      peak4Gain := 3
      peak4Q := 11 / 10
      lpfFreq := 20000
    }
  else if profileID = 9 then
    { P with
      saturation := 1
      saturationType := 6
      bitDepth := 6
      bitRate := 8
      bitMix := 9 / 10
      bitOutput := 17 / 20
      hpfFreq := 100
      peak1Freq := 150
      peak1Gain := -3
      peak1Q := 7 / 10
      peak2Freq := 600
      peak2Gain := 5
      peak2Q := 4 / 5
      peak3Freq := 2000
      peak3Gain := 3
      peak3Q := 9 / 10
      peak4Freq := 5000
      peak4Gain := -5
      peak4Q := 4 / 5
      lpfFreq := 3500
    }
  else P

/-- `StaticCurrentsPluginAudioProcessor::applyProfilePreset (profileID)`: the
profile id is stored, `resetAll ()` runs, the case of the profile stores its
values, and the profile id is stored again. -/
def applyProfilePreset (profileID : ℤ) (P : Parameters) : Parameters :=
  let P : Parameters := { P with profileType := (profileID : ℚ) }
  let P := resetAll P
  let P := applyProfileCase profileID P
  { P with profileType := (profileID : ℚ) }

/-- The parameters as their member initializers leave them (PluginProcessor.h
165-230). -/
def defaultParameters : Parameters :=
  {
    gain := 7 / 10
    pitch := 1
    saturation := 1
    saturationType := 1
    profileType := 1
    tubeDrive := 4
    tubeWarmth := 1 / 2
    tubeBias := 0
    tubeOutput := 1
    transistorDrive := 4
    transistorBite := 1 / 2
    transistorClip := 1 / 2
    transistorOutput := 1
    tapeDrive := 4
    tapeWow := 1 / 5
    tapeHiss := 1 / 10
    tapeOutput := 1
    diodeDrive := 4
    diodeAsym := 1 / 2
    diodeClip := 1 / 2
    diodeOutput := 1
    fuzzDrive := 6
    fuzzGate := 1 / 5
    fuzzTone := 1 / 2
    fuzzOutput := 1
    bitDepth := 8
    bitRate := 4
    bitMix := 1
    bitOutput := 1
    hpfFreq := 20
    hpfSlope := 1
    peak1Freq := 200
    peak1Gain := 0
    peak1Q := 1
    peak2Freq := 800
    peak2Gain := 0
    peak2Q := 1
    peak3Freq := 2000
    peak3Gain := 0
    peak3Q := 1
    peak4Freq := 6000
    peak4Gain := 0
    peak4Q := 1
    lpfFreq := 20000
    lpfSlope := 1
    compThresh := -20
    compRatio := 4
    compAttack := 1 / 100
    compRelease := 1 / 10
    compMakeup := 0
    globalOutput := 0
    bypass := false
  }

/-- The default parameters after the user has set the LPF slope to 4 stages and
the global output trim to -12 dB. -/
def trimmedParameters : Parameters :=
  { defaultParameters with lpfSlope := 4, globalOutput := -12 }

/-! ## Offline compressor of `exportProcessedSample` (PluginProcessor.cpp 1653-1713) -/

/-- Envelope follower of the export loop (lines 1696-1697); there is no denormal
flush here. -/
def exportEnvelopeStep (attackCoeff releaseCoeff envelope gainReduction : ℚ) : ℚ :=
  let coeff := if gainReduction > envelope then attackCoeff else releaseCoeff
  envelope + (gainReduction - envelope) * coeff

/-- Makeup gain and coloration applied to one channel sample in the export loop
(lines 1703-1711): `colorAmount = jmin (envelope * 0.008f, 0.08f)`. -/
def exportCompressSample (tanh : ℚ → ℚ) (envelope compGain x : ℚ) : ℚ :=
  let sample := x * compGain
  if envelope > 3 then
    let colorAmount := jmin (envelope * (8 / 1000)) (8 / 100)
    sample + colorAmount * tanh (sample * 3) * (2 / 10)
  else sample

/-- One iteration of the export sample loop; the soft knee of lines 1672-1694 is
the same text as that of the real-time loop. -/
def exportCompressorStep (tanh decibelsToGain gainToDecibels : ℚ → ℚ)
    (attackCoeff releaseCoeff threshold ratio makeup : ℚ)
    (envelope : ℚ) (frame : List ℚ) : ℚ × List ℚ :=
  let peakDb := framePeakDb gainToDecibels frame
  let gr := gainReduction threshold ratio peakDb
  let envelope := exportEnvelopeStep attackCoeff releaseCoeff envelope gr
  let compGain := decibelsToGain (-envelope + makeup)
  (envelope, frame.map (exportCompressSample tanh envelope compGain))

/-- The export sample loop with fixed coefficients. -/
def exportCompressorLoop (tanh decibelsToGain gainToDecibels : ℚ → ℚ)
    (attackCoeff releaseCoeff threshold ratio makeup : ℚ) :
    ℚ → List (List ℚ) → ℚ × List (List ℚ)
  | envelope, [] => (envelope, [])
  | envelope, frame :: rest =>
    let r := exportCompressorStep tanh decibelsToGain gainToDecibels
      attackCoeff releaseCoeff threshold ratio makeup envelope frame
    let t := exportCompressorLoop tanh decibelsToGain gainToDecibels
      attackCoeff releaseCoeff threshold ratio makeup r.1 rest
    (t.1, r.2 :: t.2)

/-- Step 3 of `exportProcessedSample`: the local envelope starts at 0, the
coefficients are those of the real-time path. Returns the processed frames. -/
def exportCompressBlock (tanh exp decibelsToGain gainToDecibels : ℚ → ℚ) (sampleRate : ℚ)
    (threshold ratio attackTime releaseTime makeup : ℚ) (frames : List (List ℚ)) :
    List (List ℚ) :=
  (exportCompressorLoop tanh decibelsToGain gainToDecibels
    (attackCoeff exp attackTime sampleRate) (releaseCoeff exp releaseTime sampleRate)
    threshold ratio makeup 0 frames).2

/-- What the default scenario needs of `juce::Decibels::gainToDecibels`: it is
monotone on positive gains and maps the gain 0.1 to -20 dB. -/
def DecibelsCalibrated (gainToDecibels : ℚ → ℚ) : Prop :=
  (∀ a b : ℚ, 0 < a → a ≤ b → gainToDecibels a ≤ gainToDecibels b) ∧
  gainToDecibels (1 / 10) = -20

/-- A rational stand-in for `juce::Decibels::gainToDecibels` that is increasing
on positive gains, 0 at gain 1 and -20 at gain 0.1. -/
def gainToDecibelsFitModel (g : ℚ) : ℚ := 20 * (g - 1) / (g + 4 / 5)

/-! ## Bitcrush sample-and-hold over a channel (PluginProcessor.cpp 1043-1056) -/

/-- The values of `crushSample` passed to the quantizer over the samples of a
channel, from the counter and hold value the channel starts with; the list
argument holds the attenuated inputs `dryScaled`. -/
def crushRun (rate : ℤ) : ℤ → ℚ → List ℚ → List ℚ
  | _, _, [] => []
  | crushCounter, crushHold, dryScaled :: rest =>
    let s := crushHoldStep rate crushCounter crushHold dryScaled
    s.2.2 :: crushRun rate s.1 s.2.1 rest

/-- The values of `crushCounter` after each sample of a channel. -/
def crushCounters (rate : ℤ) : ℤ → ℚ → List ℚ → List ℤ
  | _, _, [] => []
  | crushCounter, crushHold, dryScaled :: rest =>
    let s := crushHoldStep rate crushCounter crushHold dryScaled
    s.1 :: crushCounters rate s.1 s.2.1 rest

/-! ## `applyBiquad` over a sequence (TubeSaturation.h 173-183) -/

/-- The outputs of `applyBiquad` called on the samples of a sequence in turn,
the registers `z1`, `z2` passed by reference from call to call. -/
def biquadRun (b0 b1 b2 a1 a2 : ℚ) : ℚ → ℚ → List ℚ → List ℚ
  | _, _, [] => []
  | z1, z2, input :: rest =>
    let r := applyBiquad input b0 b1 b2 a1 a2 z1 z2
    r.1 :: biquadRun b0 b1 b2 a1 a2 r.2.1 r.2.2 rest

/-- The standard second-order difference equation, as the specification writes
it: `y[n] = b0*x[n] + b1*x[n-1] + b2*x[n-2] - a1*y[n-1] - a2*y[n-2]`, run over
a sequence from the two previous inputs `x1`, `x2` and outputs `y1`, `y2`. -/
def differenceEquationRun (b0 b1 b2 a1 a2 : ℚ) : ℚ → ℚ → ℚ → ℚ → List ℚ → List ℚ
  | _, _, _, _, [] => []
  | x1, x2, y1, y2, x :: rest =>
    let y := b0 * x + b1 * x1 + b2 * x2 - a1 * y1 - a2 * y2
    y :: differenceEquationRun b0 b1 b2 a1 a2 x x1 y y1 rest

/-! ### The saturation stage of `processBlock` (PluginProcessor.cpp 837-1081) -/

/-- Step 4 of `processBlock`: the dispatch between the dedicated tube processor
and the blender. `satType` is the local of that name, `saturation` the
parameter that the local `satMix` is clamped from, `tubeSaturation` is `none`
while the pointer is null. The tube branch (lines 843-867) loads the four tube
parameters, maps warmth and output to dB, calls the four setters and then
`process`; the `else` branch is `legacySaturation`. The result is the tube
processor, the saturation state and the buffer after the stage. -/
def saturationStage (pow : ℚ → ℚ → ℚ) (cos sin sqrt tanh decibelsToGain : ℚ → ℚ)
    (twoPi sampleRate : ℚ) (P : SatParams) (satType : ℤ) (saturation : ℚ)
    (tubeSaturation : Option TubeSaturation) (S : SatState) (buffer : List (List ℚ)) :
    Option TubeSaturation × SatState × List (List ℚ) :=
  match tubeSaturation with
  | some T =>
    if satType = 1 then
      let drive := P.tubeDriveVal
      let warmth := P.tubeWarmthVal
      let bias := P.tubeBiasVal
      let output := P.tubeOutVal
      let warmthDb := (warmth * 18) - 12
      let biasAmount := bias
      let outputDb := (output - 1) * 12
      let T := T.setDrive drive
      let T := T.setWarmth pow cos sin sqrt twoPi warmthDb
      let T := T.setBias biasAmount
      let T := T.setOutputGain decibelsToGain outputDb
      let r := T.process tanh buffer
      (some r.1, S, r.2)
    else
      let r := legacySaturation tanh sin twoPi sampleRate P satType saturation S buffer
      (some T, r.1, r.2)
  | none =>
    let r := legacySaturation tanh sin twoPi sampleRate P satType saturation S buffer
    (none, r.1, r.2)

/-- The pass-through processor `hotTube` after `setBias (0.3)` and `reset`: a
bias of 0.3, drive 10, output gain 4, all delay registers at 0. -/
def biasedTube : TubeSaturation := (hotTube.setBias (3 / 10)).reset

/-! ## Theorems -/

theorem tanhModel_bounded : TanhBounded tanhModel := by
  intro y
  have h : 0 < 1 + |y| := by positivity
  unfold tanhModel
  constructor
  · rw [le_div_iff₀ h]
    have := neg_abs_le y
    linarith
  · rw [div_le_iff₀ h]
    have := le_abs_self y
    linarith

theorem tanhModel_signBounded : TanhSignBounded tanhModel := by
  constructor
  · intro y hy
    exact ⟨by unfold tanhModel; positivity, (tanhModel_bounded y).2⟩
  · intro y hy
    refine ⟨(tanhModel_bounded y).1, ?_⟩
    unfold tanhModel
    exact div_neg_of_neg_of_pos hy (by positivity)

/-- C1: in the bypass branch every sample `x` of the rendered buffer becomes
`x * gain * decibelsToGain globalOutput`, whatever the other parameters are
(the branch reads none of them). -/
theorem processBlockBypassed_eq (decibelsToGain : ℚ → ℚ) (gain globalOutput : ℚ)
    (buffer : List (List ℚ)) :
    processBlockBypassed decibelsToGain gain globalOutput buffer
      = buffer.map (fun channel =>
          channel.map (fun x => x * gain * decibelsToGain globalOutput)) := by
  simp only [processBlockBypassed, applyGain, mul_assoc]

/-- C2: a post-trim sample above 1 leaves the safety limiter in `(1, 1.1]`, and
one below -1 leaves it in `[-1.1, -1)`. -/
theorem safetyLimiter_range (tanh : ℚ → ℚ) (ht : TanhSignBounded tanh) (x : ℚ) :
    (1 < x → 1 < safetyLimiter tanh (some x) ∧ safetyLimiter tanh (some x) ≤ 11 / 10) ∧
    (x < -1 → -(11 / 10) ≤ safetyLimiter tanh (some x) ∧ safetyLimiter tanh (some x) < -1) := by
  constructor
  · intro hx
    have habs : ¬ |x| < 1 / 10 ^ 15 := by
      rw [abs_of_pos (by linarith)]; norm_num; linarith
    have h := ht.1 ((x - 1) * (1 / 2)) (by linarith)
    simp only [safetyLimiter, habs, if_false, gt_iff_lt, hx, if_true]
    constructor <;> linarith [h.1, h.2]
  · intro hx
    have habs : ¬ |x| < 1 / 10 ^ 15 := by
      rw [abs_of_neg (by linarith)]; norm_num; linarith
    have h := ht.2 ((x + 1) * (1 / 2)) (by linarith)
    have hx1 : ¬ 1 < x := by linarith
    simp only [safetyLimiter, habs, if_false, gt_iff_lt, hx1, hx, if_true]
    constructor <;> linarith [h.1, h.2]

/-- Witness for C2 at the spec's input 2.0 and at -2.0. -/
theorem safetyLimiter_range_witness :
    (1 < safetyLimiter tanhModel (some 2) ∧ safetyLimiter tanhModel (some 2) ≤ 11 / 10) ∧
    (-(11 / 10) ≤ safetyLimiter tanhModel (some (-2)) ∧
      safetyLimiter tanhModel (some (-2)) < -1) :=
  ⟨(safetyLimiter_range tanhModel tanhModel_signBounded 2).1 (by norm_num),
   (safetyLimiter_range tanhModel tanhModel_signBounded (-2)).2 (by norm_num)⟩

/-! ### Output stage -/

theorem safetyLimiter_bounds (tanh : ℚ → ℚ) (ht : TanhBounded tanh) (s : Option ℚ) :
    -(11 / 10) ≤ safetyLimiter tanh s ∧ safetyLimiter tanh s ≤ 11 / 10 := by
  have key : ∀ v : ℚ,
      -(11 / 10) ≤ (if v > 1 then 1 + tanh ((v - 1) * (1 / 2)) * (1 / 10)
        else if v < -1 then -1 + tanh ((v + 1) * (1 / 2)) * (1 / 10) else v) ∧
      (if v > 1 then 1 + tanh ((v - 1) * (1 / 2)) * (1 / 10)
        else if v < -1 then -1 + tanh ((v + 1) * (1 / 2)) * (1 / 10) else v) ≤ 11 / 10 := by
    intro v
    have h1 := ht ((v - 1) * (1 / 2))
    have h2 := ht ((v + 1) * (1 / 2))
    split_ifs with ha hb
    · constructor <;> linarith [h1.1, h1.2]
    · constructor <;> linarith [h2.1, h2.2]
    · constructor <;> linarith
  exact key _

/-- C3: when not bypassed, every sample that `processBlock` leaves in the buffer
has passed the final loop and lies in `[-1.1, 1.1]`, whatever the earlier stages
wrote (non-finite values included) and whatever the output trim is. -/
theorem outputTrimAndLimit_ceiling (tanh : ℚ → ℚ) (ht : TanhBounded tanh)
    (globalGain : Option ℚ) (buffer : List (List (Option ℚ))) :
    ∀ channel ∈ outputTrimAndLimit tanh globalGain buffer,
      ∀ y ∈ channel, -(11 / 10) ≤ y ∧ y ≤ 11 / 10 := by
  intro channel hc y hy
  simp only [outputTrimAndLimit, List.mem_map] at hc
  obtain ⟨data, _, rfl⟩ := hc
  simp only [List.mem_map] at hy
  obtain ⟨d, _, rfl⟩ := hy
  exact safetyLimiter_bounds tanh ht _

/-- Witness for C3: a hot sample, a non-finite one and a quiet one, trimmed by a
gain of 4, and a sample under a non-finite trim gain. -/
theorem outputTrimAndLimit_ceiling_witness :
    (-(11 / 10) ≤ safetyLimiter tanhModel (fmul (some 2) (some 4)) ∧
      safetyLimiter tanhModel (fmul (some 2) (some 4)) ≤ 11 / 10) ∧
    (-(11 / 10) ≤ safetyLimiter tanhModel (fmul none (some 4)) ∧
      safetyLimiter tanhModel (fmul none (some 4)) ≤ 11 / 10) ∧
    (-(11 / 10) ≤ safetyLimiter tanhModel (fmul (some (-3)) none) ∧
      safetyLimiter tanhModel (fmul (some (-3)) none) ≤ 11 / 10) :=
  ⟨outputTrimAndLimit_ceiling tanhModel tanhModel_bounded (some 4)
      [[some 2, none, some (1 / 8)]] _ (List.mem_singleton.mpr rfl) _
      (List.mem_cons_self _ _),
   outputTrimAndLimit_ceiling tanhModel tanhModel_bounded (some 4)
      [[some 2, none, some (1 / 8)]] _ (List.mem_singleton.mpr rfl) _
      (List.mem_cons_of_mem _ (List.mem_cons_self _ _)),
   outputTrimAndLimit_ceiling tanhModel tanhModel_bounded none
      [[some (-3)]] _ (List.mem_singleton.mpr rfl) _ (List.mem_cons_self _ _)⟩

/-! ### Compressor -/

theorem gainReduction_below_knee (threshold ratio peakDb : ℚ)
    (h : peakDb < threshold - compKneeWidth / 2) :
    gainReduction threshold ratio peakDb = 0 := by
  unfold gainReduction
  rw [if_neg (by linarith)]

theorem envelopeStep_zero (a r : ℚ) : envelopeStep a r 0 0 = 0 := by
  simp [envelopeStep]

theorem compressorLoop_below_knee (tanh decibelsToGain gainToDecibels : ℚ → ℚ)
    (a r threshold ratio makeup : ℚ) (frames : List (List ℚ))
    (h : ∀ f ∈ frames, framePeakDb gainToDecibels f < threshold - compKneeWidth / 2) :
    compressorLoop tanh decibelsToGain gainToDecibels a r threshold ratio makeup 0 frames
      = (0, frames.map (fun f => f.map (fun x => x * decibelsToGain makeup))) := by
  induction frames with
  | nil => rfl
  | cons f rest ih =>
    have hf := gainReduction_below_knee threshold ratio _ (h f (List.mem_cons_self _ _))
    have hrest := ih (fun g hg => h g (List.mem_cons_of_mem _ hg))
    have hstep : compressorStep tanh decibelsToGain gainToDecibels a r threshold ratio makeup 0 f
        = (0, f.map (fun x => x * decibelsToGain makeup)) := by
      have hs : ∀ g : ℚ, compressSample tanh 0 g = fun x => x * g := by
        intro g
        funext x
        simp only [compressSample]
        rw [if_neg (by norm_num)]
      simp only [compressorStep, hf, envelopeStep_zero, neg_zero, zero_add, hs]
    simp only [compressorLoop, hstep, hrest, List.map_cons]

/-- C4: a detected level strictly below `threshold - knee/2` (knee 6 dB) gives a
gain reduction of exactly 0; over a block of such samples the envelope, started
at 0, is still 0 and every sample is multiplied by the makeup gain only. -/
theorem compressor_below_knee (tanh exp decibelsToGain gainToDecibels : ℚ → ℚ)
    (sampleRate threshold ratio attackTime releaseTime makeup : ℚ) :
    compKneeWidth = 6 ∧
    (∀ peakDb : ℚ, peakDb < threshold - compKneeWidth / 2 →
      gainReduction threshold ratio peakDb = 0) ∧
    (∀ frames : List (List ℚ),
      (∀ f ∈ frames, framePeakDb gainToDecibels f < threshold - compKneeWidth / 2) →
      compressBlock tanh exp decibelsToGain gainToDecibels sampleRate
          threshold ratio attackTime releaseTime makeup 0 frames
        = (0, frames.map (fun f => f.map (fun x => x * decibelsToGain makeup)))) :=
  ⟨rfl, fun peakDb h => gainReduction_below_knee threshold ratio peakDb h,
   fun frames h => compressorLoop_below_knee tanh decibelsToGain gainToDecibels
      _ _ threshold ratio makeup frames h⟩

/-- Witness for C4: two quiet stereo frames under a threshold of -10 dB. -/
theorem compressor_below_knee_witness :
    gainReduction (-10) 4 (-14) = 0 ∧
    compressBlock tanhModel expModel decibelsToGainModel gainToDecibelsModel 44100
        (-10) 4 (1 / 100) (1 / 10) 2 0 [[1 / 100, -1 / 100], [1 / 50, 0]]
      = (0, [[1 / 100, -1 / 100], [1 / 50, 0]].map
          (fun f => f.map (fun x => x * decibelsToGainModel 2))) :=
  ⟨(compressor_below_knee tanhModel expModel decibelsToGainModel gainToDecibelsModel
      44100 (-10) 4 (1 / 100) (1 / 10) 2).2.1 (-14) (by norm_num [compKneeWidth]),
   (compressor_below_knee tanhModel expModel decibelsToGainModel gainToDecibelsModel
      44100 (-10) 4 (1 / 100) (1 / 10) 2).2.2 [[1 / 100, -1 / 100], [1 / 50, 0]]
      (by
        intro f hf
        simp only [List.mem_cons, List.mem_singleton, List.not_mem_nil, or_false] at hf
        rcases hf with rfl | rfl <;>
          norm_num [framePeakDb, framePeak, jmax, gainToDecibelsModel, compKneeWidth,
            List.foldl, abs_of_pos, abs_of_neg])⟩

theorem gainReduction_nonneg (threshold ratio peakDb : ℚ) (hr : 1 ≤ ratio) :
    0 ≤ gainReduction threshold ratio peakDb := by
  have hpos : 0 < ratio := by linarith
  have hc : 0 ≤ 1 - 1 / ratio := by
    rw [sub_nonneg, div_le_iff₀ hpos]; linarith
  simp only [gainReduction, compKneeWidth]
  split_ifs with h1 h2 h3
  · have hk : 0 ≤ (peakDb - threshold + 6 / 2) * (peakDb - threshold + 6 / 2) :=
      mul_self_nonneg _
    positivity
  · have h0 : 0 ≤ (peakDb - threshold) * (1 - 1 / ratio) := by linarith
    have hsq : 0 ≤ ((peakDb - threshold) * (1 - 1 / ratio) - 10) * (5 / 100)
        * (((peakDb - threshold) * (1 - 1 / ratio) - 10) * (5 / 100)) := mul_self_nonneg _
    linarith
  · apply mul_nonneg _ hc
    linarith
  · exact le_refl 0

theorem attackCoeff_unit (exp : ℚ → ℚ) (hexp : ExpUnitOnNeg exp) (attackTime sampleRate : ℚ)
    (ha : 0 < attackTime) (hs : 0 < sampleRate) :
    0 ≤ attackCoeff exp attackTime sampleRate ∧ attackCoeff exp attackTime sampleRate ≤ 1 := by
  have hneg : -1 / (attackTime * sampleRate * (1 / 2)) < 0 :=
    div_neg_of_neg_of_pos (by norm_num) (by positivity)
  have := hexp _ hneg
  unfold attackCoeff
  constructor <;> linarith [this.1, this.2]

theorem releaseCoeff_unit (exp : ℚ → ℚ) (hexp : ExpUnitOnNeg exp) (releaseTime sampleRate : ℚ)
    (hr : 0 < releaseTime) (hs : 0 < sampleRate) :
    0 ≤ releaseCoeff exp releaseTime sampleRate ∧
      releaseCoeff exp releaseTime sampleRate ≤ 1 := by
  have hneg : -1 / (releaseTime * sampleRate) < 0 :=
    div_neg_of_neg_of_pos (by norm_num) (by positivity)
  have := hexp _ hneg
  unfold releaseCoeff
  constructor <;> linarith [this.1, this.2]

theorem envelopeStep_bounds (a r e g : ℚ) (ha : 0 ≤ a ∧ a ≤ 1) (hr : 0 ≤ r ∧ r ≤ 1)
    (he : 0 ≤ e) (hg : 0 ≤ g) :
    0 ≤ envelopeStep a r e g ∧ envelopeStep a r e g ≤ max e g := by
  have key : ∀ c : ℚ, 0 ≤ c → c ≤ 1 →
      0 ≤ e + (g - e) * c ∧ e + (g - e) * c ≤ max e g := by
    intro c h0 h1
    have hconv : e + (g - e) * c = (1 - c) * e + c * g := by ring
    have h1c : 0 ≤ 1 - c := by linarith
    constructor
    · rw [hconv]; positivity
    · rw [hconv]
      have h2 : (1 - c) * e ≤ (1 - c) * max e g :=
        mul_le_mul_of_nonneg_left (le_max_left e g) h1c
      have h3 : c * g ≤ c * max e g := mul_le_mul_of_nonneg_left (le_max_right e g) h0
      nlinarith
  have hmax : 0 ≤ max e g := le_max_of_le_left he
  simp only [envelopeStep]
  split_ifs with h1 h2 h2
  · exact ⟨le_refl 0, hmax⟩
  · exact key a ha.1 ha.2
  · exact ⟨le_refl 0, hmax⟩
  · exact key r hr.1 hr.2

theorem compressorLoop_envelope_bounds (tanh decibelsToGain gainToDecibels : ℚ → ℚ)
    (a r threshold ratio makeup : ℚ) (ha : 0 ≤ a ∧ a ≤ 1) (hr : 0 ≤ r ∧ r ≤ 1)
    (hratio : 1 ≤ ratio) (frames : List (List ℚ)) :
    ∀ e : ℚ, 0 ≤ e →
      0 ≤ (compressorLoop tanh decibelsToGain gainToDecibels a r threshold ratio makeup
            e frames).1 ∧
      (compressorLoop tanh decibelsToGain gainToDecibels a r threshold ratio makeup
            e frames).1 ≤ max e (maxGainReduction gainToDecibels threshold ratio frames) := by
  induction frames with
  | nil =>
    intro e he
    simp only [compressorLoop, maxGainReduction]
    exact ⟨he, le_max_left _ _⟩
  | cons f rest ih =>
    intro e he
    have hg := gainReduction_nonneg threshold ratio (framePeakDb gainToDecibels f) hratio
    have hstep := envelopeStep_bounds a r e _ ha hr he hg
    have hrec := ih (envelopeStep a r e
      (gainReduction threshold ratio (framePeakDb gainToDecibels f))) hstep.1
    simp only [compressorLoop, compressorStep, maxGainReduction]
    refine ⟨hrec.1, hrec.2.trans ?_⟩
    apply max_le
    · apply hstep.2.trans
      apply max_le (le_max_left _ _)
      exact le_max_of_le_right (le_max_left _ _)
    · exact le_max_of_le_right (le_max_right _ _)

/-- C5: with ratio at least 1, positive attack and release times and a positive
sample rate, the envelope started at 0 is non-negative after every sample of a
block and never exceeds the largest gain reduction computed up to that sample;
so a bound on the gain reductions bounds the envelope. -/
theorem envelope_nonneg_bounded (tanh exp decibelsToGain gainToDecibels : ℚ → ℚ)
    (hexp : ExpUnitOnNeg exp)
    (sampleRate threshold ratio attackTime releaseTime makeup : ℚ)
    (hratio : 1 ≤ ratio) (hattack : 0 < attackTime) (hrelease : 0 < releaseTime)
    (hrate : 0 < sampleRate) (frames : List (List ℚ)) (n : ℕ) :
    0 ≤ (compressBlock tanh exp decibelsToGain gainToDecibels sampleRate
          threshold ratio attackTime releaseTime makeup 0 (frames.take n)).1 ∧
    (compressBlock tanh exp decibelsToGain gainToDecibels sampleRate
          threshold ratio attackTime releaseTime makeup 0 (frames.take n)).1
      ≤ maxGainReduction gainToDecibels threshold ratio (frames.take n) ∧
    (∀ B : ℚ, (∀ f ∈ frames,
        gainReduction threshold ratio (framePeakDb gainToDecibels f) ≤ B) →
      (compressBlock tanh exp decibelsToGain gainToDecibels sampleRate
          threshold ratio attackTime releaseTime makeup 0 (frames.take n)).1 ≤ max 0 B) := by
  have h := compressorLoop_envelope_bounds tanh decibelsToGain gainToDecibels
    (attackCoeff exp attackTime sampleRate) (releaseCoeff exp releaseTime sampleRate)
    threshold ratio makeup
    (attackCoeff_unit exp hexp attackTime sampleRate hattack hrate)
    (releaseCoeff_unit exp hexp releaseTime sampleRate hrelease hrate)
    hratio (frames.take n) 0 (le_refl 0)
  have hmaxnn : ∀ l : List (List ℚ),
      0 ≤ maxGainReduction gainToDecibels threshold ratio l := by
    intro l
    cases l with
    | nil => exact le_refl 0
    | cons f rest =>
      exact le_max_of_le_left (gainReduction_nonneg threshold ratio _ hratio)
  have hle : (compressBlock tanh exp decibelsToGain gainToDecibels sampleRate
          threshold ratio attackTime releaseTime makeup 0 (frames.take n)).1
      ≤ maxGainReduction gainToDecibels threshold ratio (frames.take n) := by
    have := h.2
    rwa [max_eq_right (hmaxnn _)] at this
  refine ⟨h.1, hle, ?_⟩
  intro B hB
  refine hle.trans ?_
  have hbound : ∀ l : List (List ℚ),
      (∀ f ∈ l, gainReduction threshold ratio (framePeakDb gainToDecibels f) ≤ B) →
      maxGainReduction gainToDecibels threshold ratio l ≤ max 0 B := by
    intro l
    induction l with
    | nil => intro _; exact le_max_left _ _
    | cons f rest ih =>
      intro hl
      simp only [maxGainReduction]
      apply max_le
      · exact le_max_of_le_right (hl f (List.mem_cons_self _ _))
      · exact ih (fun g hg => hl g (List.mem_cons_of_mem _ hg))
  exact hbound _ (fun f hf => hB f (List.mem_of_mem_take hf))

theorem expModel_unitOnNeg : ExpUnitOnNeg expModel := by
  intro y _
  have h : 0 < 1 + |y| := by positivity
  unfold expModel
  constructor
  · positivity
  · rw [div_le_iff₀ h]
    have := abs_nonneg y
    linarith

/-- Witness for C5: three mono frames (quiet, loud, quiet) against a threshold
of -20 dB at ratio 4. -/
theorem envelope_nonneg_bounded_witness :
    0 ≤ (compressBlock tanhModel expModel decibelsToGainModel gainToDecibelsModel 44100
          (-20) 4 (1 / 100) (1 / 10) 0 0 ([[1 / 100], [1], [1 / 100]].take 2)).1 ∧
    (compressBlock tanhModel expModel decibelsToGainModel gainToDecibelsModel 44100
          (-20) 4 (1 / 100) (1 / 10) 0 0 ([[1 / 100], [1], [1 / 100]].take 2)).1
      ≤ maxGainReduction gainToDecibelsModel (-20) 4 ([[1 / 100], [1], [1 / 100]].take 2) ∧
    (∀ B : ℚ, (∀ f ∈ [[1 / 100], [1], [1 / 100]],
        gainReduction (-20) 4 (framePeakDb gainToDecibelsModel f) ≤ B) →
      (compressBlock tanhModel expModel decibelsToGainModel gainToDecibelsModel 44100
          (-20) 4 (1 / 100) (1 / 10) 0 0 ([[1 / 100], [1], [1 / 100]].take 2)).1
        ≤ max 0 B) :=
  envelope_nonneg_bounded tanhModel expModel decibelsToGainModel gainToDecibelsModel
    expModel_unitOnNeg 44100 (-20) 4 (1 / 100) (1 / 10) 0
    (by norm_num) (by norm_num) (by norm_num) (by norm_num) [[1 / 100], [1], [1 / 100]] 2

/-! ### Saturation blender -/

/-- C6: when the global mix is 0 the blender leaves every sample (and its own
state) as it found it, whatever the 24 model parameters and the selected model
are. -/
theorem legacySaturation_mix_zero (tanh sin : ℚ → ℚ) (twoPi sampleRate : ℚ)
    (P : SatParams) (satType : ℤ) (saturation : ℚ) (S : SatState)
    (buffer : List (List ℚ)) (hmix : jlimit 0 1 saturation = 0) :
    legacySaturation tanh sin twoPi sampleRate P satType saturation S buffer
      = (S, buffer) := by
  simp only [legacySaturation, hmix]
  rw [if_neg (lt_irrefl 0)]

/-- Witness for C6: mix 0 with the transistor bundle fully driven. -/
theorem legacySaturation_mix_zero_witness :
    jlimit 0 1 0 = 0 ∧
    legacySaturation tanhModel sinModel (44 / 7) 44100 hotTransistorParams 2 0
        ⟨0, 0, 0, 0, 0, 0, 0⟩ [[1 / 2, -1 / 4], [1 / 3, 1]]
      = (⟨0, 0, 0, 0, 0, 0, 0⟩, [[1 / 2, -1 / 4], [1 / 3, 1]]) :=
  ⟨by decide,
   legacySaturation_mix_zero tanhModel sinModel (44 / 7) 44100 hotTransistorParams 2 0
    ⟨0, 0, 0, 0, 0, 0, 0⟩ [[1 / 2, -1 / 4], [1 / 3, 1]] (by decide)⟩

theorem blend_of_small_weightSum (w : Weights) (h : w.weightSum < 1 / 10000)
    (dry tubeOut transOut tapeOut diodeOut fuzzOut bitOut : ℚ) :
    blend w dry tubeOut transOut tapeOut diodeOut fuzzOut bitOut = dry := by
  simp only [blend]
  rw [if_pos h]

theorem blenderSample_of_small_weightSum (tanh sin : ℚ → ℚ) (twoPi wowInc : ℚ)
    (P : SatParams) (satType : ℤ) (satMix : ℚ)
    (h : (blendWeights P satType).weightSum < 1 / 10000) (st : SampleState) (dry : ℚ) :
    (blenderSample tanh sin twoPi wowInc P satType satMix st dry).2 = dry := by
  simp only [blenderSample, blend_of_small_weightSum _ h]
  ring

theorem blenderChannel_of_small_weightSum (tanh sin : ℚ → ℚ) (twoPi wowInc : ℚ)
    (P : SatParams) (satType : ℤ) (satMix : ℚ)
    (h : (blendWeights P satType).weightSum < 1 / 10000) (data : List ℚ) :
    ∀ st : SampleState,
      (blenderChannel tanh sin twoPi wowInc P satType satMix st data).2 = data := by
  induction data with
  | nil => intro st; rfl
  | cons dry rest ih =>
    intro st
    simp only [blenderChannel, ih,
      blenderSample_of_small_weightSum tanh sin twoPi wowInc P satType satMix h]

theorem blenderChannels_of_small_weightSum (tanh sin : ℚ → ℚ) (twoPi wowInc : ℚ)
    (P : SatParams) (satType : ℤ) (satMix : ℚ)
    (h : (blendWeights P satType).weightSum < 1 / 10000) (buffer : List (List ℚ)) :
    ∀ (ch : ℕ) (S : SatState),
      (blenderChannels tanh sin twoPi wowInc P satType satMix ch S buffer).2 = buffer := by
  induction buffer with
  | nil => intro ch S; rfl
  | cons data rest ih =>
    intro ch S
    simp only [blenderChannels, ih,
      blenderChannel_of_small_weightSum tanh sin twoPi wowInc P satType satMix h]

/-- C7: when the sum of the six weights is below 1e-4 the blended sample is the
dry sample itself (the branch taken contains no division), and the stage writes
its input back for every value of the mix. -/
theorem legacySaturation_of_small_weightSum (tanh sin : ℚ → ℚ) (twoPi sampleRate : ℚ)
    (P : SatParams) (satType : ℤ)
    (h : (blendWeights P satType).weightSum < 1 / 10000) :
    (∀ dry tubeOut transOut tapeOut diodeOut fuzzOut bitOut : ℚ,
      blend (blendWeights P satType) dry tubeOut transOut tapeOut diodeOut fuzzOut bitOut
        = dry) ∧
    (∀ (saturation : ℚ) (S : SatState) (buffer : List (List ℚ)),
      (legacySaturation tanh sin twoPi sampleRate P satType saturation S buffer).2
        = buffer) := by
  refine ⟨blend_of_small_weightSum _ h, ?_⟩
  intro saturation S buffer
  simp only [legacySaturation]
  split_ifs with hm
  · exact blenderChannels_of_small_weightSum tanh sin twoPi _ P satType _ h buffer 0 S
  · rfl

theorem silentParams_weightSum (satType : ℤ) :
    (blendWeights silentParams satType).weightSum = 0 := by
  simp only [blendWeights, applyFocusBoost, clampWeights, rawWeights, silentParams,
    Weights.weightSum, jlimit, focusBoost]
  norm_num

/-- Witness for C7: the zero-weight setting of all six bundles, full mix. -/
theorem legacySaturation_of_small_weightSum_witness :
    (blendWeights silentParams 3).weightSum < 1 / 10000 ∧
    (legacySaturation tanhModel sinModel (44 / 7) 44100 silentParams 3 1
        ⟨0, 0, 0, 0, 0, 0, 0⟩ [[1 / 2, -1 / 4], [1 / 3, 1]]).2
      = [[1 / 2, -1 / 4], [1 / 3, 1]] :=
  ⟨by rw [silentParams_weightSum]; norm_num,
   (legacySaturation_of_small_weightSum tanhModel sinModel (44 / 7) 44100 silentParams 3
      (by rw [silentParams_weightSum]; norm_num)).2 1 ⟨0, 0, 0, 0, 0, 0, 0⟩
      [[1 / 2, -1 / 4], [1 / 3, 1]]⟩

theorem jlimit_unit (v : ℚ) : 0 ≤ jlimit 0 1 v ∧ jlimit 0 1 v ≤ 1 := by
  unfold jlimit
  split_ifs with h1 h2
  · exact ⟨le_refl 0, zero_le_one⟩
  · exact ⟨zero_le_one, le_refl 1⟩
  · exact ⟨not_lt.mp h1, not_lt.mp h2⟩

theorem boosted_bounds (c : Prop) [Decidable c] (v : ℚ) (h : 0 ≤ v ∧ v ≤ 1) :
    0 ≤ (if c then v * focusBoost else v) ∧ (if c then v * focusBoost else v) ≤ 11 / 10 ∧
    (¬ c → (if c then v * focusBoost else v) ≤ 1) := by
  unfold focusBoost
  split_ifs with hc
  · refine ⟨by linarith [h.1], by linarith [h.2], fun hn => absurd hc hn⟩
  · exact ⟨h.1, by linarith [h.2], fun _ => h.2⟩

/-- C8, as stated, fails: with the transistor bundle at the top of its range and
the transistor model selected, the transistor weight entering the blend is 1.1. -/
theorem blendWeights_exceeds_one :
    (blendWeights hotTransistorParams 2).transistorWeight = 11 / 10 ∧
    ¬ (blendWeights hotTransistorParams 2).transistorWeight ≤ 1 := by
  have h : (blendWeights hotTransistorParams 2).transistorWeight = 11 / 10 := by
    simp only [blendWeights, applyFocusBoost, clampWeights, rawWeights, hotTransistorParams,
      silentParams, jlimit, focusBoost]
    norm_num
  exact ⟨h, by rw [h]; norm_num⟩

/-- C8, amended: every weight entering the blend lies in `[0, 1.1]`, the weight
of a model that is not the selected one lies in `[0, 1]`, and the selected
model's weight is 1.1 times its clamped value: the clamp comes first, the boost
second. -/
theorem blendWeights_bounds (P : SatParams) (satType : ℤ) :
    (0 ≤ (blendWeights P satType).tubeWeight ∧ (blendWeights P satType).tubeWeight ≤ 11 / 10 ∧
      (satType ≠ 1 → (blendWeights P satType).tubeWeight ≤ 1)) ∧
    (0 ≤ (blendWeights P satType).transistorWeight ∧
      (blendWeights P satType).transistorWeight ≤ 11 / 10 ∧
      (satType ≠ 2 → (blendWeights P satType).transistorWeight ≤ 1)) ∧
    (0 ≤ (blendWeights P satType).tapeWeight ∧ (blendWeights P satType).tapeWeight ≤ 11 / 10 ∧
      (satType ≠ 3 → (blendWeights P satType).tapeWeight ≤ 1)) ∧
    (0 ≤ (blendWeights P satType).diodeWeight ∧
      (blendWeights P satType).diodeWeight ≤ 11 / 10 ∧
      (satType ≠ 4 → (blendWeights P satType).diodeWeight ≤ 1)) ∧
    (0 ≤ (blendWeights P satType).fuzzWeight ∧ (blendWeights P satType).fuzzWeight ≤ 11 / 10 ∧
      (satType ≠ 5 → (blendWeights P satType).fuzzWeight ≤ 1)) ∧
    (0 ≤ (blendWeights P satType).bitWeight ∧ (blendWeights P satType).bitWeight ≤ 11 / 10 ∧
      (satType ≠ 6 → (blendWeights P satType).bitWeight ≤ 1)) ∧
    blendWeights P satType
      = { tubeWeight := (if satType = 1 then 11 / 10 else 1) * jlimit 0 1 (rawWeights P).tubeWeight
          transistorWeight :=
            (if satType = 2 then 11 / 10 else 1) * jlimit 0 1 (rawWeights P).transistorWeight
          tapeWeight := (if satType = 3 then 11 / 10 else 1) * jlimit 0 1 (rawWeights P).tapeWeight
          diodeWeight :=
            (if satType = 4 then 11 / 10 else 1) * jlimit 0 1 (rawWeights P).diodeWeight
          fuzzWeight := (if satType = 5 then 11 / 10 else 1) * jlimit 0 1 (rawWeights P).fuzzWeight
          bitWeight := (if satType = 6 then 11 / 10 else 1) * jlimit 0 1 (rawWeights P).bitWeight } := by
  refine ⟨?_, ?_, ?_, ?_, ?_, ?_, ?_⟩
  · exact boosted_bounds (satType = 1) _ (jlimit_unit _)
  · exact boosted_bounds (satType = 2) _ (jlimit_unit _)
  · exact boosted_bounds (satType = 3) _ (jlimit_unit _)
  · exact boosted_bounds (satType = 4) _ (jlimit_unit _)
  · exact boosted_bounds (satType = 5) _ (jlimit_unit _)
  · exact boosted_bounds (satType = 6) _ (jlimit_unit _)
  · simp only [blendWeights, applyFocusBoost, clampWeights, focusBoost]
    congr 1 <;> split_ifs <;> ring

/-- Witness for C8 amended: the tape weight with the transistor model selected. -/
theorem blendWeights_bounds_witness :
    (2 : ℤ) ≠ 3 ∧ (blendWeights hotTransistorParams 2).tapeWeight ≤ 1 :=
  ⟨by decide, (blendWeights_bounds hotTransistorParams 2).2.2.1.2.2 (by decide)⟩

theorem jlimit_unit_pos (v : ℚ) (h : 0 < v) : 0 < jlimit 0 1 v := by
  unfold jlimit
  split_ifs with h1 h2
  · exact absurd h (not_lt.mpr (le_of_lt h1))
  · exact zero_lt_one
  · exact h

theorem jlimit_unit_of_mem (v : ℚ) (h0 : 0 ≤ v) (h1 : v ≤ 1) : jlimit 0 1 v = v := by
  unfold jlimit
  rw [if_neg (not_lt.mpr h0), if_neg (not_lt.mpr h1)]

theorem tube_dominates_silent (d : ℚ) (hd : 0 < d) (satType : ℤ) :
    (blendWeights { silentParams with tubeDriveVal := d } satType).tubeWeight
      = (blendWeights { silentParams with tubeDriveVal := d } satType).weightSum ∧
    0 < (blendWeights { silentParams with tubeDriveVal := d } satType).tubeWeight := by
  have hj := jlimit_unit_pos (d / 10 * (65 / 100) + 0 * (18 / 100) + |(0:ℚ)| * (7 / 100)
    + |(1:ℚ) - 1| * (10 / 100)) (by norm_num; positivity)
  have h0 : jlimit 0 1 0 = 0 := jlimit_unit_of_mem 0 (le_refl 0) zero_le_one
  simp only [blendWeights, applyFocusBoost, clampWeights, rawWeights, silentParams,
    Weights.weightSum, focusBoost]
  generalize jlimit 0 1 (d / 10 * (65 / 100) + 0 * (18 / 100) + |(0:ℚ)| * (7 / 100)
    + |(1:ℚ) - 1| * (10 / 100)) = own at hj ⊢
  norm_num [h0]
  split_ifs <;> linarith

theorem tube_share_zero (d : ℚ) (satType : ℤ) :
    (blendWeights { zeroParams with tubeDriveVal := d } satType).tubeWeight
      ≤ 61 / 100 * (blendWeights { zeroParams with tubeDriveVal := d } satType).weightSum := by
  have hj := jlimit_unit (d / 10 * (65 / 100) + 0 * (18 / 100) + |(0:ℚ)| * (7 / 100)
    + |(0:ℚ) - 1| * (10 / 100))
  have h1 : jlimit 0 1 (1 / 10) = 1 / 10 := jlimit_unit_of_mem _ (by norm_num) (by norm_num)
  have h3 : jlimit 0 1 (3 / 10) = 3 / 10 := jlimit_unit_of_mem _ (by norm_num) (by norm_num)
  have hb : jlimit 0 1 (223 / 700) = 223 / 700 :=
    jlimit_unit_of_mem _ (by norm_num) (by norm_num)
  simp only [blendWeights, applyFocusBoost, clampWeights, rawWeights, zeroParams,
    Weights.weightSum, focusBoost]
  generalize jlimit 0 1 (d / 10 * (65 / 100) + 0 * (18 / 100) + |(0:ℚ)| * (7 / 100)
    + |(0:ℚ) - 1| * (10 / 100)) = own at hj ⊢
  norm_num [h1, h3, hb]
  split_ifs <;> linarith [hj.1, hj.2]

theorem transistor_dominates_silent (d : ℚ) (hd : 0 < d) (satType : ℤ) :
    (blendWeights { silentParams with transistorDriveVal := d } satType).transistorWeight
      = (blendWeights { silentParams with transistorDriveVal := d } satType).weightSum ∧
    0 < (blendWeights { silentParams with transistorDriveVal := d } satType).transistorWeight := by
  have hj := jlimit_unit_pos (d / 10 * (55 / 100) + 0 * (22 / 100) + 0 * (13 / 100)
    + |(1:ℚ) - 1| * (10 / 100)) (by norm_num; positivity)
  have h0 : jlimit 0 1 0 = 0 := jlimit_unit_of_mem 0 (le_refl 0) zero_le_one
  simp only [blendWeights, applyFocusBoost, clampWeights, rawWeights, silentParams,
    Weights.weightSum, focusBoost]
  generalize jlimit 0 1 (d / 10 * (55 / 100) + 0 * (22 / 100) + 0 * (13 / 100)
    + |(1:ℚ) - 1| * (10 / 100)) = own at hj ⊢
  norm_num [h0]
  split_ifs <;> linarith

theorem transistor_share_zero (d : ℚ) (satType : ℤ) :
    (blendWeights { zeroParams with transistorDriveVal := d } satType).transistorWeight
      ≤ 61 / 100 * (blendWeights { zeroParams with transistorDriveVal := d } satType).weightSum := by
  have hj := jlimit_unit (d / 10 * (55 / 100) + 0 * (22 / 100) + 0 * (13 / 100)
    + |(0:ℚ) - 1| * (10 / 100))
  have h1 : jlimit 0 1 (1 / 10) = 1 / 10 := jlimit_unit_of_mem _ (by norm_num) (by norm_num)
  have h3 : jlimit 0 1 (3 / 10) = 3 / 10 := jlimit_unit_of_mem _ (by norm_num) (by norm_num)
  have hb : jlimit 0 1 (223 / 700) = 223 / 700 :=
    jlimit_unit_of_mem _ (by norm_num) (by norm_num)
  simp only [blendWeights, applyFocusBoost, clampWeights, rawWeights, zeroParams,
    Weights.weightSum, focusBoost]
  generalize jlimit 0 1 (d / 10 * (55 / 100) + 0 * (22 / 100) + 0 * (13 / 100)
    + |(0:ℚ) - 1| * (10 / 100)) = own at hj ⊢
  norm_num [h1, h3, hb]
  split_ifs <;> linarith [hj.1, hj.2]

theorem tape_dominates_silent (d : ℚ) (hd : 0 < d) (satType : ℤ) :
    (blendWeights { silentParams with tapeDriveVal := d } satType).tapeWeight
      = (blendWeights { silentParams with tapeDriveVal := d } satType).weightSum ∧
    0 < (blendWeights { silentParams with tapeDriveVal := d } satType).tapeWeight := by
  have hj := jlimit_unit_pos (d / 10 * (55 / 100) + 0 * (18 / 100) + 0 * (17 / 100)
    + |(1:ℚ) - 1| * (10 / 100)) (by norm_num; positivity)
  have h0 : jlimit 0 1 0 = 0 := jlimit_unit_of_mem 0 (le_refl 0) zero_le_one
  simp only [blendWeights, applyFocusBoost, clampWeights, rawWeights, silentParams,
    Weights.weightSum, focusBoost]
  generalize jlimit 0 1 (d / 10 * (55 / 100) + 0 * (18 / 100) + 0 * (17 / 100)
    + |(1:ℚ) - 1| * (10 / 100)) = own at hj ⊢
  norm_num [h0]
  split_ifs <;> linarith

theorem tape_share_zero (d : ℚ) (satType : ℤ) :
    (blendWeights { zeroParams with tapeDriveVal := d } satType).tapeWeight
      ≤ 61 / 100 * (blendWeights { zeroParams with tapeDriveVal := d } satType).weightSum := by
  have hj := jlimit_unit (d / 10 * (55 / 100) + 0 * (18 / 100) + 0 * (17 / 100)
    + |(0:ℚ) - 1| * (10 / 100))
  have h1 : jlimit 0 1 (1 / 10) = 1 / 10 := jlimit_unit_of_mem _ (by norm_num) (by norm_num)
  have h3 : jlimit 0 1 (3 / 10) = 3 / 10 := jlimit_unit_of_mem _ (by norm_num) (by norm_num)
  have hb : jlimit 0 1 (223 / 700) = 223 / 700 :=
    jlimit_unit_of_mem _ (by norm_num) (by norm_num)
  simp only [blendWeights, applyFocusBoost, clampWeights, rawWeights, zeroParams,
    Weights.weightSum, focusBoost]
  generalize jlimit 0 1 (d / 10 * (55 / 100) + 0 * (18 / 100) + 0 * (17 / 100)
    + |(0:ℚ) - 1| * (10 / 100)) = own at hj ⊢
  norm_num [h1, h3, hb]
  split_ifs <;> linarith [hj.1, hj.2]

theorem diode_dominates_silent (d : ℚ) (hd : 0 < d) (satType : ℤ) :
    (blendWeights { silentParams with diodeDriveVal := d } satType).diodeWeight
      = (blendWeights { silentParams with diodeDriveVal := d } satType).weightSum ∧
    0 < (blendWeights { silentParams with diodeDriveVal := d } satType).diodeWeight := by
  have hj := jlimit_unit_pos (d / 10 * (55 / 100) + 0 * (18 / 100) + 0 * (17 / 100)
    + |(1:ℚ) - 1| * (10 / 100)) (by norm_num; positivity)
  have h0 : jlimit 0 1 0 = 0 := jlimit_unit_of_mem 0 (le_refl 0) zero_le_one
  simp only [blendWeights, applyFocusBoost, clampWeights, rawWeights, silentParams,
    Weights.weightSum, focusBoost]
  generalize jlimit 0 1 (d / 10 * (55 / 100) + 0 * (18 / 100) + 0 * (17 / 100)
    + |(1:ℚ) - 1| * (10 / 100)) = own at hj ⊢
  norm_num [h0]
  split_ifs <;> linarith

theorem diode_share_zero (d : ℚ) (satType : ℤ) :
    (blendWeights { zeroParams with diodeDriveVal := d } satType).diodeWeight
      ≤ 61 / 100 * (blendWeights { zeroParams with diodeDriveVal := d } satType).weightSum := by
  have hj := jlimit_unit (d / 10 * (55 / 100) + 0 * (18 / 100) + 0 * (17 / 100)
    + |(0:ℚ) - 1| * (10 / 100))
  have h1 : jlimit 0 1 (1 / 10) = 1 / 10 := jlimit_unit_of_mem _ (by norm_num) (by norm_num)
  have h3 : jlimit 0 1 (3 / 10) = 3 / 10 := jlimit_unit_of_mem _ (by norm_num) (by norm_num)
  have hb : jlimit 0 1 (223 / 700) = 223 / 700 :=
    jlimit_unit_of_mem _ (by norm_num) (by norm_num)
  simp only [blendWeights, applyFocusBoost, clampWeights, rawWeights, zeroParams,
    Weights.weightSum, focusBoost]
  generalize jlimit 0 1 (d / 10 * (55 / 100) + 0 * (18 / 100) + 0 * (17 / 100)
    + |(0:ℚ) - 1| * (10 / 100)) = own at hj ⊢
  norm_num [h1, h3, hb]
  split_ifs <;> linarith [hj.1, hj.2]

theorem fuzz_dominates_silent (d : ℚ) (hd : 0 < d) (satType : ℤ) :
    (blendWeights { silentParams with fuzzDriveVal := d } satType).fuzzWeight
      = (blendWeights { silentParams with fuzzDriveVal := d } satType).weightSum ∧
    0 < (blendWeights { silentParams with fuzzDriveVal := d } satType).fuzzWeight := by
  have hj := jlimit_unit_pos (d / 10 * (55 / 100) + 0 * (15 / 100) + (1 - 1) * (20 / 100)
    + |(1:ℚ) - 1| * (10 / 100)) (by norm_num; positivity)
  have h0 : jlimit 0 1 0 = 0 := jlimit_unit_of_mem 0 (le_refl 0) zero_le_one
  simp only [blendWeights, applyFocusBoost, clampWeights, rawWeights, silentParams,
    Weights.weightSum, focusBoost]
  generalize jlimit 0 1 (d / 10 * (55 / 100) + 0 * (15 / 100) + (1 - 1) * (20 / 100)
    + |(1:ℚ) - 1| * (10 / 100)) = own at hj ⊢
  norm_num [h0]
  split_ifs <;> linarith

theorem fuzz_share_zero (d : ℚ) (satType : ℤ) :
    (blendWeights { zeroParams with fuzzDriveVal := d } satType).fuzzWeight
      ≤ 61 / 100 * (blendWeights { zeroParams with fuzzDriveVal := d } satType).weightSum := by
  have hj := jlimit_unit (d / 10 * (55 / 100) + 0 * (15 / 100) + (1 - 0) * (20 / 100)
    + |(0:ℚ) - 1| * (10 / 100))
  have h1 : jlimit 0 1 (1 / 10) = 1 / 10 := jlimit_unit_of_mem _ (by norm_num) (by norm_num)
  have h3 : jlimit 0 1 (3 / 10) = 3 / 10 := jlimit_unit_of_mem _ (by norm_num) (by norm_num)
  have hb : jlimit 0 1 (223 / 700) = 223 / 700 :=
    jlimit_unit_of_mem _ (by norm_num) (by norm_num)
  simp only [blendWeights, applyFocusBoost, clampWeights, rawWeights, zeroParams,
    Weights.weightSum, focusBoost]
  generalize jlimit 0 1 (d / 10 * (55 / 100) + 0 * (15 / 100) + (1 - 0) * (20 / 100)
    + |(0:ℚ) - 1| * (10 / 100)) = own at hj ⊢
  norm_num [h1, h3, hb]
  split_ifs <;> linarith [hj.1, hj.2]

/-- C9, as stated, fails: with every parameter 0 except a transistor drive of 10
and the transistor model selected, the transistor weight is 143/200 of a weight
sum of 2287/1400, about 44% and not more than 90%. -/
theorem dominance_fails_at_zero :
    (blendWeights drivenTransistorParams 2).transistorWeight = 143 / 200 ∧
    (blendWeights drivenTransistorParams 2).weightSum = 2287 / 1400 ∧
    ¬ ((blendWeights drivenTransistorParams 2).transistorWeight
        > 9 / 10 * (blendWeights drivenTransistorParams 2).weightSum) := by
  have hw : (blendWeights drivenTransistorParams 2).transistorWeight = 143 / 200 := by
    simp only [blendWeights, applyFocusBoost, clampWeights, rawWeights,
      drivenTransistorParams, zeroParams, jlimit, focusBoost]
    norm_num
  have hs : (blendWeights drivenTransistorParams 2).weightSum = 2287 / 1400 := by
    simp only [blendWeights, applyFocusBoost, clampWeights, rawWeights,
      drivenTransistorParams, zeroParams, Weights.weightSum, jlimit, focusBoost]
    norm_num
  refine ⟨hw, hs, ?_⟩
  rw [hw, hs]
  norm_num

/-- C9, amended: dominance holds at the zero-weight setting, not at 0. With every
parameter at the value that adds nothing to its model's weight (outputs 1, fuzz
tone 1, bit depth 16, bit rate 1, everything else 0) and one model's drive
positive, that model's weight is more than 90% of the weight sum. With every
other parameter literally 0 the driven model's weight is at most 61% of the sum,
for every drive and every selected model. -/
theorem dominance_amended (d : ℚ) (satType : ℤ) :
    (0 < d →
      ((blendWeights { silentParams with tubeDriveVal := d } satType).tubeWeight
        > 9 / 10 * (blendWeights { silentParams with tubeDriveVal := d } satType).weightSum) ∧
      ((blendWeights { silentParams with transistorDriveVal := d } satType).transistorWeight
        > 9 / 10 * (blendWeights { silentParams with transistorDriveVal := d } satType).weightSum) ∧
      ((blendWeights { silentParams with tapeDriveVal := d } satType).tapeWeight
        > 9 / 10 * (blendWeights { silentParams with tapeDriveVal := d } satType).weightSum) ∧
      ((blendWeights { silentParams with diodeDriveVal := d } satType).diodeWeight
        > 9 / 10 * (blendWeights { silentParams with diodeDriveVal := d } satType).weightSum) ∧
      ((blendWeights { silentParams with fuzzDriveVal := d } satType).fuzzWeight
        > 9 / 10 * (blendWeights { silentParams with fuzzDriveVal := d } satType).weightSum)) ∧
    ((blendWeights { zeroParams with tubeDriveVal := d } satType).tubeWeight
      ≤ 61 / 100 * (blendWeights { zeroParams with tubeDriveVal := d } satType).weightSum) ∧
    ((blendWeights { zeroParams with transistorDriveVal := d } satType).transistorWeight
      ≤ 61 / 100 * (blendWeights { zeroParams with transistorDriveVal := d } satType).weightSum) ∧
    ((blendWeights { zeroParams with tapeDriveVal := d } satType).tapeWeight
      ≤ 61 / 100 * (blendWeights { zeroParams with tapeDriveVal := d } satType).weightSum) ∧
    ((blendWeights { zeroParams with diodeDriveVal := d } satType).diodeWeight
      ≤ 61 / 100 * (blendWeights { zeroParams with diodeDriveVal := d } satType).weightSum) ∧
    ((blendWeights { zeroParams with fuzzDriveVal := d } satType).fuzzWeight
      ≤ 61 / 100 * (blendWeights { zeroParams with fuzzDriveVal := d } satType).weightSum) := by
  refine ⟨fun hd => ⟨?_, ?_, ?_, ?_, ?_⟩, tube_share_zero d satType,
    transistor_share_zero d satType, tape_share_zero d satType,
    diode_share_zero d satType, fuzz_share_zero d satType⟩
  · have h := tube_dominates_silent d hd satType
    rw [← h.1]; linarith [h.2]
  · have h := transistor_dominates_silent d hd satType
    rw [← h.1]; linarith [h.2]
  · have h := tape_dominates_silent d hd satType
    rw [← h.1]; linarith [h.2]
  · have h := diode_dominates_silent d hd satType
    rw [← h.1]; linarith [h.2]
  · have h := fuzz_dominates_silent d hd satType
    rw [← h.1]; linarith [h.2]

/-- Witness for C9 amended: a fuzz drive of 6 with the tape model selected. -/
theorem dominance_amended_witness :
    (0 : ℚ) < 6 ∧
    (blendWeights { silentParams with fuzzDriveVal := 6 } 3).fuzzWeight
      > 9 / 10 * (blendWeights { silentParams with fuzzDriveVal := 6 } 3).weightSum :=
  ⟨by norm_num, ((dominance_amended 6 3).1 (by norm_num)).2.2.2.2⟩

/-! ### Peak bands -/

theorem peakCoeffs_unit_gain (sin cos sqrt decibelsToGain : ℚ → ℚ)
    (twoPi sampleRate freq q : ℚ) (hgain : decibelsToGain 0 = 1) (hsqrt : sqrt 1 = 1)
    (hq : 0 < q) (hsin : 0 ≤ sin (twoPi * freq / sampleRate)) :
    (peakCoeffs sin cos sqrt decibelsToGain twoPi sampleRate freq 0 q).b0 = 1 ∧
    (peakCoeffs sin cos sqrt decibelsToGain twoPi sampleRate freq 0 q).b1
      = (peakCoeffs sin cos sqrt decibelsToGain twoPi sampleRate freq 0 q).a1 ∧
    (peakCoeffs sin cos sqrt decibelsToGain twoPi sampleRate freq 0 q).b2
      = (peakCoeffs sin cos sqrt decibelsToGain twoPi sampleRate freq 0 q).a2 := by
  have halpha : 0 ≤ sin (twoPi * freq / sampleRate) / (2 * q) :=
    div_nonneg hsin (by linarith)
  have ha0 : (1 + sin (twoPi * freq / sampleRate) / (2 * q)) ≠ 0 := by
    have : 0 < 1 + sin (twoPi * freq / sampleRate) / (2 * q) := by linarith
    exact ne_of_gt this
  simp only [peakCoeffs, makePeakFilter, zero_mul, hgain, hsqrt, mul_one, div_one]
  exact ⟨div_self ha0, trivial, trivial⟩

theorem processSamples_identity (c : FilterCoefficients) (h0 : c.b0 = 1) (h1 : c.b1 = c.a1)
    (h2 : c.b2 = c.a2) (data : List ℚ) :
    processSamples c ⟨0, 0⟩ data = (⟨0, 0⟩, data) := by
  induction data with
  | nil => rfl
  | cons x rest ih =>
    have hstep : processSample c ⟨0, 0⟩ x = (⟨0, 0⟩, x) := by
      simp only [processSample, h0, h1, h2]
      congr 1
      · congr 1 <;> ring
      · ring
    simp only [processSamples, hstep, ih]

/-- C10: a peak band whose gain is 0 dB gets coefficients with `b0 = 1`,
`b1 = a1`, `b2 = a2` and, run from rest, returns every input sequence unchanged
(and stays at rest), for every Q above 0 and every centre frequency at which
`sin ω` is not negative, that is up to Nyquist. -/
theorem peakBand_unit_gain_identity (sin cos sqrt decibelsToGain : ℚ → ℚ)
    (twoPi sampleRate freq q : ℚ) (hgain : decibelsToGain 0 = 1) (hsqrt : sqrt 1 = 1)
    (hq : 0 < q) (hsin : 0 ≤ sin (twoPi * freq / sampleRate)) (data : List ℚ) :
    peakBand sin cos sqrt decibelsToGain twoPi sampleRate freq 0 q ⟨0, 0⟩ data
      = (⟨0, 0⟩, data) := by
  have h := peakCoeffs_unit_gain sin cos sqrt decibelsToGain twoPi sampleRate freq q
    hgain hsqrt hq hsin
  exact processSamples_identity _ h.1 h.2.1 h.2.2 data

/-- Witness for C10: 1 kHz at 44.1 kHz, Q 1, on a short block. -/
theorem peakBand_unit_gain_identity_witness :
    decibelsToGainModel 0 = 1 ∧ sqrtModel 1 = 1 ∧ (0 : ℚ) < 1 ∧
    0 ≤ sinModel (44 / 7 * 1000 / 44100) ∧
    peakBand sinModel cosModel sqrtModel decibelsToGainModel (44 / 7) 44100 1000 0 1
        ⟨0, 0⟩ [1 / 2, -1 / 4, 1]
      = (⟨0, 0⟩, [1 / 2, -1 / 4, 1]) :=
  ⟨by norm_num [decibelsToGainModel], by norm_num [sqrtModel], by norm_num,
   by norm_num [sinModel],
   peakBand_unit_gain_identity sinModel cosModel sqrtModel decibelsToGainModel (44 / 7)
     44100 1000 1 (by norm_num [decibelsToGainModel]) (by norm_num [sqrtModel])
     (by norm_num) (by norm_num [sinModel]) [1 / 2, -1 / 4, 1]⟩

/-! ### EQ response curve and stage counts -/

/-- C11: after `setHPF (cutoff, 0)` the high-pass band, and after
`setLPF (cutoff, 0)` the low-pass band, adds exactly 0 dB to the response at
every query frequency and for every cutoff. -/
theorem bypassed_slope_contribution (log2 exp : ℚ → ℚ) (E : EQBands) (cutoff freq : ℚ) :
    bandContribution log2 exp (setHPF E cutoff 0) 0 freq = 0 ∧
    bandContribution log2 exp (setLPF E cutoff 0) 5 freq = 0 := by
  constructor
  · simp only [bandContribution, setHPF, Function.update_same, zero_div, le_refl, if_true]
    split_ifs <;> rfl
  · simp only [bandContribution, setLPF, Function.update_same, zero_div, le_refl, if_true]
    split_ifs <;> rfl

theorem jlimitInt_eq_clamp (lo hi v : ℤ) (h : lo ≤ hi) :
    jlimitInt lo hi v = max lo (min hi v) := by
  unfold jlimitInt
  split_ifs with h1 h2
  · rw [max_eq_left]
    exact le_trans (min_le_right _ _) (le_of_lt h1)
  · rw [min_eq_left (le_of_lt h2), max_eq_right h]
  · rw [min_eq_right (not_lt.mp h2), max_eq_right (not_lt.mp h1)]

/-- The rounding of `roundToInt` is to a nearest integer: the result is within
one half of its argument, whatever the sign. -/
theorem roundToInt_near (v : ℚ) : |((roundToInt v : ℤ) : ℚ) - v| ≤ 1 / 2 := by
  unfold roundToInt
  split_ifs with h
  · have h1 := Int.floor_le (v + 1 / 2)
    have h2 := Int.lt_floor_add_one (v + 1 / 2)
    rw [abs_le]; constructor <;> linarith
  · have h1 := Int.floor_le (-v + 1 / 2)
    have h2 := Int.lt_floor_add_one (-v + 1 / 2)
    push_cast
    rw [abs_le]; constructor <;> linarith

/-- On a non-negative argument `roundToInt` is the mathematical `round` (nearest
integer, a half rounded up). -/
theorem roundToInt_of_nonneg (v : ℚ) (h : 0 ≤ v) : roundToInt v = round v := by
  unfold roundToInt
  rw [if_pos h, round_eq]

/-- C12: the stage count is in `{0,...,8}`; it is 0 exactly when the smoothed
slope is not positive and otherwise `round (v)`, the integer nearest to `v`
with a half rounded up, clamped to `[1, 8]`; the integer the code rounds to is
within one half of `v`; with a stage count of 0 the bank returns the buffer
(and its filters) untouched. -/
theorem slopeToStages_spec (v : ℚ) :
    (0 ≤ slopeToStages v ∧ slopeToStages v ≤ 8) ∧
    (slopeToStages v = 0 ↔ v ≤ 0) ∧
    (0 < v → slopeToStages v = max 1 (min 8 (round v))) ∧
    |((roundToInt v : ℤ) : ℚ) - v| ≤ 1 / 2 ∧
    (∀ (coeffs : FilterCoefficients) (bank : List IIRFilter) (data : List ℚ),
      slopeToStages v = 0 → filterBank coeffs (slopeToStages v) bank data = (bank, data)) := by
  have hclamp := jlimitInt_eq_clamp 1 8 (roundToInt v) (by norm_num)
  have hlo : (1 : ℤ) ≤ max 1 (min 8 (roundToInt v)) := le_max_left _ _
  have hhi : max 1 (min 8 (roundToInt v)) ≤ (8 : ℤ) :=
    max_le (by norm_num) (min_le_left _ _)
  refine ⟨?_, ?_, ?_, roundToInt_near v, ?_⟩
  · unfold slopeToStages
    split_ifs with h
    · rw [hclamp]; exact ⟨by linarith, hhi⟩
    · exact ⟨le_refl 0, by norm_num⟩
  · unfold slopeToStages
    split_ifs with h
    · rw [hclamp]
      constructor
      · intro h0; rw [h0] at hlo; exact absurd hlo (by norm_num)
      · intro hv; exact absurd h (not_lt.mpr hv)
    · exact ⟨fun _ => not_lt.mp h, fun _ => rfl⟩
  · intro hv
    unfold slopeToStages
    rw [if_pos hv, hclamp, roundToInt_of_nonneg v hv.le]
  · intro coeffs bank data h0
    rw [h0]
    simp only [filterBank]
    rw [if_neg (lt_irrefl 0)]

/-- Witness for C12: a slope of 2.4 gives 2 stages, 2.5 gives 3, 0.25 gives 1
(rounds to 0, clamped up), 100 gives 8 (clamped down), and a slope of 0 gives 0
stages and leaves a one-sample block alone. -/
theorem slopeToStages_spec_witness :
    (0 : ℚ) < 12 / 5 ∧ slopeToStages (12 / 5) = 2 ∧ slopeToStages (5 / 2) = 3 ∧
    slopeToStages (1 / 4) = 1 ∧ slopeToStages 100 = 8 ∧
    slopeToStages 0 = 0 ∧
    filterBank ⟨1, 2, 3, 4, 5⟩ (slopeToStages 0) [⟨⟨1, 0, 0, 0, 0⟩, ⟨1, 1⟩⟩] [1 / 2]
      = ([⟨⟨1, 0, 0, 0, 0⟩, ⟨1, 1⟩⟩], [1 / 2]) := by
  have r1 : round (12 / 5 : ℚ) = 2 := by rw [round_eq, Int.floor_eq_iff]; norm_num
  have r2 : round (5 / 2 : ℚ) = 3 := by rw [round_eq, Int.floor_eq_iff]; norm_num
  have r3 : round (1 / 4 : ℚ) = 0 := by rw [round_eq, Int.floor_eq_iff]; norm_num
  have r4 : round (100 : ℚ) = 100 := by rw [round_eq, Int.floor_eq_iff]; norm_num
  have h1 := (slopeToStages_spec (12 / 5)).2.2.1 (by norm_num)
  have h2 := (slopeToStages_spec (5 / 2)).2.2.1 (by norm_num)
  have h3 := (slopeToStages_spec (1 / 4)).2.2.1 (by norm_num)
  have h4 := (slopeToStages_spec 100).2.2.1 (by norm_num)
  rw [r1] at h1
  rw [r2] at h2
  rw [r3] at h3
  rw [r4] at h4
  exact ⟨by norm_num, h1.trans (by decide), h2.trans (by decide), h3.trans (by decide),
    h4.trans (by decide), (slopeToStages_spec 0).2.1.mpr (le_refl 0),
    (slopeToStages_spec 0).2.2.2.2 ⟨1, 2, 3, 4, 5⟩ [⟨⟨1, 0, 0, 0, 0⟩, ⟨1, 1⟩⟩] [1 / 2]
      ((slopeToStages_spec 0).2.1.mpr (le_refl 0))⟩

/-! ### Tube saturation processor -/

theorem jlimit_bounds (lo hi v : ℚ) (h : lo ≤ hi) :
    lo ≤ jlimit lo hi v ∧ jlimit lo hi v ≤ hi := by
  unfold jlimit
  split_ifs with h1 h2
  · exact ⟨le_refl lo, h⟩
  · exact ⟨h, le_refl hi⟩
  · exact ⟨not_lt.mp h1, not_lt.mp h2⟩

theorem upsample_length : ∀ x : List ℚ, (upsample x).length = 2 * x.length
  | [] => rfl
  | [_] => rfl
  | a :: b :: rest => by
    simp only [upsample, List.length_cons, upsample_length (b :: rest)]
    ring

theorem upsample_even : ∀ (x : List ℚ) (i : ℕ), (upsample x)[2 * i]? = x[i]?
  | [], i => by simp [upsample]
  | [a], i => by
    cases i with
    | zero => simp [upsample]
    | succ j =>
      have : 2 * (j + 1) = (2 * j + 1) + 1 := by ring
      simp [upsample, this]
  | a :: b :: rest, i => by
    cases i with
    | zero => simp [upsample]
    | succ j =>
      have : 2 * (j + 1) = (2 * j + 1) + 1 := by ring
      simp only [upsample, this, List.getElem?_cons_succ]
      exact upsample_even (b :: rest) j

theorem upsample_odd : ∀ (x : List ℚ) (i : ℕ),
    (upsample x)[2 * i + 1]? = x[i]?.map (fun a => (a + (x[i + 1]?).getD a) * (1 / 2))
  | [], i => by simp [upsample]
  | [a], i => by
    cases i with
    | zero => simp [upsample]
    | succ j =>
      have : 2 * (j + 1) + 1 = (2 * j + 1) + 1 + 1 := by ring
      simp [upsample, this]
  | a :: b :: rest, i => by
    cases i with
    | zero => simp [upsample]
    | succ j =>
      have : 2 * (j + 1) + 1 = (2 * j + 1) + 1 + 1 := by ring
      simp only [upsample, this, List.getElem?_cons_succ]
      rw [upsample_odd (b :: rest) j]
      simp only [List.getElem?_cons_succ]

theorem decimate_getElem? : ∀ (l : List ℚ) (i : ℕ), (decimate l)[i]? = l[2 * i]?
  | [], i => by simp [decimate]
  | [a], i => by
    cases i with
    | zero => simp [decimate]
    | succ j =>
      have : 2 * (j + 1) = (2 * j + 1) + 1 := by ring
      simp [decimate, this]
  | a :: b :: rest, i => by
    cases i with
    | zero => simp [decimate]
    | succ j =>
      have : 2 * (j + 1) = (2 * j + 1) + 1 := by ring
      simp only [decimate, this, List.getElem?_cons_succ]
      exact decimate_getElem? rest j

theorem decimate_upsample : ∀ x : List ℚ, decimate (upsample x) = x
  | [] => rfl
  | [_] => rfl
  | a :: b :: rest => by
    simp only [upsample, decimate, decimate_upsample (b :: rest)]

/-- C16: the upsampler turns `N` samples into `2N`, entry `2i` being input `i`
and entry `2i + 1` the mean of inputs `i` and `i + 1` (input `i` again at the
end of the block); the decimator keeps the entries at even positions; so
decimating the unprocessed upsampled stream gives the block back. -/
theorem upsample_decimate_spec (x : List ℚ) :
    (upsample x).length = 2 * x.length ∧
    (∀ i : ℕ, (upsample x)[2 * i]? = x[i]?) ∧
    (∀ i : ℕ, (upsample x)[2 * i + 1]?
      = x[i]?.map (fun a => (a + (x[i + 1]?).getD a) * (1 / 2))) ∧
    (∀ (l : List ℚ) (i : ℕ), (decimate l)[i]? = l[2 * i]?) ∧
    decimate (upsample x) = x :=
  ⟨upsample_length x, upsample_even x, upsample_odd x, decimate_getElem?,
   decimate_upsample x⟩

theorem shelf_den_pos (s c α : ℚ) (hs : 0 < s) (hc : -1 ≤ c ∧ c ≤ 1) (hα : 0 ≤ α) :
    0 < (s * s + 1) - (s * s - 1) * c + 2 * s * α ∧
    0 < (s * s + 1) + (s * s - 1) * c + 2 * s * α := by
  have hss : 0 < s * s := mul_pos hs hs
  have hsα : 0 ≤ 2 * s * α := by positivity
  have h1 : 0 ≤ (s * s) * (1 - c) := mul_nonneg hss.le (by linarith [hc.2])
  have h2 : 0 ≤ (s * s) * (1 + c) := mul_nonneg hss.le (by linarith [hc.1])
  constructor
  · rcases le_total c 0 with h | h
    · nlinarith
    · nlinarith
  · rcases le_total c 0 with h | h
    · nlinarith
    · nlinarith

theorem shelf_inverse_core (s c α : ℚ) (hs : 0 < s) (hc : -1 ≤ c ∧ c ≤ 1) (hα : 0 ≤ α) :
    let A := s * s
    let A' := 1 / (s * s)
    let s' := 1 / s
    let a0 := (A + 1) - (A - 1) * c + 2 * s * α
    let b0 := A * ((A + 1) + (A - 1) * c + 2 * s * α)
    let b1 := -2 * A * ((A - 1) + (A + 1) * c)
    let b2 := A * ((A + 1) + (A - 1) * c - 2 * s * α)
    let a1 := 2 * ((A - 1) - (A + 1) * c)
    let a2 := (A + 1) - (A - 1) * c - 2 * s * α
    let a0' := (A' + 1) - (A' - 1) * c + 2 * s' * α
    let b0' := A' * ((A' + 1) + (A' - 1) * c + 2 * s' * α)
    let b1' := -2 * A' * ((A' - 1) + (A' + 1) * c)
    let b2' := A' * ((A' + 1) + (A' - 1) * c - 2 * s' * α)
    let a1' := 2 * ((A' - 1) - (A' + 1) * c)
    let a2' := (A' + 1) - (A' - 1) * c - 2 * s' * α
    (b0' / a0' = 1 / (b0 / a0) ∧ b1' / a0' = (a1 / a0) / (b0 / a0) ∧
      b2' / a0' = (a2 / a0) / (b0 / a0) ∧ a1' / a0' = (b1 / a0) / (b0 / a0) ∧
      a2' / a0' = (b2 / a0) / (b0 / a0)) ∧ b0 / a0 ≠ 0 := by
  intro A A' s' a0 b0 b1 b2 a1 a2 a0' b0' b1' b2' a1' a2'
  have hpos := shelf_den_pos s c α hs hc hα
  have hs0 : s ≠ 0 := ne_of_gt hs
  have ha0 : a0 ≠ 0 := ne_of_gt hpos.1
  have hY : (A + 1) + (A - 1) * c + 2 * s * α ≠ 0 := ne_of_gt hpos.2
  have hb0 : b0 ≠ 0 := mul_ne_zero (mul_ne_zero hs0 hs0) hY
  have ha0' : a0' = ((A + 1) + (A - 1) * c + 2 * s * α) / (s * s) := by
    simp only [a0', A', s', A]; field_simp; ring
  refine ⟨⟨?_, ?_, ?_, ?_, ?_⟩, div_ne_zero hb0 ha0⟩
  all_goals
    rw [ha0']
    simp only [b0', b1', b2', a1', a2', a0, b0, b1, b2, a1, a2, A', s', A] at *
    field_simp
    ring

theorem highShelf_inverse (pow : ℚ → ℚ → ℚ) (cos sin sqrt : ℚ → ℚ) (twoPi rate : ℚ)
    (hlibm : EmphasisLibm pow sqrt)
    (hcos : -1 ≤ cos (twoPi * 8000 / rate) ∧ cos (twoPi * 8000 / rate) ≤ 1)
    (hsin : 0 ≤ sin (twoPi * 8000 / rate)) :
    ((makeHighShelf pow cos sin sqrt twoPi 8000 (707 / 1000) 3 rate).b0
        = 1 / (makeHighShelf pow cos sin sqrt twoPi 8000 (707 / 1000) (-3) rate).b0 ∧
      (makeHighShelf pow cos sin sqrt twoPi 8000 (707 / 1000) 3 rate).b1
        = (makeHighShelf pow cos sin sqrt twoPi 8000 (707 / 1000) (-3) rate).a1
          / (makeHighShelf pow cos sin sqrt twoPi 8000 (707 / 1000) (-3) rate).b0 ∧
      (makeHighShelf pow cos sin sqrt twoPi 8000 (707 / 1000) 3 rate).b2
        = (makeHighShelf pow cos sin sqrt twoPi 8000 (707 / 1000) (-3) rate).a2
          / (makeHighShelf pow cos sin sqrt twoPi 8000 (707 / 1000) (-3) rate).b0 ∧
      (makeHighShelf pow cos sin sqrt twoPi 8000 (707 / 1000) 3 rate).a1
        = (makeHighShelf pow cos sin sqrt twoPi 8000 (707 / 1000) (-3) rate).b1
          / (makeHighShelf pow cos sin sqrt twoPi 8000 (707 / 1000) (-3) rate).b0 ∧
      (makeHighShelf pow cos sin sqrt twoPi 8000 (707 / 1000) 3 rate).a2
        = (makeHighShelf pow cos sin sqrt twoPi 8000 (707 / 1000) (-3) rate).b2
          / (makeHighShelf pow cos sin sqrt twoPi 8000 (707 / 1000) (-3) rate).b0) ∧
    (makeHighShelf pow cos sin sqrt twoPi 8000 (707 / 1000) (-3) rate).b0 ≠ 0 := by
  obtain ⟨⟨hs, hsq⟩, ⟨hs', hsq'⟩, hinv⟩ := hlibm
  have hprod : sqrt (pow 10 (3 / 40)) * sqrt (pow 10 (-3 / 40)) = 1 := by
    have hp : 0 < sqrt (pow 10 (3 / 40)) * sqrt (pow 10 (-3 / 40)) := mul_pos hs' hs
    have h2 : (sqrt (pow 10 (3 / 40)) * sqrt (pow 10 (-3 / 40)))
        * (sqrt (pow 10 (3 / 40)) * sqrt (pow 10 (-3 / 40))) = 1 := by
      calc (sqrt (pow 10 (3 / 40)) * sqrt (pow 10 (-3 / 40)))
            * (sqrt (pow 10 (3 / 40)) * sqrt (pow 10 (-3 / 40)))
          = (sqrt (pow 10 (3 / 40)) * sqrt (pow 10 (3 / 40)))
            * (sqrt (pow 10 (-3 / 40)) * sqrt (pow 10 (-3 / 40))) := by ring
        _ = 1 := by rw [hsq, hsq', hinv]
    nlinarith
  have hs'eq : sqrt (pow 10 (3 / 40)) = 1 / sqrt (pow 10 (-3 / 40)) :=
    eq_one_div_of_mul_eq_one_left hprod
  have hAeq : pow 10 (-3 / 40) = sqrt (pow 10 (-3 / 40)) * sqrt (pow 10 (-3 / 40)) := hsq.symm
  have hA'eq : pow 10 (3 / 40)
      = 1 / (sqrt (pow 10 (-3 / 40)) * sqrt (pow 10 (-3 / 40))) := by
    rw [hsq]
    exact eq_one_div_of_mul_eq_one_left hinv
  have hα : 0 ≤ sin (twoPi * 8000 / rate) / (2 * (707 / 1000)) :=
    div_nonneg hsin (by norm_num)
  have core := shelf_inverse_core (sqrt (pow 10 (-3 / 40))) (cos (twoPi * 8000 / rate))
    (sin (twoPi * 8000 / rate) / (2 * (707 / 1000))) hs hcos hα
  simp only [makeHighShelf]
  generalize hsdef : sqrt (pow 10 (-3 / 40)) = s at *
  rw [hs'eq, hA'eq]
  rw [hAeq]
  exact core

/-- C15: the de-emphasis set that `updateFilterCoefficients` computes is the
pre-emphasis set `p` inverted, `(1/p.b0, p.a1/p.b0, p.a2/p.b0, p.b1/p.b0,
p.b2/p.b0)`, so numerator times numerator equals denominator times denominator
for the two transfer functions at every `z`; for every oversampled rate at which
8 kHz is not above Nyquist (`sin w0` not negative). -/
theorem deEmphasis_inverts_preEmphasis (pow : ℚ → ℚ → ℚ) (cos sin sqrt : ℚ → ℚ)
    (twoPi : ℚ) (T : TubeSaturation) (hlibm : EmphasisLibm pow sqrt)
    (hcos : -1 ≤ cos (twoPi * 8000 / T.oversampledRate) ∧
      cos (twoPi * 8000 / T.oversampledRate) ≤ 1)
    (hsin : 0 ≤ sin (twoPi * 8000 / T.oversampledRate)) :
    (T.updateFilterCoefficients pow cos sin sqrt twoPi).deEmph
      = { b0 := 1 / (T.updateFilterCoefficients pow cos sin sqrt twoPi).preEmph.b0
          b1 := (T.updateFilterCoefficients pow cos sin sqrt twoPi).preEmph.a1
            / (T.updateFilterCoefficients pow cos sin sqrt twoPi).preEmph.b0
          b2 := (T.updateFilterCoefficients pow cos sin sqrt twoPi).preEmph.a2
            / (T.updateFilterCoefficients pow cos sin sqrt twoPi).preEmph.b0
          a1 := (T.updateFilterCoefficients pow cos sin sqrt twoPi).preEmph.b1
            / (T.updateFilterCoefficients pow cos sin sqrt twoPi).preEmph.b0
          a2 := (T.updateFilterCoefficients pow cos sin sqrt twoPi).preEmph.b2
            / (T.updateFilterCoefficients pow cos sin sqrt twoPi).preEmph.b0 } ∧
    (∀ z : ℚ,
      ((T.updateFilterCoefficients pow cos sin sqrt twoPi).deEmph.b0
          + (T.updateFilterCoefficients pow cos sin sqrt twoPi).deEmph.b1 * z
          + (T.updateFilterCoefficients pow cos sin sqrt twoPi).deEmph.b2 * z * z)
        * ((T.updateFilterCoefficients pow cos sin sqrt twoPi).preEmph.b0
          + (T.updateFilterCoefficients pow cos sin sqrt twoPi).preEmph.b1 * z
          + (T.updateFilterCoefficients pow cos sin sqrt twoPi).preEmph.b2 * z * z)
      = (1 + (T.updateFilterCoefficients pow cos sin sqrt twoPi).deEmph.a1 * z
          + (T.updateFilterCoefficients pow cos sin sqrt twoPi).deEmph.a2 * z * z)
        * (1 + (T.updateFilterCoefficients pow cos sin sqrt twoPi).preEmph.a1 * z
          + (T.updateFilterCoefficients pow cos sin sqrt twoPi).preEmph.a2 * z * z)) := by
  have h := highShelf_inverse pow cos sin sqrt twoPi T.oversampledRate hlibm hcos hsin
  obtain ⟨⟨h0, h1, h2, h3, h4⟩, hne⟩ := h
  have hpre : (T.updateFilterCoefficients pow cos sin sqrt twoPi).preEmph
      = makeHighShelf pow cos sin sqrt twoPi 8000 (707 / 1000) (-3) T.oversampledRate := rfl
  have hde : (T.updateFilterCoefficients pow cos sin sqrt twoPi).deEmph
      = makeHighShelf pow cos sin sqrt twoPi 8000 (707 / 1000) 3 T.oversampledRate := rfl
  rw [hpre, hde]
  generalize makeHighShelf pow cos sin sqrt twoPi 8000 (707 / 1000) (-3) T.oversampledRate
    = p at *
  generalize makeHighShelf pow cos sin sqrt twoPi 8000 (707 / 1000) 3 T.oversampledRate
    = d at *
  constructor
  · cases d
    simp only [FilterCoefficients.mk.injEq]
    exact ⟨h0, h1, h2, h3, h4⟩
  · intro z
    rw [h0, h1, h2, h3, h4]
    field_simp
    ring

theorem emphasisLibm_models : EmphasisLibm powModel sqrtExactModel := by
  have e1 : powModel 10 (-3 / 40) = (29 / 35) * (29 / 35) := by
    norm_num [powModel]
  have e2 : powModel 10 (3 / 40) = (35 / 29) * (35 / 29) := by
    norm_num [powModel]
  have s1 : sqrtExactModel ((29 / 35) * (29 / 35)) = 29 / 35 := by
    rw [sqrtExactModel, Rat.sqrt_eq, abs_of_pos (by norm_num)]
  have s2 : sqrtExactModel ((35 / 29) * (35 / 29)) = 35 / 29 := by
    rw [sqrtExactModel, Rat.sqrt_eq, abs_of_pos (by norm_num)]
  unfold EmphasisLibm
  rw [e1, e2, s1, s2]
  norm_num

theorem cosModel_bounds (y : ℚ) : -1 ≤ cosModel y ∧ cosModel y ≤ 1 := by
  have h : 0 < 1 + y * y := by nlinarith [mul_self_nonneg y]
  unfold cosModel
  constructor
  · rw [le_div_iff₀ h]; nlinarith [mul_self_nonneg y]
  · rw [div_le_iff₀ h]; nlinarith [mul_self_nonneg y]

/-- Witness for C15: the coefficient sets of a processor running at 88.2 kHz
oversampled. -/
theorem deEmphasis_inverts_preEmphasis_witness :
    (hotTube.updateFilterCoefficients powModel cosModel sinModel sqrtExactModel (44 / 7)).deEmph.b0
      = 1 / (hotTube.updateFilterCoefficients powModel cosModel sinModel sqrtExactModel
          (44 / 7)).preEmph.b0 :=
  congrArg FilterCoefficients.b0
    (deEmphasis_inverts_preEmphasis powModel cosModel sinModel sqrtExactModel (44 / 7) hotTube
      emphasisLibm_models (cosModel_bounds _)
      (by norm_num [sinModel, hotTube])).1

theorem sanitize_abs_le (v : ℚ) : |sanitize (some v)| ≤ |v| := by
  simp only [sanitize]
  split_ifs with h
  · rw [abs_zero]; exact abs_nonneg v
  · unfold jlimit
    split_ifs with h1 h2
    · rw [abs_of_neg (by linarith : v < 0), abs_neg, abs_one]; linarith
    · rw [abs_of_pos (by linarith : (0 : ℚ) < v), abs_one]; linarith
    · exact le_refl _

theorem oversampledSample_first_bound (tanh : ℚ → ℚ) (ht : TanhContracting tanh)
    (T : TubeSaturation) (hbias : T.bias = 0) (hgain : T.outputGain = 1)
    (hdrive : T.drive = 1 / 10) (hwarm : T.warmthFilter.b0 = 1)
    (hinv : T.deEmph.b0 * T.preEmph.b0 = 1) (x : ℚ) :
    |(oversampledSample tanh T TubeChannelState.zero x).2| ≤ 1 / 10 * |x| := by
  simp only [oversampledSample, applyBiquad, TubeChannelState.zero, hbias, hgain, hdrive,
    hwarm, add_zero, mul_one, zero_mul, abs_zero]
  rw [if_neg (by norm_num)]
  refine (sanitize_abs_le _).trans ?_
  rw [abs_mul]
  have h1 := ht (x * T.preEmph.b0 * (1 / 10))
  have h2 : |x * T.preEmph.b0 * (1 / 10)| * |T.deEmph.b0| = 1 / 10 * |x| := by
    rw [← abs_mul]
    have : x * T.preEmph.b0 * (1 / 10) * T.deEmph.b0
        = (1 / 10) * x * (T.deEmph.b0 * T.preEmph.b0) := by ring
    rw [this, hinv, mul_one, abs_mul, abs_of_pos (by norm_num : (0 : ℚ) < 1 / 10)]
  calc |tanh (x * T.preEmph.b0 * (1 / 10))| * |T.deEmph.b0|
      ≤ |x * T.preEmph.b0 * (1 / 10)| * |T.deEmph.b0| :=
        mul_le_mul_of_nonneg_right h1 (abs_nonneg _)
    _ = 1 / 10 * |x| := h2

theorem lowShelf_unity_b0 (pow : ℚ → ℚ → ℚ) (cos sin sqrt : ℚ → ℚ) (twoPi rate : ℚ)
    (hpow : pow 10 0 = 1) (hsqrt : sqrt 1 = 1) (hsin : 0 ≤ sin (twoPi * 200 / rate)) :
    (makeLowShelf pow cos sin sqrt twoPi 200 (707 / 1000) 0 rate).b0 = 1 := by
  have hα : 0 ≤ sin (twoPi * 200 / rate) / (2 * (707 / 1000)) :=
    div_nonneg hsin (by norm_num)
  simp only [makeLowShelf, zero_div, hpow, hsqrt, sub_self, zero_mul, sub_zero, add_zero,
    one_mul, mul_one]
  have hne : (1 : ℚ) + 1 + 2 * (sin (twoPi * 200 / rate) / (2 * (707 / 1000))) ≠ 0 := by
    have : (0 : ℚ) < 1 + 1 + 2 * (sin (twoPi * 200 / rate) / (2 * (707 / 1000))) := by
      linarith
    exact ne_of_gt this
  exact div_self hne

theorem nearUnityTube_fields (pow : ℚ → ℚ → ℚ) (cos sin sqrt decibelsToGain : ℚ → ℚ)
    (twoPi : ℚ) (T : TubeSaturation) (sampleRate : ℚ)
    (hlibm : EmphasisLibm pow sqrt) (hunit : UnitGainLibm pow sqrt decibelsToGain)
    (hcos : -1 ≤ cos (twoPi * 8000 / (sampleRate * 2)) ∧
      cos (twoPi * 8000 / (sampleRate * 2)) ≤ 1)
    (hsin : 0 ≤ sin (twoPi * 8000 / (sampleRate * 2)))
    (hsin200 : 0 ≤ sin (twoPi * 200 / (sampleRate * 2))) :
    (nearUnityTube pow cos sin sqrt decibelsToGain twoPi T sampleRate).bias = 0 ∧
    (nearUnityTube pow cos sin sqrt decibelsToGain twoPi T sampleRate).outputGain = 1 ∧
    (nearUnityTube pow cos sin sqrt decibelsToGain twoPi T sampleRate).drive = 1 / 10 ∧
    (nearUnityTube pow cos sin sqrt decibelsToGain twoPi T sampleRate).warmthFilter.b0 = 1 ∧
    (nearUnityTube pow cos sin sqrt decibelsToGain twoPi T sampleRate).deEmph.b0
      * (nearUnityTube pow cos sin sqrt decibelsToGain twoPi T sampleRate).preEmph.b0 = 1 ∧
    (nearUnityTube pow cos sin sqrt decibelsToGain twoPi T sampleRate).channelState
      = fun _ => TubeChannelState.zero := by
  have j0 : jlimit (-1) 1 0 = 0 := by norm_num [jlimit]
  have j1 : jlimit (-12) 12 0 = 0 := by norm_num [jlimit]
  have j2 : jlimit (1 / 10) 10 (1 / 10) = 1 / 10 := by norm_num [jlimit]
  have j3 : jlimit (-12) 6 0 = 0 := by norm_num [jlimit]
  have hinv := highShelf_inverse pow cos sin sqrt twoPi (sampleRate * 2) hlibm hcos hsin
  have hw := lowShelf_unity_b0 pow cos sin sqrt twoPi (sampleRate * 2) hunit.1 hunit.2.1
    hsin200
  simp only [nearUnityTube, TubeSaturation.reset, TubeSaturation.setOutputGain,
    TubeSaturation.setBias, TubeSaturation.setWarmth, TubeSaturation.updateWarmthFilter,
    TubeSaturation.setDrive, TubeSaturation.prepare, TubeSaturation.updateFilterCoefficients,
    j0, j1, j2, j3, hunit.2.2, hw]
  refine ⟨trivial, trivial, trivial, trivial, ?_, trivial⟩
  rw [hinv.1.1]
  exact one_div_mul_cancel hinv.2

theorem processChannel_head (tanh : ℚ → ℚ) (T : TubeSaturation) (ch : Fin 2)
    (x : ℚ) (rest : List ℚ) :
    (processChannel tanh T ch (x :: rest)).2.headD 0
      = (oversampledSample tanh T (T.channelState ch) x).2 := by
  cases rest with
  | nil => simp [processChannel, upsample, processOversampledChannel, decimate]
  | cons y more => simp [processChannel, upsample, processOversampledChannel, decimate]

theorem nearUnityTube_head_bound (pow : ℚ → ℚ → ℚ) (cos sin sqrt decibelsToGain : ℚ → ℚ)
    (tanh : ℚ → ℚ) (twoPi : ℚ) (T : TubeSaturation) (sampleRate : ℚ)
    (ht : TanhContracting tanh)
    (hlibm : EmphasisLibm pow sqrt) (hunit : UnitGainLibm pow sqrt decibelsToGain)
    (hcos : -1 ≤ cos (twoPi * 8000 / (sampleRate * 2)) ∧
      cos (twoPi * 8000 / (sampleRate * 2)) ≤ 1)
    (hsin : 0 ≤ sin (twoPi * 8000 / (sampleRate * 2)))
    (hsin200 : 0 ≤ sin (twoPi * 200 / (sampleRate * 2)))
    (ch : Fin 2) (x : ℚ) (rest : List ℚ) :
    |(processChannel tanh (nearUnityTube pow cos sin sqrt decibelsToGain twoPi T sampleRate)
        ch (x :: rest)).2.headD 0| ≤ 1 / 10 * |x| := by
  obtain ⟨hb, hg, hd, hw, hi, hz⟩ := nearUnityTube_fields pow cos sin sqrt decibelsToGain
    twoPi T sampleRate hlibm hunit hcos hsin hsin200
  rw [processChannel_head, hz]
  exact oversampledSample_first_bound tanh ht _ hb hg hd hw hi x

theorem tanhModel_contracting : TanhContracting tanhModel := by
  intro y
  have h : 0 < 1 + |y| := by positivity
  unfold tanhModel
  rw [abs_div, abs_of_pos h, div_le_iff₀ h]
  nlinarith [abs_nonneg y, mul_nonneg (abs_nonneg y) (abs_nonneg y)]

theorem unitGainLibm_models : UnitGainLibm powModel sqrtExactModel decibelsToGainModel := by
  refine ⟨by norm_num [powModel], ?_, by norm_num [decibelsToGainModel]⟩
  have h : sqrtExactModel ((1 : ℚ) * 1) = 1 := by
    rw [sqrtExactModel, Rat.sqrt_eq, abs_one]
  rwa [mul_one] at h

theorem processChannel_singleton (tanh : ℚ → ℚ) (T : TubeSaturation) (ch : Fin 2) (x : ℚ) :
    (processChannel tanh T ch [x]).2
      = [(processChannel tanh T ch [x]).2.headD 0] := by
  simp [processChannel, upsample, processOversampledChannel, decimate]

theorem meanSquareDiff_unit_block (y : ℚ) (hy : |y| ≤ 1 / 10) :
    81 / 100 ≤ meanSquareDiff [y] [1] := by
  have h := abs_le.mp hy
  simp only [meanSquareDiff, List.zipWith, List.sum_cons, List.sum_nil, List.length_singleton,
    Nat.cast_one, div_one, add_zero]
  nlinarith [h.1, h.2]

theorem nearUnityTube_unit_block (pow : ℚ → ℚ → ℚ) (cos sin sqrt decibelsToGain : ℚ → ℚ)
    (tanh : ℚ → ℚ) (twoPi : ℚ) (T : TubeSaturation) (sampleRate : ℚ)
    (ht : TanhContracting tanh)
    (hlibm : EmphasisLibm pow sqrt) (hunit : UnitGainLibm pow sqrt decibelsToGain)
    (hcos : -1 ≤ cos (twoPi * 8000 / (sampleRate * 2)) ∧
      cos (twoPi * 8000 / (sampleRate * 2)) ≤ 1)
    (hsin : 0 ≤ sin (twoPi * 8000 / (sampleRate * 2)))
    (hsin200 : 0 ≤ sin (twoPi * 200 / (sampleRate * 2))) (ch : Fin 2) :
    81 / 100 ≤ meanSquareDiff
      (processChannel tanh (nearUnityTube pow cos sin sqrt decibelsToGain twoPi T sampleRate)
        ch [1]).2 [1] := by
  have hb := nearUnityTube_head_bound pow cos sin sqrt decibelsToGain tanh twoPi T sampleRate
    ht hlibm hunit hcos hsin hsin200 ch 1 []
  rw [abs_one, mul_one] at hb
  rw [processChannel_singleton]
  exact meanSquareDiff_unit_block _ hb

/-- C14, as stated, fails: on the one-sample block `[1]` the near-unity setting
(drive 0.1, warmth 0 dB, bias 0, output gain 0 dB, fresh state, 44.1 kHz) gives
a mean squared difference of at least 0.81, an RMS difference of at least 0.9
and not below 0.01. -/
theorem near_unity_roundtrip_fails :
    ¬ (meanSquareDiff
        (((nearUnityTube powModel cosModel sinModel sqrtExactModel decibelsToGainModel
            (44 / 7) hotTube 44100).process tanhModel [[1]]).2.headD []) [1]
        < 1 / 10000) := by
  have h := nearUnityTube_unit_block powModel cosModel sinModel sqrtExactModel
    decibelsToGainModel tanhModel (44 / 7) hotTube 44100 tanhModel_contracting
    emphasisLibm_models unitGainLibm_models (cosModel_bounds _)
    (by norm_num [sinModel]) (by norm_num [sinModel]) 0
  have hp : ((nearUnityTube powModel cosModel sinModel sqrtExactModel decibelsToGainModel
      (44 / 7) hotTube 44100).process tanhModel [[1]]).2.headD []
      = (processChannel tanhModel (nearUnityTube powModel cosModel sinModel sqrtExactModel
          decibelsToGainModel (44 / 7) hotTube 44100) 0 [1]).2 := by
    simp [TubeSaturation.process, processChannelsFrom]
  rw [hp]
  intro hlt
  linarith

/-- C14, amended: at drive 0.1, warmth 0 dB, bias 0, output gain 0 dB and fresh
state the processor attenuates instead of passing the block through: the drive
is a gain of 0.1 ahead of `tanh`, so the first output sample of every block has
at most a tenth of the magnitude of the first input sample, and on the block
`[1]` the mean squared difference is at least 0.81 (RMS at least 0.9). -/
theorem near_unity_attenuates (pow : ℚ → ℚ → ℚ) (cos sin sqrt decibelsToGain : ℚ → ℚ)
    (tanh : ℚ → ℚ) (twoPi : ℚ) (T : TubeSaturation) (sampleRate : ℚ)
    (ht : TanhContracting tanh)
    (hlibm : EmphasisLibm pow sqrt) (hunit : UnitGainLibm pow sqrt decibelsToGain)
    (hcos : -1 ≤ cos (twoPi * 8000 / (sampleRate * 2)) ∧
      cos (twoPi * 8000 / (sampleRate * 2)) ≤ 1)
    (hsin : 0 ≤ sin (twoPi * 8000 / (sampleRate * 2)))
    (hsin200 : 0 ≤ sin (twoPi * 200 / (sampleRate * 2))) (ch : Fin 2) :
    (∀ (x : ℚ) (rest : List ℚ),
      |(processChannel tanh
          (nearUnityTube pow cos sin sqrt decibelsToGain twoPi T sampleRate)
          ch (x :: rest)).2.headD 0| ≤ 1 / 10 * |x|) ∧
    81 / 100 ≤ meanSquareDiff
      (processChannel tanh (nearUnityTube pow cos sin sqrt decibelsToGain twoPi T sampleRate)
        ch [1]).2 [1] :=
  ⟨fun x rest => nearUnityTube_head_bound pow cos sin sqrt decibelsToGain tanh twoPi T
      sampleRate ht hlibm hunit hcos hsin hsin200 ch x rest,
   nearUnityTube_unit_block pow cos sin sqrt decibelsToGain tanh twoPi T sampleRate
      ht hlibm hunit hcos hsin hsin200 ch⟩

/-- Witness for C14 amended: the right channel at 48 kHz. -/
theorem near_unity_attenuates_witness :
    81 / 100 ≤ meanSquareDiff
      (processChannel tanhModel (nearUnityTube powModel cosModel sinModel sqrtExactModel
        decibelsToGainModel (44 / 7) hotTube 48000) 1 [1]).2 [1] :=
  (near_unity_attenuates powModel cosModel sinModel sqrtExactModel decibelsToGainModel
    tanhModel (44 / 7) hotTube 48000 tanhModel_contracting emphasisLibm_models
    unitGainLibm_models (cosModel_bounds _) (by norm_num [sinModel])
    (by norm_num [sinModel]) 1).2

/-! ### prepareToPlay -/

theorem prepareToPlay_effect (pow : ℚ → ℚ → ℚ) (cos sin sqrt : ℚ → ℚ) (twoPi : ℚ)
    (S : ProcessorState) (sampleRate : ℚ) :
    (prepareToPlay pow cos sin sqrt twoPi S sampleRate).compEnvelope = S.compEnvelope ∧
    (prepareToPlay pow cos sin sqrt twoPi S sampleRate).sat = ⟨0, 0, 0, 0, 0, 0, 0⟩ ∧
    (prepareToPlay pow cos sin sqrt twoPi S sampleRate).tubeSaturation.map
        TubeSaturation.channelState
      = some (fun _ => TubeChannelState.zero) := by
  refine ⟨rfl, rfl, rfl⟩

/-- C17 on the code: after `prepareToPlay` on a processor in mid-stream the tape
wow phase, the fuzz tone states, the bitcrush counters and holds and the tube
delay registers are 0, but the compressor envelope still is 5. -/
theorem prepareToPlay_keeps_envelope :
    (prepareToPlay powModel cosModel sinModel sqrtExactModel (44 / 7)
        midStreamState 44100).compEnvelope = 5 ∧
    (prepareToPlay powModel cosModel sinModel sqrtExactModel (44 / 7)
        midStreamState 44100).sat = ⟨0, 0, 0, 0, 0, 0, 0⟩ ∧
    (prepareToPlay powModel cosModel sinModel sqrtExactModel (44 / 7)
        midStreamState 44100).tubeSaturation.map TubeSaturation.channelState
      = some (fun _ => TubeChannelState.zero) :=
  prepareToPlay_effect powModel cosModel sinModel sqrtExactModel (44 / 7) midStreamState 44100

/-! ### Stage count changes -/

theorem cascadeStages_length : ∀ (n : ℕ) (bank : List IIRFilter) (data : List ℚ),
    (cascadeStages n bank data).1.length = bank.length
  | 0, _, _ => rfl
  | _ + 1, [], _ => rfl
  | n + 1, f :: rest, data => by
    simp only [cascadeStages, List.length_cons, cascadeStages_length n rest]

theorem cascadeStages_inactive : ∀ (n : ℕ) (bank : List IIRFilter) (data : List ℚ) (i : ℕ),
    n ≤ i → (cascadeStages n bank data).1[i]? = bank[i]?
  | 0, _, _, _, _ => rfl
  | _ + 1, [], _, _, _ => rfl
  | n + 1, f :: rest, data, i, h => by
    cases i with
    | zero => exact absurd h (by omega)
    | succ j =>
      simp only [cascadeStages, List.getElem?_cons_succ]
      exact cascadeStages_inactive n rest _ j (by omega)

theorem filterBank_inactive_state (coeffs : FilterCoefficients) (stages : ℤ)
    (bank : List IIRFilter) (data : List ℚ) (i : ℕ) (h : stages.toNat ≤ i) :
    ((filterBank coeffs stages bank data).1[i]?).map IIRFilter.state
      = (bank[i]?).map IIRFilter.state := by
  unfold filterBank
  split_ifs with hs
  · rw [cascadeStages_inactive _ _ _ i h, List.getElem?_map]
    cases bank[i]? <;> rfl
  · rfl

/-- C18, as stated, fails: a block with one stage leaves the register of stage 1
(just made inactive) at 1 instead of resetting it, and the next block with two
stages starts stage 1 from that stale register, so silence in gives 1 out. -/
theorem stage_state_not_reset :
    ((filterBank passThrough 1 staleBank [0]).1[1]?).map IIRFilter.state = some ⟨1, 0⟩ ∧
    (filterBank passThrough 2 (filterBank passThrough 1 staleBank [0]).1 [0]).2 = [1] := by
  constructor
  · simp [filterBank, staleBank, cascadeStages, IIRFilter.setCoefficients,
      IIRFilter.processSamples, processSamples, processSample, passThrough]
  · simp [filterBank, staleBank, cascadeStages, IIRFilter.setCoefficients,
      IIRFilter.processSamples, processSamples, processSample, passThrough]

/-- C18, amended: no stage is ever reset by a change of the stage count. A
block leaves the bank at its length, every active stage runs from the delay
state it holds (carried over from the last block in which it ran), and every
stage at or beyond the stage count keeps its delay state untouched, to resume
from it when it becomes active again. -/
theorem stage_state_carried_over (coeffs : FilterCoefficients) (stages : ℤ)
    (bank : List IIRFilter) (data : List ℚ) :
    (filterBank coeffs stages bank data).1.length = bank.length ∧
    (∀ i : ℕ, stages.toNat ≤ i →
      ((filterBank coeffs stages bank data).1[i]?).map IIRFilter.state
        = (bank[i]?).map IIRFilter.state) ∧
    (∀ (n : ℕ) (f : IIRFilter) (rest : List IIRFilter),
      cascadeStages (n + 1) (f :: rest) data
        = (⟨f.coefficients, (processSamples f.coefficients f.state data).1⟩
            :: (cascadeStages n rest (processSamples f.coefficients f.state data).2).1,
           (cascadeStages n rest (processSamples f.coefficients f.state data).2).2)) := by
  refine ⟨?_, fun i h => filterBank_inactive_state coeffs stages bank data i h,
    fun n f rest => rfl⟩
  unfold filterBank
  split_ifs with hs
  · rw [cascadeStages_length, List.length_map]
  · rfl

/-- Witness for C18 amended: stage 3 of a bank run with two stages. -/
theorem stage_state_carried_over_witness :
    (2 : ℤ).toNat ≤ 3 ∧
    ((filterBank passThrough 2 staleBank [1 / 2]).1[3]?).map IIRFilter.state
      = (staleBank[3]?).map IIRFilter.state :=
  ⟨by decide, (stage_state_carried_over passThrough 2 staleBank [1 / 2]).2.1 3 (by decide)⟩

/-! ### Per-channel state of the blender -/

theorem wowTapeParams_weights :
    blendWeights wowTapeParams 3 = ⟨0, 0, 803 / 1000, 0, 0, 0⟩ := by
  simp only [blendWeights, applyFocusBoost, clampWeights, rawWeights, wowTapeParams,
    silentParams, jlimit, focusBoost]
  norm_num

theorem blenderSample_wowTape_out (tanh sin : ℚ → ℚ) (twoPi wowInc : ℚ) (st : SampleState)
    (dry : ℚ) :
    (blenderSample tanh sin twoPi wowInc wowTapeParams 3 1 st dry).2
      = tapeModel tanh sin wowTapeParams (advanceWowPhase twoPi wowInc st.tapeWowPhase)
          (dry * preAtten) := by
  simp only [blenderSample, blend, wowTapeParams_weights, Weights.weightSum]
  norm_num

theorem blenderSample_phase (tanh sin : ℚ → ℚ) (twoPi wowInc : ℚ) (P : SatParams)
    (satType : ℤ) (satMix : ℚ) (st : SampleState) (dry : ℚ) :
    (blenderSample tanh sin twoPi wowInc P satType satMix st dry).1.tapeWowPhase
      = advanceWowPhase twoPi wowInc st.tapeWowPhase := rfl

/-- The wow phase after the sample loop of one channel: one advance per
sample of the channel. -/
theorem blenderChannel_phase (tanh sin : ℚ → ℚ) (twoPi wowInc : ℚ) (P : SatParams)
    (satType : ℤ) (satMix : ℚ) (data : List ℚ) :
    ∀ st : SampleState,
      (blenderChannel tanh sin twoPi wowInc P satType satMix st data).1.tapeWowPhase
        = (advanceWowPhase twoPi wowInc)^[data.length] st.tapeWowPhase := by
  induction data with
  | nil => intro st; rfl
  | cons dry rest ih =>
    intro st
    simp only [blenderChannel, ih, blenderSample_phase, List.length_cons,
      Function.iterate_succ_apply]

/-- The wow phase after the channel loop: the single phase is advanced once per
sample of every channel, so by the total number of samples in the buffer. -/
theorem blenderChannels_phase (tanh sin : ℚ → ℚ) (twoPi wowInc : ℚ) (P : SatParams)
    (satType : ℤ) (satMix : ℚ) (buffer : List (List ℚ)) :
    ∀ (ch : ℕ) (S : SatState),
      (blenderChannels tanh sin twoPi wowInc P satType satMix ch S buffer).1.tapeWowPhase
        = (advanceWowPhase twoPi wowInc)^[(buffer.map List.length).sum] S.tapeWowPhase := by
  induction buffer with
  | nil => intro ch S; rfl
  | cons data rest ih =>
    intro ch S
    simp only [blenderChannels, ih, List.map_cons, List.sum_cons]
    rw [Nat.add_comm, Function.iterate_add_apply]
    by_cases hch : ch = 0
    · simp only [if_pos hch, blenderChannel_phase]
    · simp only [if_neg hch, blenderChannel_phase]

/-- C19: the code diverges from the claim. With the tape model driven and wow at
1, a stereo block holding 1/2 in both channels and identical (zero) state comes
out with different left and right samples, because the wow phase is one
variable advanced inside the sample loop of every channel: the right channel
starts from the phase the left channel has reached. After the one-sample stereo
block the phase stands at two increments (242/385875) where the same block in
mono leaves one increment (121/385875), and for every buffer, parameter setting
and start state the phase is advanced once per sample of every channel. -/
theorem stereo_outputs_differ :
    ((legacySaturation tanhModel sinModel (44 / 7) 44100 wowTapeParams 3 1
        ⟨0, 0, 0, 0, 0, 0, 0⟩ [[1 / 2], [1 / 2]]).2
      = [[917247253328560 / 1192268280927237], [917273670784240 / 1192298374706073]] ∧
    (917247253328560 / 1192268280927237 : ℚ) ≠ 917273670784240 / 1192298374706073) ∧
    ((legacySaturation tanhModel sinModel (44 / 7) 44100 wowTapeParams 3 1
        ⟨0, 0, 0, 0, 0, 0, 0⟩ [[1 / 2], [1 / 2]]).1.tapeWowPhase = 242 / 385875 ∧
     (legacySaturation tanhModel sinModel (44 / 7) 44100 wowTapeParams 3 1
        ⟨0, 0, 0, 0, 0, 0, 0⟩ [[1 / 2]]).1.tapeWowPhase = 121 / 385875) ∧
    (∀ (tanh sin : ℚ → ℚ) (twoPi wowInc : ℚ) (P : SatParams) (satType : ℤ) (satMix : ℚ)
        (S : SatState) (left right : List ℚ),
      (blenderChannels tanh sin twoPi wowInc P satType satMix 0 S
          [left, right]).1.tapeWowPhase
        = (advanceWowPhase twoPi wowInc)^[left.length + right.length] S.tapeWowPhase) := by
  have hj : jlimit 0 1 1 = 1 := by norm_num [jlimit]
  refine ⟨⟨?_, by norm_num⟩, ⟨?_, ?_⟩, ?_⟩
  · simp only [legacySaturation, hj, blenderChannels, blenderChannel,
      blenderSample_wowTape_out, blenderSample_phase]
    norm_num [tapeModel, advanceWowPhase, tanhModel, sinModel, wowTapeParams, silentParams,
      preAtten]
    simp (disch := norm_num) only [abs_of_pos]
    norm_num
  · simp only [legacySaturation, hj, blenderChannels, blenderChannel, blenderSample_phase]
    norm_num [advanceWowPhase, wowTapeParams, silentParams]
  · simp only [legacySaturation, hj, blenderChannels, blenderChannel, blenderSample_phase]
    norm_num [advanceWowPhase, wowTapeParams, silentParams]
  · intro tanh sin twoPi wowInc P satType satMix S left right
    rw [blenderChannels_phase]
    simp only [List.map_cons, List.map_nil, List.sum_cons, List.sum_nil, Nat.add_zero]

theorem blenderSample_phase_free (tanh sin : ℚ → ℚ) (twoPi wowInc : ℚ) (P : SatParams)
    (satType : ℤ) (satMix : ℚ) (hwow : P.tapeWowVal = 0) (st st' : SampleState) (dry : ℚ)
    (hf : st.fuzzState = st'.fuzzState) (hc : st.crushCounter = st'.crushCounter)
    (hh : st.crushHold = st'.crushHold) :
    (blenderSample tanh sin twoPi wowInc P satType satMix st dry).2
      = (blenderSample tanh sin twoPi wowInc P satType satMix st' dry).2 ∧
    (blenderSample tanh sin twoPi wowInc P satType satMix st dry).1.fuzzState
      = (blenderSample tanh sin twoPi wowInc P satType satMix st' dry).1.fuzzState ∧
    (blenderSample tanh sin twoPi wowInc P satType satMix st dry).1.crushCounter
      = (blenderSample tanh sin twoPi wowInc P satType satMix st' dry).1.crushCounter ∧
    (blenderSample tanh sin twoPi wowInc P satType satMix st dry).1.crushHold
      = (blenderSample tanh sin twoPi wowInc P satType satMix st' dry).1.crushHold := by
  simp only [blenderSample, tapeModel, hwow, hf, hc, hh, mul_zero, zero_mul, add_zero,
    and_self]

theorem blenderChannel_phase_free (tanh sin : ℚ → ℚ) (twoPi wowInc : ℚ) (P : SatParams)
    (satType : ℤ) (satMix : ℚ) (hwow : P.tapeWowVal = 0) (data : List ℚ) :
    ∀ st st' : SampleState, st.fuzzState = st'.fuzzState →
      st.crushCounter = st'.crushCounter → st.crushHold = st'.crushHold →
      (blenderChannel tanh sin twoPi wowInc P satType satMix st data).2
        = (blenderChannel tanh sin twoPi wowInc P satType satMix st' data).2 ∧
      (blenderChannel tanh sin twoPi wowInc P satType satMix st data).1.fuzzState
        = (blenderChannel tanh sin twoPi wowInc P satType satMix st' data).1.fuzzState ∧
      (blenderChannel tanh sin twoPi wowInc P satType satMix st data).1.crushCounter
        = (blenderChannel tanh sin twoPi wowInc P satType satMix st' data).1.crushCounter ∧
      (blenderChannel tanh sin twoPi wowInc P satType satMix st data).1.crushHold
        = (blenderChannel tanh sin twoPi wowInc P satType satMix st' data).1.crushHold := by
  induction data with
  | nil =>
    intro st st' hf hc hh
    exact ⟨rfl, hf, hc, hh⟩
  | cons dry rest ih =>
    intro st st' hf hc hh
    obtain ⟨h2, h1f, h1c, h1h⟩ := blenderSample_phase_free tanh sin twoPi wowInc P satType
      satMix hwow st st' dry hf hc hh
    obtain ⟨i2, i1f, i1c, i1h⟩ := ih _ _ h1f h1c h1h
    simp only [blenderChannel]
    exact ⟨by rw [h2, i2], i1f, i1c, i1h⟩

/-- The part of the per-channel independence that the code does provide: the
fuzz tone state and the bitcrush counter and hold are per channel. With tape
wow at 0, where the tape model does not read the wow phase, a stereo block with
identical channels and identical fuzz and bitcrush state at block start gets
identical left and right outputs, and the fuzz and bitcrush state is identical
again at block end, for every other parameter. -/
theorem stereo_outputs_equal_without_wow (tanh sin : ℚ → ℚ) (twoPi sampleRate : ℚ)
    (P : SatParams) (satType : ℤ) (saturation : ℚ) (S : SatState) (data : List ℚ)
    (hwow : P.tapeWowVal = 0) (hf : S.fuzzToneStateL = S.fuzzToneStateR)
    (hc : S.bitcrushCounterL = S.bitcrushCounterR)
    (hh : S.bitcrushHoldL = S.bitcrushHoldR) :
    (∃ out : List ℚ,
      (legacySaturation tanh sin twoPi sampleRate P satType saturation S [data, data]).2
        = [out, out]) ∧
    (legacySaturation tanh sin twoPi sampleRate P satType saturation S
        [data, data]).1.fuzzToneStateL
      = (legacySaturation tanh sin twoPi sampleRate P satType saturation S
        [data, data]).1.fuzzToneStateR ∧
    (legacySaturation tanh sin twoPi sampleRate P satType saturation S
        [data, data]).1.bitcrushCounterL
      = (legacySaturation tanh sin twoPi sampleRate P satType saturation S
        [data, data]).1.bitcrushCounterR ∧
    (legacySaturation tanh sin twoPi sampleRate P satType saturation S
        [data, data]).1.bitcrushHoldL
      = (legacySaturation tanh sin twoPi sampleRate P satType saturation S
        [data, data]).1.bitcrushHoldR := by
  simp only [legacySaturation]
  split_ifs with hm
  · simp only [blenderChannels, if_true, Nat.zero_add, zero_add, one_ne_zero, if_false]
    obtain ⟨h2, h1f, h1c, h1h⟩ := blenderChannel_phase_free tanh sin twoPi
      (twoPi * (2 / 10 + P.tapeWowVal * 2) / sampleRate) P satType (jlimit 0 1 saturation)
      hwow data
      ⟨S.tapeWowPhase, S.fuzzToneStateL, S.bitcrushCounterL, S.bitcrushHoldL⟩
      ⟨(blenderChannel tanh sin twoPi (twoPi * (2 / 10 + P.tapeWowVal * 2) / sampleRate)
          P satType (jlimit 0 1 saturation)
          ⟨S.tapeWowPhase, S.fuzzToneStateL, S.bitcrushCounterL, S.bitcrushHoldL⟩
          data).1.tapeWowPhase,
        S.fuzzToneStateR, S.bitcrushCounterR, S.bitcrushHoldR⟩ hf hc hh
    exact ⟨⟨_, by rw [← h2]⟩, h1f, h1c, h1h⟩
  · exact ⟨⟨data, rfl⟩, hf, hc, hh⟩

/-- An instance of `stereo_outputs_equal_without_wow`: the transistor bundle
driven, tape wow 0, a two-sample stereo block from zero state. -/
theorem stereo_outputs_equal_without_wow_witness :
    (legacySaturation tanhModel sinModel (44 / 7) 44100 hotTransistorParams 2 1
        ⟨0, 0, 0, 0, 0, 0, 0⟩ [[1 / 2, -1 / 4], [1 / 2, -1 / 4]]).1.fuzzToneStateL
      = (legacySaturation tanhModel sinModel (44 / 7) 44100 hotTransistorParams 2 1
        ⟨0, 0, 0, 0, 0, 0, 0⟩ [[1 / 2, -1 / 4], [1 / 2, -1 / 4]]).1.fuzzToneStateR :=
  (stereo_outputs_equal_without_wow tanhModel sinModel (44 / 7) 44100 hotTransistorParams 2 1
    ⟨0, 0, 0, 0, 0, 0, 0⟩ [1 / 2, -1 / 4] rfl rfl rfl rfl).2.1

/-! ### Divisors of the blender -/

theorem transistorModel_divides_by_transClip (tanh : ℚ → ℚ) (P : SatParams) (dryScaled : ℚ) :
    transistorModel tanh P dryScaled
      = (jlimit (-1) 1
            (tanh (jlimit (-transClip P) (transClip P)
                (dryScaled * (1 + P.transistorDriveVal * (6 / 10)))
                * (1 + jlimit 0 1 P.transistorBiteVal * 4))
              * (1 - jlimit 0 1 P.transistorBiteVal)
            + jlimit (-transClip P) (transClip P)
                (dryScaled * (1 + P.transistorDriveVal * (6 / 10))) / transClip P
              * jlimit 0 1 P.transistorBiteVal)
          + jlimit (-1) 1
              (tanh (jlimit (-transClip P) (transClip P)
                  (dryScaled * (1 + P.transistorDriveVal * (6 / 10)))
                  * (1 + jlimit 0 1 P.transistorBiteVal * 4))
                * (1 - jlimit 0 1 P.transistorBiteVal)
              + jlimit (-transClip P) (transClip P)
                  (dryScaled * (1 + P.transistorDriveVal * (6 / 10))) / transClip P
                * jlimit 0 1 P.transistorBiteVal)
            * (5 / 100)
            * (1 - |jlimit (-1) 1
                (tanh (jlimit (-transClip P) (transClip P)
                    (dryScaled * (1 + P.transistorDriveVal * (6 / 10)))
                    * (1 + jlimit 0 1 P.transistorBiteVal * 4))
                  * (1 - jlimit 0 1 P.transistorBiteVal)
                + jlimit (-transClip P) (transClip P)
                    (dryScaled * (1 + P.transistorDriveVal * (6 / 10))) / transClip P
                  * jlimit 0 1 P.transistorBiteVal)|)
            * jlimit 0 1 P.transistorBiteVal)
        * P.transistorOutVal / preAtten := rfl

theorem fuzzGateDivisor_pos (P : SatParams) : 1 / 1000 ≤ fuzzGateDivisor P := by
  unfold fuzzGateDivisor jmax
  split_ifs with h
  · exact le_of_lt h
  · exact le_refl _

theorem transClip_eq_zero_iff (P : SatParams) :
    transClip P = 0 ↔ P.transistorClipVal = 9 / 7 := by
  unfold transClip
  constructor
  · intro h; linarith
  · intro h; rw [h]; norm_num

/-- C20, as stated, fails: at a transistor clip parameter of 9/7 the clip
level, the divisor of `transClipped / transClip`, is exactly 0. -/
theorem transClip_zero_divisor :
    transClip zeroClipLevelParams = 0 := by
  norm_num [transClip, zeroClipLevelParams, silentParams]

/-- C20, amended: for every parameter setting the divisor `max (0.001, gate)`
is at least 0.001 and the weight sum is at least 1e-4 whenever the blend
divides by it; the transistor clip level `0.9 - 0.7 * clip` is a zero divisor
exactly at `clip = 9/7`, and lies in `[0.2, 0.9]` for every clip in the
documented range `[0, 1]`. -/
theorem blender_divisors (P : SatParams) (satType : ℤ) :
    1 / 1000 ≤ fuzzGateDivisor P ∧
    (¬ (blendWeights P satType).weightSum < 1 / 10000 →
      1 / 10000 ≤ (blendWeights P satType).weightSum ∧
      ∀ dry tubeOut transOut tapeOut diodeOut fuzzOut bitOut : ℚ,
        blend (blendWeights P satType) dry tubeOut transOut tapeOut diodeOut fuzzOut bitOut
          = (tubeOut * (blendWeights P satType).tubeWeight
              + transOut * (blendWeights P satType).transistorWeight
              + tapeOut * (blendWeights P satType).tapeWeight
              + diodeOut * (blendWeights P satType).diodeWeight
              + fuzzOut * (blendWeights P satType).fuzzWeight
              + bitOut * (blendWeights P satType).bitWeight)
            / (blendWeights P satType).weightSum) ∧
    (transClip P = 0 ↔ P.transistorClipVal = 9 / 7) ∧
    (0 ≤ P.transistorClipVal ∧ P.transistorClipVal ≤ 1 →
      2 / 10 ≤ transClip P ∧ transClip P ≤ 9 / 10) := by
  refine ⟨fuzzGateDivisor_pos P, ?_, transClip_eq_zero_iff P, ?_⟩
  · intro h
    refine ⟨not_lt.mp h, ?_⟩
    intro dry tubeOut transOut tapeOut diodeOut fuzzOut bitOut
    simp only [blend]
    rw [if_neg h]
  · intro h
    unfold transClip
    constructor <;> linarith [h.1, h.2]

/-- Witness for C20 amended: the transistor bundle at the top of its range, clip
parameter 1, clip level 0.2. -/
theorem blender_divisors_witness :
    (0 ≤ hotTransistorParams.transistorClipVal ∧ hotTransistorParams.transistorClipVal ≤ 1) ∧
    (2 / 10 ≤ transClip hotTransistorParams ∧ transClip hotTransistorParams ≤ 9 / 10) ∧
    1 / 10000 ≤ (blendWeights hotTransistorParams 2).weightSum :=
  ⟨by norm_num [hotTransistorParams],
   (blender_divisors hotTransistorParams 2).2.2.2 (by norm_num [hotTransistorParams]),
   ((blender_divisors hotTransistorParams 2).2.1 (by
      simp only [blendWeights, applyFocusBoost, clampWeights, rawWeights, hotTransistorParams,
        silentParams, Weights.weightSum, jlimit, focusBoost]
      norm_num)).1⟩

theorem fuzzToneStep_divides_by_gate (P : SatParams) (fuzzState dryScaled : ℚ) :
    fuzzToneStep P fuzzState dryScaled
      = fuzzState + (8 / 100 + (1 - jlimit 0 1 P.fuzzToneVal) * (6 / 10))
          * ((if |jlimit (-1) 1 (dryScaled * (1 + P.fuzzDriveVal * (7 / 10)))|
                  < P.fuzzGateVal * (12 / 100)
                then jlimit (-1) 1 (dryScaled * (1 + P.fuzzDriveVal * (7 / 10)))
                  * (|jlimit (-1) 1 (dryScaled * (1 + P.fuzzDriveVal * (7 / 10)))|
                    / fuzzGateDivisor P)
                else jlimit (-1) 1 (dryScaled * (1 + P.fuzzDriveVal * (7 / 10)))) * (3 / 4)
              + |if |jlimit (-1) 1 (dryScaled * (1 + P.fuzzDriveVal * (7 / 10)))|
                    < P.fuzzGateVal * (12 / 100)
                  then jlimit (-1) 1 (dryScaled * (1 + P.fuzzDriveVal * (7 / 10)))
                    * (|jlimit (-1) 1 (dryScaled * (1 + P.fuzzDriveVal * (7 / 10)))|
                      / fuzzGateDivisor P)
                  else jlimit (-1) 1 (dryScaled * (1 + P.fuzzDriveVal * (7 / 10)))|
                * (if |jlimit (-1) 1 (dryScaled * (1 + P.fuzzDriveVal * (7 / 10)))|
                      < P.fuzzGateVal * (12 / 100)
                    then jlimit (-1) 1 (dryScaled * (1 + P.fuzzDriveVal * (7 / 10)))
                      * (|jlimit (-1) 1 (dryScaled * (1 + P.fuzzDriveVal * (7 / 10)))|
                        / fuzzGateDivisor P)
                    else jlimit (-1) 1 (dryScaled * (1 + P.fuzzDriveVal * (7 / 10))))
                * (1 / 4)
              - fuzzState) := rfl

/-! ### Profile presets -/

theorem applyProfileCase_keeps (profileID : ℤ) (R : Parameters) :
    (applyProfileCase profileID R).lpfSlope = R.lpfSlope ∧
    (applyProfileCase profileID R).globalOutput = R.globalOutput ∧
    (applyProfileCase profileID R).bypass = R.bypass ∧
    (applyProfileCase profileID R).hpfSlope = R.hpfSlope := by
  unfold applyProfileCase
  by_cases h1 : profileID = 1
  · rw [if_pos h1]; exact ⟨rfl, rfl, rfl, rfl⟩
  rw [if_neg h1]
  by_cases h2 : profileID = 2
  · rw [if_pos h2]; exact ⟨rfl, rfl, rfl, rfl⟩
  rw [if_neg h2]
  by_cases h3 : profileID = 3
  · rw [if_pos h3]; exact ⟨rfl, rfl, rfl, rfl⟩
  rw [if_neg h3]
  by_cases h4 : profileID = 4
  · rw [if_pos h4]; exact ⟨rfl, rfl, rfl, rfl⟩
  rw [if_neg h4]
  by_cases h5 : profileID = 5
  · rw [if_pos h5]; exact ⟨rfl, rfl, rfl, rfl⟩
  rw [if_neg h5]
  by_cases h6 : profileID = 6
  · rw [if_pos h6]; exact ⟨rfl, rfl, rfl, rfl⟩
  rw [if_neg h6]
  by_cases h7 : profileID = 7
  · rw [if_pos h7]; exact ⟨rfl, rfl, rfl, rfl⟩
  rw [if_neg h7]
  by_cases h8 : profileID = 8
  · rw [if_pos h8]; exact ⟨rfl, rfl, rfl, rfl⟩
  rw [if_neg h8]
  by_cases h9 : profileID = 9
  · rw [if_pos h9]; exact ⟨rfl, rfl, rfl, rfl⟩
  rw [if_neg h9]
  exact ⟨rfl, rfl, rfl, rfl⟩

theorem applyProfilePreset_keeps (profileID : ℤ) (P : Parameters) :
    (applyProfilePreset profileID P).lpfSlope = P.lpfSlope ∧
    (applyProfilePreset profileID P).globalOutput = P.globalOutput ∧
    (applyProfilePreset profileID P).bypass = P.bypass := by
  have h := applyProfileCase_keeps profileID
    (resetAll { P with profileType := (profileID : ℚ) })
  exact ⟨h.1, h.2.1, h.2.2.1⟩

theorem applyProfileCase_frame (profileID : ℤ) (R : Parameters) (s g : ℚ) (b : Bool) :
    applyProfileCase profileID { R with lpfSlope := s, globalOutput := g, bypass := b }
      = { applyProfileCase profileID R with lpfSlope := s, globalOutput := g, bypass := b } := by
  unfold applyProfileCase
  by_cases h1 : profileID = 1
  · simp only [if_pos h1]
  simp only [if_neg h1]
  by_cases h2 : profileID = 2
  · simp only [if_pos h2]
  simp only [if_neg h2]
  by_cases h3 : profileID = 3
  · simp only [if_pos h3]
  simp only [if_neg h3]
  by_cases h4 : profileID = 4
  · simp only [if_pos h4]
  simp only [if_neg h4]
  by_cases h5 : profileID = 5
  · simp only [if_pos h5]
  simp only [if_neg h5]
  by_cases h6 : profileID = 6
  · simp only [if_pos h6]
  simp only [if_neg h6]
  by_cases h7 : profileID = 7
  · simp only [if_pos h7]
  simp only [if_neg h7]
  by_cases h8 : profileID = 8
  · simp only [if_pos h8]
  simp only [if_neg h8]
  by_cases h9 : profileID = 9
  · simp only [if_pos h9]
  simp only [if_neg h9]

theorem applyProfilePreset_determined (profileID : ℤ) (P Q : Parameters) :
    applyProfilePreset profileID P
      = { applyProfilePreset profileID Q with
          lpfSlope := P.lpfSlope, globalOutput := P.globalOutput, bypass := P.bypass } := by
  have hreset : resetAll { P with profileType := (profileID : ℚ) }
      = { resetAll { Q with profileType := (profileID : ℚ) } with
          lpfSlope := P.lpfSlope, globalOutput := P.globalOutput, bypass := P.bypass } := rfl
  unfold applyProfilePreset
  simp only []
  rw [hreset, applyProfileCase_frame]

/-- C21 on the code: `applyProfilePreset (0)` on the default parameters and on
the same parameters with LPF slope 4 and global output -12 dB gives different
results: the LPF slope and the global output keep their values from before the
call. -/
theorem applyProfilePreset_keeps_lpfSlope_and_globalOutput :
    (applyProfilePreset 0 trimmedParameters).lpfSlope = 4 ∧
    (applyProfilePreset 0 trimmedParameters).globalOutput = -12 ∧
    (applyProfilePreset 0 defaultParameters).lpfSlope = 1 ∧
    (applyProfilePreset 0 defaultParameters).globalOutput = 0 ∧
    applyProfilePreset 0 trimmedParameters ≠ applyProfilePreset 0 defaultParameters := by
  have h1 := applyProfilePreset_keeps 0 trimmedParameters
  have h2 := applyProfilePreset_keeps 0 defaultParameters
  have e1 : (applyProfilePreset 0 trimmedParameters).lpfSlope = 4 := h1.1
  have e3 : (applyProfilePreset 0 defaultParameters).lpfSlope = 1 := h2.1
  refine ⟨e1, h1.2.1, e3, h2.2.1, ?_⟩
  intro h
  rw [h, e3] at e1
  norm_num at e1

/-! ### Offline compressor -/

/-- C22 on the code: for threshold -60 dB, ratio 20, attack 1 ms, release 100 ms,
makeup 0, 44.1 kHz and the mono input `[1, 1]` the two compressors agree on
sample 0 and differ on sample 1, where the envelope has passed 3 dB: the
real-time loop colours with `min (env * 0.02, 0.15)`, the export loop with
`min (env * 0.008, 0.08)`. -/
theorem export_compressor_differs :
    (compressBlock tanhModel expModel decibelsToGainModel gainToDecibelsModel 44100
        (-60) 20 (1 / 1000) (1 / 10) 0 0 [[1], [1]]).2
      = [[15939006139639 / 18440000000000],
         [1084164576561284714573688961578749 / 1447037988632201775203500000000000]] ∧
    exportCompressBlock tanhModel expModel decibelsToGainModel gainToDecibelsModel 44100
        (-60) 20 (1 / 1000) (1 / 10) 0 [[1], [1]]
      = [[15939006139639 / 18440000000000],
         [5357427125658166793990798450044723 / 7235189943161008876017500000000000]] ∧
    (1084164576561284714573688961578749 / 1447037988632201775203500000000000 : ℚ)
      ≠ 5357427125658166793990798450044723 / 7235189943161008876017500000000000 := by
  refine ⟨?_, ?_, by norm_num⟩
  · simp only [compressBlock, compressorLoop, compressorStep, framePeakDb, framePeak,
      List.foldl, List.map, attackCoeff, releaseCoeff, expModel, gainToDecibelsModel,
      decibelsToGainModel, gainReduction, compKneeWidth, envelopeStep, compressSample,
      tanhModel, jmax, jmin]
    norm_num
    simp (disch := norm_num) only [abs_of_pos]
    norm_num
  · simp only [exportCompressBlock, exportCompressorLoop, exportCompressorStep, framePeakDb,
      framePeak, List.foldl, List.map, attackCoeff, releaseCoeff, expModel,
      gainToDecibelsModel, decibelsToGainModel, gainReduction, compKneeWidth,
      exportEnvelopeStep, exportCompressSample, tanhModel, jmax, jmin]
    norm_num
    simp (disch := norm_num) only [abs_of_pos]
    norm_num

/-! ### Default scenario of the compressor -/

theorem gainReduction_default_eq_zero_iff (peakDb : ℚ) :
    gainReduction (-20) 4 peakDb = 0 ↔ peakDb ≤ -23 := by
  simp only [gainReduction, compKneeWidth]
  constructor
  · intro h
    by_contra hc
    have hp : peakDb > -20 - 6 / 2 := by linarith [not_le.mp hc]
    rw [if_pos hp] at h
    split_ifs at h with h2 h3
    · have hk : 0 < peakDb - -20 + 6 / 2 := by linarith
      have : 0 < (peakDb - -20 + 6 / 2) * (peakDb - -20 + 6 / 2) / (2 * 6) * (1 - 1 / 4) := by
        positivity
      linarith
    · have hs : 0 ≤ ((peakDb - -20) * (1 - 1 / 4) - 10) * (5 / 100)
          * (((peakDb - -20) * (1 - 1 / 4) - 10) * (5 / 100)) := mul_self_nonneg _
      linarith
    · linarith
  · intro h
    rw [if_neg (by linarith)]

theorem gainReduction_default_pos (gainToDecibels : ℚ → ℚ)
    (hcal : DecibelsCalibrated gainToDecibels) (frame : List ℚ)
    (hpeak : 1 / 10 ≤ framePeak frame) :
    0 < gainReduction (-20) 4 (framePeakDb gainToDecibels frame) := by
  have hlevel : -20 ≤ framePeakDb gainToDecibels frame := by
    unfold framePeakDb
    rw [← hcal.2]
    exact hcal.1 _ _ (by norm_num) (by linarith)
  have hnn := gainReduction_nonneg (-20) 4 (framePeakDb gainToDecibels frame) (by norm_num)
  rcases lt_or_eq_of_le hnn with h | h
  · exact h
  · have := (gainReduction_default_eq_zero_iff _).mp h.symm
    linarith

theorem gainToDecibelsFitModel_calibrated : DecibelsCalibrated gainToDecibelsFitModel := by
  constructor
  · intro a b ha hab
    have hb : 0 < b := lt_of_lt_of_le ha hab
    unfold gainToDecibelsFitModel
    rw [div_le_div_iff₀ (by linarith) (by linarith)]
    nlinarith
  · norm_num [gainToDecibelsFitModel]

theorem framePeak_singleton_pos (x : ℚ) (hx : 0 < x) : framePeak [x] = x := by
  simp only [framePeak, List.foldl, jmax, abs_of_pos hx]
  rw [if_pos hx]

/-- C23, as stated, fails: at the sine's peak magnitude 0.35 the detected level
is not below the knee of the default threshold, and the gain reduction is not 0. -/
theorem default_scenario_compresses :
    ¬ (gainReduction defaultParameters.compThresh defaultParameters.compRatio
        (framePeakDb gainToDecibelsFitModel [35 / 100]) = 0) := by
  have h := gainReduction_default_pos gainToDecibelsFitModel gainToDecibelsFitModel_calibrated
    [35 / 100] (by rw [framePeak_singleton_pos _ (by norm_num)]; norm_num)
  have e1 : defaultParameters.compThresh = -20 := rfl
  have e2 : defaultParameters.compRatio = 4 := rfl
  rw [e1, e2]
  exact ne_of_gt h

/-- C23, amended: in the default scenario the threshold (-20 dB, the gain 0.1) is
below the signal peak 0.35: the gain reduction is positive for every sample
index whose peak magnitude is at least 0.1, the sine's peak samples included,
and it is 0 exactly where the detected level is at most -23 dB, the lower edge
of the 6 dB knee. -/
theorem default_scenario_gain_reduction (gainToDecibels : ℚ → ℚ)
    (hcal : DecibelsCalibrated gainToDecibels) :
    defaultParameters.compThresh = -20 ∧ defaultParameters.compRatio = 4 ∧
    defaultParameters.gain = 7 / 10 ∧ compKneeWidth = 6 ∧
    (∀ frame : List ℚ, 1 / 10 ≤ framePeak frame →
      0 < gainReduction (-20) 4 (framePeakDb gainToDecibels frame)) ∧
    0 < gainReduction (-20) 4 (framePeakDb gainToDecibels [1 / 2 * (7 / 10)]) ∧
    (∀ peakDb : ℚ, gainReduction (-20) 4 peakDb = 0 ↔ peakDb ≤ -23) := by
  refine ⟨rfl, rfl, rfl, rfl, fun frame h => gainReduction_default_pos gainToDecibels hcal frame h,
    ?_, gainReduction_default_eq_zero_iff⟩
  apply gainReduction_default_pos gainToDecibels hcal
  rw [framePeak_singleton_pos _ (by norm_num)]
  norm_num

/-- Witness for C23 amended: the peak sample 0.35 under the fitted decibel
conversion. -/
theorem default_scenario_gain_reduction_witness :
    0 < gainReduction (-20) 4 (framePeakDb gainToDecibelsFitModel [1 / 2 * (7 / 10)]) :=
  (default_scenario_gain_reduction gainToDecibelsFitModel
    gainToDecibelsFitModel_calibrated).2.2.2.2.2.1

/-! ### Weighted blend -/

theorem blendWeights_nonneg (P : SatParams) (satType : ℤ) :
    0 ≤ (blendWeights P satType).tubeWeight ∧ 0 ≤ (blendWeights P satType).transistorWeight ∧
    0 ≤ (blendWeights P satType).tapeWeight ∧ 0 ≤ (blendWeights P satType).diodeWeight ∧
    0 ≤ (blendWeights P satType).fuzzWeight ∧ 0 ≤ (blendWeights P satType).bitWeight :=
  ⟨(boosted_bounds (satType = 1) _ (jlimit_unit _)).1,
   (boosted_bounds (satType = 2) _ (jlimit_unit _)).1,
   (boosted_bounds (satType = 3) _ (jlimit_unit _)).1,
   (boosted_bounds (satType = 4) _ (jlimit_unit _)).1,
   (boosted_bounds (satType = 5) _ (jlimit_unit _)).1,
   (boosted_bounds (satType = 6) _ (jlimit_unit _)).1⟩

theorem weighted_average_bounds (w1 w2 w3 w4 w5 w6 o1 o2 o3 o4 o5 o6 lo hi : ℚ)
    (h1 : 0 ≤ w1) (h2 : 0 ≤ w2) (h3 : 0 ≤ w3) (h4 : 0 ≤ w4) (h5 : 0 ≤ w5) (h6 : 0 ≤ w6)
    (hs : 0 < w1 + w2 + w3 + w4 + w5 + w6)
    (l1 : lo ≤ o1) (l2 : lo ≤ o2) (l3 : lo ≤ o3) (l4 : lo ≤ o4) (l5 : lo ≤ o5) (l6 : lo ≤ o6)
    (u1 : o1 ≤ hi) (u2 : o2 ≤ hi) (u3 : o3 ≤ hi) (u4 : o4 ≤ hi) (u5 : o5 ≤ hi) (u6 : o6 ≤ hi) :
    lo ≤ (o1 * w1 + o2 * w2 + o3 * w3 + o4 * w4 + o5 * w5 + o6 * w6)
          / (w1 + w2 + w3 + w4 + w5 + w6) ∧
    (o1 * w1 + o2 * w2 + o3 * w3 + o4 * w4 + o5 * w5 + o6 * w6)
          / (w1 + w2 + w3 + w4 + w5 + w6) ≤ hi := by
  have a1 := mul_le_mul_of_nonneg_right l1 h1
  have a2 := mul_le_mul_of_nonneg_right l2 h2
  have a3 := mul_le_mul_of_nonneg_right l3 h3
  have a4 := mul_le_mul_of_nonneg_right l4 h4
  have a5 := mul_le_mul_of_nonneg_right l5 h5
  have a6 := mul_le_mul_of_nonneg_right l6 h6
  have b1 := mul_le_mul_of_nonneg_right u1 h1
  have b2 := mul_le_mul_of_nonneg_right u2 h2
  have b3 := mul_le_mul_of_nonneg_right u3 h3
  have b4 := mul_le_mul_of_nonneg_right u4 h4
  have b5 := mul_le_mul_of_nonneg_right u5 h5
  have b6 := mul_le_mul_of_nonneg_right u6 h6
  constructor
  · rw [le_div_iff₀ hs]; linarith
  · rw [div_le_iff₀ hs]; linarith

/-- C24: whenever the weight sum is at least 1e-4 the blended sample is the sum
of the six weighted model outputs divided by the weight sum, and it lies
between the smallest and the largest of the six model outputs. -/
theorem blend_weighted_average (P : SatParams) (satType : ℤ)
    (dry tubeOut transOut tapeOut diodeOut fuzzOut bitOut : ℚ)
    (hsum : 1 / 10000 ≤ (blendWeights P satType).weightSum) :
    blend (blendWeights P satType) dry tubeOut transOut tapeOut diodeOut fuzzOut bitOut
      = (tubeOut * (blendWeights P satType).tubeWeight
          + transOut * (blendWeights P satType).transistorWeight
          + tapeOut * (blendWeights P satType).tapeWeight
          + diodeOut * (blendWeights P satType).diodeWeight
          + fuzzOut * (blendWeights P satType).fuzzWeight
          + bitOut * (blendWeights P satType).bitWeight)
        / (blendWeights P satType).weightSum ∧
    min tubeOut (min transOut (min tapeOut (min diodeOut (min fuzzOut bitOut))))
      ≤ blend (blendWeights P satType) dry tubeOut transOut tapeOut diodeOut fuzzOut bitOut ∧
    blend (blendWeights P satType) dry tubeOut transOut tapeOut diodeOut fuzzOut bitOut
      ≤ max tubeOut (max transOut (max tapeOut (max diodeOut (max fuzzOut bitOut)))) := by
  have hblend : blend (blendWeights P satType) dry tubeOut transOut tapeOut diodeOut fuzzOut
      bitOut
      = (tubeOut * (blendWeights P satType).tubeWeight
          + transOut * (blendWeights P satType).transistorWeight
          + tapeOut * (blendWeights P satType).tapeWeight
          + diodeOut * (blendWeights P satType).diodeWeight
          + fuzzOut * (blendWeights P satType).fuzzWeight
          + bitOut * (blendWeights P satType).bitWeight)
        / (blendWeights P satType).weightSum := by
    simp only [blend]
    rw [if_neg (not_lt.mpr hsum)]
  obtain ⟨n1, n2, n3, n4, n5, n6⟩ := blendWeights_nonneg P satType
  have hpos : 0 < (blendWeights P satType).tubeWeight
      + (blendWeights P satType).transistorWeight + (blendWeights P satType).tapeWeight
      + (blendWeights P satType).diodeWeight + (blendWeights P satType).fuzzWeight
      + (blendWeights P satType).bitWeight := by
    have : (0 : ℚ) < 1 / 10000 := by norm_num
    exact lt_of_lt_of_le this hsum
  have hb := weighted_average_bounds _ _ _ _ _ _ tubeOut transOut tapeOut diodeOut fuzzOut
    bitOut
    (min tubeOut (min transOut (min tapeOut (min diodeOut (min fuzzOut bitOut)))))
    (max tubeOut (max transOut (max tapeOut (max diodeOut (max fuzzOut bitOut)))))
    n1 n2 n3 n4 n5 n6 hpos
    (min_le_left _ _)
    ((min_le_right _ _).trans (min_le_left _ _))
    ((min_le_right _ _).trans ((min_le_right _ _).trans (min_le_left _ _)))
    ((min_le_right _ _).trans ((min_le_right _ _).trans ((min_le_right _ _).trans
      (min_le_left _ _))))
    ((min_le_right _ _).trans ((min_le_right _ _).trans ((min_le_right _ _).trans
      ((min_le_right _ _).trans (min_le_left _ _)))))
    ((min_le_right _ _).trans ((min_le_right _ _).trans ((min_le_right _ _).trans
      ((min_le_right _ _).trans (min_le_right _ _)))))
    (le_max_left _ _)
    ((le_max_left _ _).trans (le_max_right _ _))
    ((le_max_left _ _).trans ((le_max_right _ _).trans (le_max_right _ _)))
    ((le_max_left _ _).trans ((le_max_right _ _).trans ((le_max_right _ _).trans
      (le_max_right _ _))))
    ((le_max_left _ _).trans ((le_max_right _ _).trans ((le_max_right _ _).trans
      ((le_max_right _ _).trans (le_max_right _ _)))))
    ((le_max_right _ _).trans ((le_max_right _ _).trans ((le_max_right _ _).trans
      ((le_max_right _ _).trans (le_max_right _ _)))))
  rw [hblend]
  exact ⟨rfl, hb.1, hb.2⟩

theorem hotTransistorParams_weightSum :
    (blendWeights hotTransistorParams 2).weightSum = 11 / 10 := by
  simp only [blendWeights, applyFocusBoost, clampWeights, rawWeights, hotTransistorParams,
    silentParams, Weights.weightSum, jlimit, focusBoost]
  norm_num

/-- Witness for C24: six model outputs blended with the transistor bundle
driven. -/
theorem blend_weighted_average_witness :
    1 / 10000 ≤ (blendWeights hotTransistorParams 2).weightSum ∧
    min (1 / 2) (min (-1 / 3) (min (1 / 4) (min 0 (min (2 / 3) (-1 / 5)))))
      ≤ blend (blendWeights hotTransistorParams 2) (1 / 7) (1 / 2) (-1 / 3) (1 / 4) 0 (2 / 3)
          (-1 / 5) :=
  ⟨by rw [hotTransistorParams_weightSum]; norm_num,
   (blend_weighted_average hotTransistorParams 2 (1 / 7) (1 / 2) (-1 / 3) (1 / 4) 0 (2 / 3)
      (-1 / 5) (by rw [hotTransistorParams_weightSum]; norm_num)).2.1⟩

/-! ### Bitcrush sample-and-hold -/

theorem crushHoldStep_capture (r : ℕ) (hr : 2 ≤ r) (h x : ℚ) :
    crushHoldStep (r : ℤ) 0 h x = (((r - 1 : ℕ) : ℤ), x, x) := by
  have h1 : (r : ℤ) > 1 := by exact_mod_cast hr
  have h2 : ((r - 1 : ℕ) : ℤ) = (r : ℤ) - 1 := by
    rw [Nat.cast_sub (by omega)]; simp
  simp only [crushHoldStep, if_pos h1, le_refl, if_true, h2]

theorem crushHoldStep_hold (r : ℕ) (hr : 2 ≤ r) (j : ℕ) (h x : ℚ) :
    crushHoldStep (r : ℤ) ((j + 1 : ℕ) : ℤ) h x = ((j : ℤ), h, h) := by
  have h1 : (r : ℤ) > 1 := by exact_mod_cast hr
  have h2 : ¬ (((j + 1 : ℕ) : ℤ) ≤ 0) := by
    push_cast; omega
  have h3 : ((j + 1 : ℕ) : ℤ) - 1 = (j : ℤ) := by
    push_cast; ring
  simp only [crushHoldStep, if_pos h1, if_neg h2, h3]

theorem crushRun_spec (r : ℕ) (hr : 2 ≤ r) (xs : List ℚ) :
    ∀ (k : ℕ) (h : ℚ) (i : ℕ), i < xs.length →
      (crushRun (r : ℤ) (k : ℤ) h xs).getD i 0
        = if i < k then h else xs.getD (k + r * ((i - k) / r)) 0 := by
  induction xs with
  | nil => intro k h i hi; simp at hi
  | cons x rest ih =>
    intro k h i hi
    cases k with
    | zero =>
      have hstep := crushHoldStep_capture r hr h x
      simp only [Nat.cast_zero] at *
      simp only [crushRun, hstep]
      cases i with
      | zero => simp
      | succ m =>
        have hm : m < rest.length := by simpa using hi
        rw [List.getD_cons_succ, ih (r - 1) x m hm]
        simp only [Nat.not_lt_zero, if_false, Nat.zero_add, Nat.sub_zero]
        by_cases hlt : m < r - 1
        · rw [if_pos hlt]
          have hq : (m + 1) / r = 0 := Nat.div_eq_of_lt (by omega)
          rw [hq, Nat.mul_zero, List.getD_cons_zero]
        · rw [if_neg hlt]
          have hsplit : m + 1 = (m - (r - 1)) + r := by omega
          have hq : (m + 1) / r = (m - (r - 1)) / r + 1 := by
            rw [hsplit, Nat.add_div_right _ (by omega)]
          rw [hq, Nat.mul_add, Nat.mul_one]
          generalize r * ((m - (r - 1)) / r) = t
          have : t + r = (r - 1 + t) + 1 := by omega
          rw [this, List.getD_cons_succ]
    | succ j =>
      have hstep := crushHoldStep_hold r hr j h x
      simp only [crushRun, hstep]
      cases i with
      | zero => simp
      | succ m =>
        have hm : m < rest.length := by simpa using hi
        rw [List.getD_cons_succ, ih j h m hm]
        by_cases hlt : m < j
        · rw [if_pos hlt, if_pos (by omega)]
        · rw [if_neg hlt, if_neg (by omega)]
          have e1 : m + 1 - (j + 1) = m - j := by omega
          rw [e1]
          have : j + 1 + r * ((m - j) / r) = (j + r * ((m - j) / r)) + 1 := by omega
          rw [this, List.getD_cons_succ]

theorem crushCounters_bounds (r : ℕ) (hr : 2 ≤ r) (xs : List ℚ) :
    ∀ (c : ℤ) (h : ℚ), 0 ≤ c → c ≤ (r : ℤ) - 1 →
      ∀ c' ∈ crushCounters (r : ℤ) c h xs, 0 ≤ c' ∧ c' ≤ (r : ℤ) - 1 := by
  have h1 : (r : ℤ) > 1 := by exact_mod_cast hr
  induction xs with
  | nil => intro c h _ _ c' hc'; simp [crushCounters] at hc'
  | cons x rest ih =>
    intro c h hc0 hc1 c' hc'
    simp only [crushCounters, List.mem_cons] at hc'
    have hstep : 0 ≤ (crushHoldStep (r : ℤ) c h x).1 ∧
        (crushHoldStep (r : ℤ) c h x).1 ≤ (r : ℤ) - 1 := by
      simp only [crushHoldStep, if_pos h1]
      split_ifs with hle
      · show 0 ≤ (r : ℤ) - 1 ∧ (r : ℤ) - 1 ≤ (r : ℤ) - 1
        exact ⟨by linarith, le_refl _⟩
      · show 0 ≤ c - 1 ∧ c - 1 ≤ (r : ℤ) - 1
        exact ⟨by linarith [not_le.mp hle], by linarith⟩
    rcases hc' with rfl | hc'
    · exact hstep
    · exact ih _ _ hstep.1 hstep.2 c' hc'

/-- C25: with a constant rate `r` in `[2, 16]` and the counter starting at 0,
the value passed to the quantizer at sample index `i` is the attenuated input
at index `r * (i / r)`, a new sample being captured every `r` samples and held
in between, and the counter is in `[0, r - 1]` after every sample. -/
theorem bitcrush_sample_and_hold (r : ℕ) (hr2 : 2 ≤ r) (hr16 : r ≤ 16)
    (crushHold : ℚ) (xs : List ℚ) :
    (∀ i : ℕ, i < xs.length →
      (crushRun (r : ℤ) 0 crushHold xs).getD i 0 = xs.getD (r * (i / r)) 0) ∧
    (∀ c ∈ crushCounters (r : ℤ) 0 crushHold xs, 0 ≤ c ∧ c ≤ (r : ℤ) - 1) ∧
    (∀ (P : SatParams) (tanh sin : ℚ → ℚ) (twoPi wowInc : ℚ) (satType : ℤ) (satMix : ℚ)
        (st : SampleState) (dry : ℚ),
      (blenderSample tanh sin twoPi wowInc P satType satMix st dry).1.crushCounter
        = (crushHoldStep (jlimitInt 1 16 (roundToInt P.bitRateVal)) st.crushCounter
            st.crushHold (dry * preAtten)).1 ∧
      (blenderSample tanh sin twoPi wowInc P satType satMix st dry).1.crushHold
        = (crushHoldStep (jlimitInt 1 16 (roundToInt P.bitRateVal)) st.crushCounter
            st.crushHold (dry * preAtten)).2.1) := by
  have _ := hr16
  refine ⟨?_, ?_, fun _ _ _ _ _ _ _ _ _ => ⟨rfl, rfl⟩⟩
  · intro i hi
    have h := crushRun_spec r hr2 xs 0 crushHold i hi
    simpa using h
  · have hr1 : (0 : ℤ) ≤ (r : ℤ) - 1 := by
      have : (2 : ℤ) ≤ (r : ℤ) := by exact_mod_cast hr2
      linarith
    exact crushCounters_bounds r hr2 xs 0 crushHold (le_refl 0) hr1

/-- Witness for C25: rate 3 over seven samples, index 5 reads input 3. -/
theorem bitcrush_sample_and_hold_witness :
    (2 ≤ 3 ∧ 3 ≤ 16 ∧ 5 < [1, 2, 3, 4, 5, 6, (7 : ℚ)].length) ∧
    (crushRun ((3 : ℕ) : ℤ) 0 0 [1, 2, 3, 4, 5, 6, 7]).getD 5 0
      = [1, 2, 3, 4, 5, 6, (7 : ℚ)].getD (3 * (5 / 3)) 0 :=
  ⟨by decide,
   (bitcrush_sample_and_hold 3 (by decide) (by decide) 0 [1, 2, 3, 4, 5, 6, 7]).1 5
     (by decide)⟩

/-! ### `applyBiquad` and the difference equation -/

theorem biquadRun_eq_differenceEquationRun (b0 b1 b2 a1 a2 : ℚ) (xs : List ℚ) :
    ∀ z1 z2 x1 x2 y1 y2 : ℚ,
      z1 = b1 * x1 - a1 * y1 + b2 * x2 - a2 * y2 → z2 = b2 * x1 - a2 * y1 →
      biquadRun b0 b1 b2 a1 a2 z1 z2 xs = differenceEquationRun b0 b1 b2 a1 a2 x1 x2 y1 y2 xs := by
  induction xs with
  | nil => intro _ _ _ _ _ _ _ _; rfl
  | cons x rest ih =>
    intro z1 z2 x1 x2 y1 y2 h1 h2
    simp only [biquadRun, differenceEquationRun, applyBiquad]
    have hy : x * b0 + z1 = b0 * x + b1 * x1 + b2 * x2 - a1 * y1 - a2 * y2 := by
      rw [h1]; ring
    rw [hy]
    congr 1
    apply ih
    · rw [h2]; ring
    · ring

theorem differenceEquationRun_index (b0 b1 b2 a1 a2 : ℚ) (xs : List ℚ) :
    ∀ (x1 x2 y1 y2 : ℚ) (n : ℕ), n < xs.length →
      (differenceEquationRun b0 b1 b2 a1 a2 x1 x2 y1 y2 xs).getD n 0
        = b0 * xs.getD n 0 + b1 * (x1 :: xs).getD n 0 + b2 * (x2 :: x1 :: xs).getD n 0
          - a1 * (y1 :: differenceEquationRun b0 b1 b2 a1 a2 x1 x2 y1 y2 xs).getD n 0
          - a2 * (y2 :: y1 :: differenceEquationRun b0 b1 b2 a1 a2 x1 x2 y1 y2 xs).getD n 0 := by
  induction xs with
  | nil => intro _ _ _ _ n hn; simp at hn
  | cons x rest ih =>
    intro x1 x2 y1 y2 n hn
    cases n with
    | zero => simp [differenceEquationRun]
    | succ m =>
      have hm : m < rest.length := by simpa using hn
      have h := ih x x1 (b0 * x + b1 * x1 + b2 * x2 - a1 * y1 - a2 * y2) y1 m hm
      simp only [differenceEquationRun, List.getD_cons_succ]
      exact h

/-- C26: run from zero state over any input sequence, `applyBiquad` produces
the outputs of the standard second-order difference equation: for every index
`n`, `y[n] = b0*x[n] + b1*x[n-1] + b2*x[n-2] - a1*y[n-1] - a2*y[n-2]`, with `x`
and `y` read as 0 before the start. -/
theorem applyBiquad_difference_equation (b0 b1 b2 a1 a2 : ℚ) (xs : List ℚ) :
    biquadRun b0 b1 b2 a1 a2 0 0 xs = differenceEquationRun b0 b1 b2 a1 a2 0 0 0 0 xs ∧
    (∀ n : ℕ, n < xs.length →
      (biquadRun b0 b1 b2 a1 a2 0 0 xs).getD n 0
        = b0 * xs.getD n 0 + b1 * (0 :: xs).getD n 0 + b2 * (0 :: 0 :: xs).getD n 0
          - a1 * (0 :: biquadRun b0 b1 b2 a1 a2 0 0 xs).getD n 0
          - a2 * (0 :: 0 :: biquadRun b0 b1 b2 a1 a2 0 0 xs).getD n 0) := by
  have h := biquadRun_eq_differenceEquationRun b0 b1 b2 a1 a2 xs 0 0 0 0 0 0
    (by ring) (by ring)
  refine ⟨h, ?_⟩
  intro n hn
  rw [h]
  exact differenceEquationRun_index b0 b1 b2 a1 a2 xs 0 0 0 0 n hn

/-- Witness for C26: index 2 of a three-sample run. -/
theorem applyBiquad_difference_equation_witness :
    2 < [1, 2, (3 : ℚ)].length ∧
    (biquadRun (1 / 2) (1 / 3) (1 / 4) (1 / 5) (1 / 6) 0 0 [1, 2, 3]).getD 2 0
      = 1 / 2 * [1, 2, (3 : ℚ)].getD 2 0 + 1 / 3 * (0 :: [1, 2, (3 : ℚ)]).getD 2 0
        + 1 / 4 * (0 :: 0 :: [1, 2, (3 : ℚ)]).getD 2 0
        - 1 / 5 * (0 :: biquadRun (1 / 2) (1 / 3) (1 / 4) (1 / 5) (1 / 6) 0 0 [1, 2, 3]).getD 2 0
        - 1 / 6 * (0 :: 0
            :: biquadRun (1 / 2) (1 / 3) (1 / 4) (1 / 5) (1 / 6) 0 0 [1, 2, 3]).getD 2 0 :=
  ⟨by decide,
   (applyBiquad_difference_equation (1 / 2) (1 / 3) (1 / 4) (1 / 5) (1 / 6) [1, 2, 3]).2 2
     (by decide)⟩

/-! ### C27: the gain reduction is monotone in the detected level -/

/-- The quadratic boost past 10 dB of reduction is monotone in the linear
reduction it is applied to. -/
theorem gainReduction_boost_mono (g g' : ℚ) (h : g ≤ g') :
    (if g > 10 then g + (g - 10) * (5 / 100) * ((g - 10) * (5 / 100)) else g)
      ≤ (if g' > 10 then g' + (g' - 10) * (5 / 100) * ((g' - 10) * (5 / 100)) else g') := by
  split_ifs with h1 h2 h2
  · nlinarith [mul_nonneg (sub_nonneg.mpr h) (by linarith : (0:ℚ) ≤ g + g' - 20)]
  · linarith
  · nlinarith [mul_self_nonneg ((g' - 10) * (5 / 100))]
  · exact h

/-- C27: for every threshold and every ratio of at least 1, the soft-knee gain
reduction of `processBlock` is a monotone non-decreasing function of the
detected level `peakDb`: a louder level never gets less reduction, whichever of
the three regions (below the knee, inside the knee, above the knee with the
quadratic boost past 10 dB) the two levels fall in, so there is no downward
jump at either knee boundary. -/
theorem gainReduction_monotone (threshold ratio p q : ℚ) (hr : 1 ≤ ratio) (hpq : p ≤ q) :
    gainReduction threshold ratio p ≤ gainReduction threshold ratio q := by
  have hpos : 0 < ratio := by linarith
  have hk : 0 ≤ 1 - 1 / ratio := by
    rw [sub_nonneg, div_le_iff₀ hpos]; linarith
  simp only [gainReduction, compKneeWidth]
  generalize 1 - 1 / ratio = k at hk ⊢
  by_cases hp1 : p > threshold - 6 / 2
  · have hq1 : q > threshold - 6 / 2 := by linarith
    rw [if_pos hp1, if_pos hq1]
    by_cases hp2 : p < threshold + 6 / 2
    · rw [if_pos hp2]
      by_cases hq2 : q < threshold + 6 / 2
      · rw [if_pos hq2]
        have ha : 0 < p - threshold + 6 / 2 := by linarith
        have hsq : (p - threshold + 6 / 2) * (p - threshold + 6 / 2)
            ≤ (q - threshold + 6 / 2) * (q - threshold + 6 / 2) :=
          mul_self_le_mul_self ha.le (by linarith)
        have := mul_le_mul_of_nonneg_right hsq hk
        linarith
      · rw [if_neg hq2]
        have ha : 0 < p - threshold + 6 / 2 := by linarith
        have hb : p - threshold + 6 / 2 < 6 := by linarith
        have hsq : (p - threshold + 6 / 2) * (p - threshold + 6 / 2) ≤ 36 := by nlinarith
        have h1 : (p - threshold + 6 / 2) * (p - threshold + 6 / 2) / (2 * 6) * k ≤ 3 * k := by
          have := mul_le_mul_of_nonneg_right hsq hk
          linarith
        have h2 : 3 * k ≤ (q - threshold) * k :=
          mul_le_mul_of_nonneg_right (by linarith) hk
        have h3 : (q - threshold) * k
            ≤ (if (q - threshold) * k > 10 then
                (q - threshold) * k + ((q - threshold) * k - 10) * (5 / 100)
                  * (((q - threshold) * k - 10) * (5 / 100))
              else (q - threshold) * k) := by
          split_ifs
          · nlinarith [mul_self_nonneg (((q - threshold) * k - 10) * (5 / 100))]
          · exact le_refl _
        linarith
    · have hq2 : ¬ q < threshold + 6 / 2 := by linarith
      rw [if_neg hp2, if_neg hq2]
      exact gainReduction_boost_mono _ _ (mul_le_mul_of_nonneg_right (by linarith) hk)
  · rw [if_neg hp1]
    split_ifs with h1 h2 h3
    · have : 0 ≤ (q - threshold + 6 / 2) * (q - threshold + 6 / 2) := mul_self_nonneg _
      positivity
    · have h0 : 0 ≤ (q - threshold) * k := mul_nonneg (by linarith) hk
      nlinarith [mul_self_nonneg (((q - threshold) * k - 10) * (5 / 100))]
    · exact mul_nonneg (by linarith) hk
    · exact le_refl 0

/-- Witness for C27: at threshold -20 dB and ratio 4, the level -18 dB (inside
the knee) gets no more reduction than the level 0 dB (above the knee, past the
10 dB boost point). -/
theorem gainReduction_monotone_witness :
    (1 : ℚ) ≤ 4 ∧ (-18 : ℚ) ≤ 0 ∧
      gainReduction (-20) 4 (-18) ≤ gainReduction (-20) 4 0 :=
  ⟨by norm_num, by norm_num, gainReduction_monotone (-20) 4 (-18) 0 (by norm_num) (by norm_num)⟩

/-! ### C28: the tube branch of the saturation stage ignores the mix -/

/-- C28: when the selected saturation model is tube (`satType = 1`) and the tube
processor exists, the saturation stage of `processBlock` does not depend on the
saturation mix: for any two values of the `saturation` parameter and otherwise
equal parameters, state and input buffer, the stage leaves the same samples,
the same tube processor and the same saturation state. The processor exists
from `prepareToPlay` on, which creates it when the pointer is null. -/
theorem saturationStage_tube_ignores_mix (pow : ℚ → ℚ → ℚ)
    (cos sin sqrt tanh decibelsToGain : ℚ → ℚ) (twoPi sampleRate : ℚ) (P : SatParams)
    (saturation₁ saturation₂ : ℚ) (T : TubeSaturation) (S : SatState)
    (buffer : List (List ℚ)) (Q : ProcessorState) (rate : ℚ) :
    saturationStage pow cos sin sqrt tanh decibelsToGain twoPi sampleRate P 1 saturation₁
        (some T) S buffer
      = saturationStage pow cos sin sqrt tanh decibelsToGain twoPi sampleRate P 1 saturation₂
        (some T) S buffer ∧
    (prepareToPlay pow cos sin sqrt twoPi Q rate).tubeSaturation.isSome = true := by
  refine ⟨?_, ?_⟩
  · simp only [saturationStage, if_true]
  · simp only [prepareToPlay, Option.isSome_some]

/-! ### C29: an all-zero block through the tube processor -/

/-- With zero delay registers, a waveshaper that maps 0 to 0 and a bias of
magnitude at most 0.001 (so that the correction term is skipped), a zero sample
leaves the registers at zero and comes out as zero. -/
theorem oversampledSample_zero_of_small_bias (tanh : ℚ → ℚ) (T : TubeSaturation)
    (h0 : tanh 0 = 0) (hb : |T.bias| ≤ 1 / 1000) :
    oversampledSample tanh T TubeChannelState.zero 0 = (TubeChannelState.zero, 0) := by
  have hnb : ¬ |T.bias| > 1 / 1000 := not_lt.mpr hb
  simp only [oversampledSample, applyBiquad, TubeChannelState.zero, if_neg hnb, zero_mul,
    mul_zero, add_zero, sub_zero, h0, sanitize]
  norm_num

theorem processOversampledChannel_zero_of_small_bias (tanh : ℚ → ℚ) (T : TubeSaturation)
    (h0 : tanh 0 = 0) (hb : |T.bias| ≤ 1 / 1000) (n : ℕ) :
    processOversampledChannel tanh T TubeChannelState.zero (List.replicate n 0)
      = (TubeChannelState.zero, List.replicate n 0) := by
  induction n with
  | zero => rfl
  | succ n ih =>
    simp only [List.replicate_succ, processOversampledChannel,
      oversampledSample_zero_of_small_bias tanh T h0 hb, ih]

/-- With zero delay registers, a waveshaper that maps 0 to 0 and a bias of
magnitude above 0.001, a zero sample comes out as the correction term
`-tanh (bias / 4)` scaled by the de-emphasis `b0` and the output gain. -/
theorem oversampledSample_zero_of_bias (tanh : ℚ → ℚ) (T : TubeSaturation)
    (h0 : tanh 0 = 0) (hb : |T.bias| > 1 / 1000) :
    (oversampledSample tanh T TubeChannelState.zero 0).2
      = sanitize (some (-tanh (T.bias * (1 / 4)) * T.deEmph.b0 * T.outputGain)) := by
  simp only [oversampledSample, applyBiquad, TubeChannelState.zero, if_pos hb, zero_mul,
    mul_zero, add_zero, h0, zero_sub]

/-- C29: the all-zero block is not mapped to the all-zero block for every bias.
The processor `biasedTube` (bias 0.3, freshly reset registers, pass-through
filters, drive 10, output gain 4) maps the zero block `[[0, 0]]` to the
constant block of value `(tanh 0 - tanh (0.3 / 4)) * 4` after the output
clamp, for any waveshaper `tanh`; with the stand-in `tanhModel` this is
`-12/43` on every sample, a DC offset that the input did not have. -/
theorem tube_zero_block_gets_offset :
    (∀ tanh : ℚ → ℚ, (biasedTube.process tanh [[0, 0]]).2
      = [[sanitize (some ((tanh 0 - tanh (3 / 40)) * 4)),
          sanitize (some ((tanh 0 - tanh (3 / 40)) * 4))]]) ∧
    (biasedTube.process tanhModel [[0, 0]]).2 = [[-12 / 43, -12 / 43]] := by
  have hb : |jlimit (-1) 1 (3 / 10 : ℚ)| > 1 / 1000 := by
    norm_num [jlimit]
    rw [abs_of_pos (by norm_num)]
    norm_num
  have hj : jlimit (-1) 1 (3 / 10 : ℚ) * (1 / 4) = 3 / 40 := by norm_num [jlimit]
  have hgen : ∀ tanh : ℚ → ℚ, (biasedTube.process tanh [[0, 0]]).2
      = [[sanitize (some ((tanh 0 - tanh (3 / 40)) * 4)),
          sanitize (some ((tanh 0 - tanh (3 / 40)) * 4))]] := by
    intro tanh
    simp only [TubeSaturation.process, biasedTube, TubeSaturation.reset, TubeSaturation.setBias,
      hotTube, processChannelsFrom, processChannel, upsample, processOversampledChannel,
      oversampledSample, applyBiquad, decimate, TubeChannelState.zero, if_pos hb, hj]
    norm_num
  refine ⟨hgen, ?_⟩
  have ht0 : tanhModel 0 = 0 := by norm_num [tanhModel]
  have ht : tanhModel (3 / 40) = 3 / 43 := by
    unfold tanhModel
    rw [abs_of_pos (by norm_num)]
    norm_num
  have habs : |((0 : ℚ) - 3 / 43) * 4| = 12 / 43 := by
    rw [abs_of_neg (by norm_num)]
    norm_num
  rw [hgen tanhModel, ht0, ht]
  simp only [sanitize, jlimit, habs]
  norm_num

/-! ### C30: the fuzz tone state stays in the unit interval -/

/-- The gate of the fuzz model never raises the magnitude of a clamped sample:
below the gate level the sample is scaled by a factor in `[0, 1)`. -/
theorem fuzzGate_bound (f g : ℚ) (hf : |f| ≤ 1) :
    |if |f| < g then f * (|f| / jmax (1 / 1000) g) else f| ≤ 1 := by
  split_ifs with h
  · have hg : 0 < g := lt_of_le_of_lt (abs_nonneg f) h
    have hm : g ≤ jmax (1 / 1000) g := by
      unfold jmax
      split_ifs with h1
      · exact le_refl g
      · exact not_lt.mp h1
    have hmpos : 0 < jmax (1 / 1000) g := lt_of_lt_of_le hg hm
    have hq0 : 0 ≤ |f| / jmax (1 / 1000) g := div_nonneg (abs_nonneg f) hmpos.le
    have hq1 : |f| / jmax (1 / 1000) g ≤ 1 := by
      rw [div_le_one hmpos]
      linarith
    rw [abs_mul, abs_of_nonneg hq0]
    calc |f| * (|f| / jmax (1 / 1000) g) ≤ 1 * 1 :=
          mul_le_mul hf hq1 hq0 (by norm_num)
      _ = 1 := by norm_num
  · exact hf

/-- The octave-up mix `0.75 f + 0.25 |f| f` keeps a sample in `[-1, 1]`. -/
theorem fuzzOctave_bound (f : ℚ) (hf : |f| ≤ 1) :
    |f * (3 / 4) + |f| * f * (1 / 4)| ≤ 1 := by
  have h0 : 0 ≤ |f| := abs_nonneg f
  have h1 : f * (3 / 4) + |f| * f * (1 / 4) = f * (3 / 4 + |f| * (1 / 4)) := by ring
  have h2 : 0 ≤ 3 / 4 + |f| * (1 / 4) := by linarith
  have h3 : 3 / 4 + |f| * (1 / 4) ≤ 1 := by linarith
  rw [h1, abs_mul, abs_of_nonneg h2]
  calc |f| * (3 / 4 + |f| * (1 / 4)) ≤ 1 * 1 := mul_le_mul hf h3 h2 (by norm_num)
    _ = 1 := by norm_num

/-- A one-pole step `s + a (x - s)` with `a` in `[0, 1]` is a convex combination
of `s` and `x`. -/
theorem onePole_bound (s a x : ℚ) (hs : |s| ≤ 1) (hx : |x| ≤ 1) (ha0 : 0 ≤ a) (ha1 : a ≤ 1) :
    |s + a * (x - s)| ≤ 1 := by
  rw [abs_le] at hs hx ⊢
  constructor
  · nlinarith [mul_nonneg ha0 (by linarith [hx.1] : (0 : ℚ) ≤ x + 1),
      mul_nonneg (by linarith : (0 : ℚ) ≤ 1 - a) (by linarith [hs.1] : (0 : ℚ) ≤ s + 1)]
  · nlinarith [mul_nonneg ha0 (by linarith [hx.2] : (0 : ℚ) ≤ 1 - x),
      mul_nonneg (by linarith : (0 : ℚ) ≤ 1 - a) (by linarith [hs.2] : (0 : ℚ) ≤ 1 - s)]

/-- C30: the one-pole tone state of the fuzz model stays bounded. If the state
of a channel has magnitude at most 1 before a sample, the state written by the
fuzz model has magnitude at most 1 after it, for every input sample and every
value of the fuzz drive, gate, tone and output parameters. -/
theorem fuzzToneStep_bounded (P : SatParams) (fuzzState dryScaled : ℚ)
    (h : |fuzzState| ≤ 1) :
    |fuzzToneStep P fuzzState dryScaled| ≤ 1 := by
  have hclamp : |jlimit (-1) 1 (dryScaled * (1 + P.fuzzDriveVal * (7 / 10)))| ≤ 1 := by
    rw [abs_le]
    exact jlimit_bounds (-1) 1 _ (by norm_num)
  have htone := jlimit_bounds 0 1 P.fuzzToneVal (by norm_num)
  have hgate := fuzzGate_bound _ (P.fuzzGateVal * (12 / 100)) hclamp
  have hoct := fuzzOctave_bound _ hgate
  simp only [fuzzToneStep]
  exact onePole_bound _ _ _ h hoct (by linarith [htone.2]) (by linarith [htone.1])

/-- Witness for C30: from the state 0 and the input sample 5, the fuzz model
with the parameters of `hotTransistorParams` writes a state of magnitude at
most 1. -/
theorem fuzzToneStep_bounded_witness :
    |(0 : ℚ)| ≤ 1 ∧ |fuzzToneStep hotTransistorParams 0 5| ≤ 1 :=
  ⟨by norm_num, fuzzToneStep_bounded hotTransistorParams 0 5 (by norm_num)⟩

end StaticCurrents
